import Mathlib

/-!
# The request-dispatch core of lc-sdk-go

A shallow embedding of `internal/web_api.go` (package `internal`), of the
`authorization` package, of the constructors of the agent and configuration
clients, and of the methods of those clients that do more than pass their
arguments on (`CreateBot`, `UpdateBot`, `PublishProperty`, `SendEvent`,
`StartChat`, `ResumeChat`, the accessors of `Event` and the archives filters),
followed by theorems about them.

Modelling conventions.

* The collaborators of a client are deterministic scripts.  The token getter is
  a function of the number of times it has been invoked before, the transport a
  function of the number of requests it has received before and of the request,
  the retry strategy a function of its two arguments.
* Every effect of a call is recorded in a `World`: how often the token getter
  ran, which requests reached the transport, what the retry strategy was asked,
  what the stats sink and the logger received, how often the payload was encoded.
* The standard library (`encoding/json`, `net/url`, `go-querystring`) is a
  parameter, gathered in `Codec`; `mime/multipart` is the parameter
  `MultipartWriter`.
* The retry loop of `send` recurses without bound, so its model takes fuel and
  reports `Outcome.outOfFuel` when the fuel is used up.
* `uint` is 64 bits wide; the attempt counter wraps modulo `uintSize`.
* Wall-clock time (`ExecutionTime`) is not modelled.
* Option pointers passed to `Call` are non-nil.
* A nil pointer and a nil slice are `none` where the code tells nil from empty,
  and the empty list otherwise; the default of a struct field is its zero value.
-/

namespace LcSdk

/-! ## Package `authorization` -/

/-- Modelled from the spec: the declaration of `authorization.TokenType` and of its
constants is not among the sources.  The spec knows two supported credential kinds,
a bearer-style and a basic-style one; the tests build further values by conversion
from an integer (`authorization.TokenType(2020)`). -/
inductive TokenType
  | BearerToken
  | BasicToken
  | other (code : Int)
deriving DecidableEq

/-- Modelled from the spec: the kind-string of a credential kind, as `%s` renders it
(`Bearer access_token` and `Basic access_token` in the tests).  The rendering of an
unsupported value is not fixed by the spec; it is taken to be empty. -/
def TokenType.toString : TokenType → String
  | .BearerToken => "Bearer"
  | .BasicToken => "Basic"
  | .other _ => ""

/-- Token represents SSO token from Chat API's perspective. -/
structure Token where
  AccessToken : String
  Region : String
  Type' : TokenType
  OrganizationID : String
deriving DecidableEq

/-! ## Package `errors` -/

/-- Modelled from the spec: the `errors` package is not among the sources.  An API
error carries a category string and a message, parsed from the `error` object of a
non-200 JSON body; the object is absent when the body has none. -/
structure ErrAPI where
  APIError : Option (String × String)
deriving DecidableEq

/-- Modelled from the spec: the rendered form of an API error is
`API error: <type> - <message>`; it is empty when parsing yielded no usable error type,
that is when no error object was decoded or the decoded one has an empty type. -/
def ErrAPI.Error : ErrAPI → String
  | ⟨none⟩ => ""
  | ⟨some (type, message)⟩ =>
    if type = "" then "" else "API error: " ++ type ++ " - " ++ message

/-- A Go `error` value that is not nil: either a plain message (`errors.New`,
`fmt.Errorf`, errors of the standard library) or a decoded `*ErrAPI`. -/
inductive GoError
  | text (msg : String)
  | api (e : ErrAPI)
deriving DecidableEq

/-- The `Error()` method of an error value. -/
def GoError.Error : GoError → String
  | .text msg => msg
  | .api e => e.Error

/-! ## `net/http` values -/

/-- The bytes that `validHeaderFieldByte` accepts: the token characters of RFC 7230. -/
def validHeaderFieldByte (c : Char) : Bool :=
  let n := c.toNat
  (48 ≤ n && n ≤ 57) || (65 ≤ n && n ≤ 90) || (97 ≤ n && n ≤ 122) ||
    [33, 35, 36, 37, 38, 39, 42, 43, 45, 46, 94, 95, 96, 124, 126].contains n

/-- The canonicalising pass: upper case for the first letter and for a letter after a
dash, lower case elsewhere. -/
def canonicalize : Bool → List Char → List Char
  | _, [] => []
  | upper, c :: cs =>
    let n := c.toNat
    let c1 : Char :=
      if upper && 97 ≤ n && n ≤ 122 then Char.ofNat (n - 32)
      else if !upper && 65 ≤ n && n ≤ 90 then Char.ofNat (n + 32)
      else c
    c1 :: canonicalize (c1 == '-') cs

/-- The function `textproto.CanonicalMIMEHeaderKey`: a key with a byte that is not a
token character is returned unchanged. -/
def CanonicalMIMEHeaderKey (s : String) : String :=
  if s.data.all validHeaderFieldByte then String.mk (canonicalize true s.data) else s

/-- A `http.Header`, a map from canonical keys to value lists, as an association list. -/
abbrev Header := List (String × List String)

/-- The method `Header.Set`: it replaces whatever the canonical key held. -/
def Header.Set (h : Header) (key value : String) : Header :=
  (CanonicalMIMEHeaderKey key, [value]) ::
    h.filter (fun e => e.1 != CanonicalMIMEHeaderKey key)

/-- The method `Header.Get`: the first value of the canonical key, or the empty string. -/
def Header.Get (h : Header) (key : String) : String :=
  match h.lookup (CanonicalMIMEHeaderKey key) with
  | some (v :: _) => v
  | _ => ""

/-- The part of a parsed `url.URL` that the dispatcher touches is `RawQuery`; the
rest of the URL is kept as one string. -/
structure URL where
  Base : String
  RawQuery : String
deriving DecidableEq

/-- A `http.Request`.  `Body` is nil or a reader, given by the bytes it still
yields; `GetBody` is nil or a function whose result is a fresh reader or an error. -/
structure Request where
  Method : String
  URL : URL
  Header : Header
  Body : Option String
  GetBody : Option (Except GoError String)

/-- A `http.Response` after `io.ReadAll(resp.Body)`: the bytes read and the read error. -/
structure Response where
  StatusCode : Int
  Header : Header
  bodyBytes : String
  readErr : Option GoError

/-! ## Package `internal` -/

/-- The width of `uint` is 64 bits. -/
def uintSize : Nat := 2 ^ 64

/-- The constant `apiVersion`. -/
def apiVersion : String := "3.6"

/-- The type `CallOptions`. -/
structure CallOptions where
  Method : String
deriving DecidableEq

/-- The record `metrics.APICallStats` without its `ExecutionTime`. -/
structure APICallStats where
  Method : String
  Success : Bool
deriving DecidableEq

/-- The struct `api`.  The stats sink and the logger only receive values; what they
receive is recorded in the `World`. -/
structure api where
  httpClient : Nat → Request → Except GoError Response
  clientID : String
  tokenGetter : Nat → Option Token
  httpEndpointGenerator : Token → String → String → String
  host : String
  customHeaders : Header
  retryStrategy : Option (Nat → ErrAPI → Bool)

/-- The standard-library functions a call goes through, for a payload type `π` and a
response target type `ρ`: `json.Marshal`, `query.Values` followed by `Encode`,
`json.Unmarshal` into an `ErrAPI` and into the response target (which it may change
even when it fails), and the URL parsing of `http.NewRequest`. -/
structure Codec (π ρ : Type) where
  jsonMarshal : π → Except GoError String
  queryValuesEncode : π → Except GoError String
  jsonUnmarshalErrAPI : String → Except GoError ErrAPI
  jsonUnmarshal : String → ρ → ρ × Option GoError
  urlParse : String → Except GoError URL

/-- The effects observed so far. -/
structure World where
  tokenCalls : Nat
  sent : List Request
  consulted : List (Nat × ErrAPI)
  stats : List APICallStats
  logs : List String
  marshalCalls : Nat

/-- The world before anything happened. -/
def World.init : World :=
  { tokenCalls := 0, sent := [], consulted := [], stats := [], logs := [], marshalCalls := 0 }

/-- How a function ended: the fuel of the model ran out, the Go code panicked, or it
returned an `error` (nil is `none`). -/
inductive Outcome
  | outOfFuel
  | panicked
  | returned (err : Option GoError)
deriving DecidableEq

/-- The result of running a method: the world after it, the response target after it
and the outcome. -/
structure Run (ρ : Type) where
  world : World
  target : ρ
  outcome : Outcome

/-- The method `api.getToken`. -/
def getToken (a : api) (w : World) : World × Except GoError Token :=
  let w1 := { w with tokenCalls := w.tokenCalls + 1 }
  match a.tokenGetter w.tokenCalls with
  | none => (w1, .error (.text "couldn't get token"))
  | some token =>
    if token.Type' ≠ TokenType.BearerToken ∧ token.Type' ≠ TokenType.BasicToken then
      (w1, .error (.text "unsupported token type"))
    else
      (w1, .ok token)

/-- The rendering `fmt.Sprintf("%s %s", token.Type', token.AccessToken)`. -/
def authorizationValue (token : Token) : String :=
  token.Type'.toString ++ " " ++ token.AccessToken

/-- What one run of the closure `do` of `api.send` comes to: it returns (or panics), or
it reaches `return do()` with the attempt counter, the request and the world as they
are at that point. -/
inductive Attempt (ρ : Type)
  | ended (r : Run ρ)
  | again (attempts : Nat) (req : Request) (w : World)

/-- The body of the closure `do` of `api.send`.  The attempt counter and the request,
which the closure shares with its enclosing function, are arguments.  The transport
consumes the body reader of the request it is given. -/
def send_attempt {π ρ : Type} (a : api) (c : Codec π ρ) (attempts : Nat) (req : Request)
    (respPayload : ρ) (w : World) : Attempt ρ :=
  let w1 := { w with sent := w.sent ++ [req] }
  match a.httpClient w.sent.length req with
  | .error err => .ended ⟨w1, respPayload, .returned (some err)⟩
  | .ok resp =>
    let req := { req with Body := req.Body.map (fun _ => "") }
    if resp.StatusCode ≠ 200 then
      match c.jsonUnmarshalErrAPI resp.bodyBytes with
      | .error err =>
        .ended ⟨w1, respPayload, .returned (some (.text
          ("couldn't unmarshal error response: " ++ err.Error ++ " (code: " ++
            toString resp.StatusCode ++ ", raw body: " ++ resp.bodyBytes ++ ")")))⟩
      | .ok apiErr =>
        if apiErr.Error = "" then
          .ended ⟨w1, respPayload, .returned (some (.text
            ("couldn't unmarshal error response (code: " ++
              toString resp.StatusCode ++ ", raw body: " ++ resp.bodyBytes ++ ")")))⟩
        else
          match a.retryStrategy with
          | none => .ended ⟨w1, respPayload, .returned (some (.api apiErr))⟩
          | some retryStrategy =>
            let w2 := { w1 with consulted := w1.consulted ++ [(attempts, apiErr)] }
            if !retryStrategy attempts apiErr then
              .ended ⟨w2, respPayload, .returned (some (.api apiErr))⟩
            else
              match getToken a w2 with
              | (w3, .error err) => .ended ⟨w3, respPayload, .returned (some err)⟩
              | (w3, .ok token) =>
                let req := { req with
                  Header := req.Header.Set "Authorization" (authorizationValue token) }
                match req.Body with
                | none => .again ((attempts + 1) % uintSize) req w3
                | some _ =>
                  match req.GetBody with
                  | none => .ended ⟨w3, respPayload, .panicked⟩
                  | some (.error err) =>
                    .ended ⟨w3, respPayload, .returned (some (.text
                      ("couldn't get request body: " ++ err.Error)))⟩
                  | some (.ok reqBody) =>
                    .again ((attempts + 1) % uintSize) { req with Body := some reqBody } w3
    else
      match resp.readErr with
      | some err => .ended ⟨w1, respPayload, .returned (some err)⟩
      | none =>
        let w2 :=
          if resp.Header.Get "Legacy" ≠ "" then
            { w1 with logs := w1.logs ++
                ["[Notice] This is a legacy version. It will be deprecated after " ++
                  resp.Header.Get "Legacy" ++ "."] }
          else w1
        let w3 :=
          if resp.Header.Get "Deprecation" ≠ "" then
            { w2 with logs := w2.logs ++
                ["[Warning] This version is deprecated. It will be decommissioned after " ++
                  resp.Header.Get "Deprecation" ++ "."] }
          else w2
        let r := c.jsonUnmarshal resp.bodyBytes respPayload
        .ended ⟨w3, r.1, .returned r.2⟩

/-- The closure `do` of `api.send`: its body, run again at each `return do()`, for as
long as the fuel lasts. -/
def send_do {π ρ : Type} (a : api) (c : Codec π ρ) :
    Nat → Nat → Request → ρ → World → Run ρ
  | 0, _, _, respPayload, w => ⟨w, respPayload, .outOfFuel⟩
  | fuel + 1, attempts, req, respPayload, w =>
    match send_attempt a c attempts req respPayload w with
    | .ended r => r
    | .again attempts req w => send_do a c fuel attempts req respPayload w

/-- The method `api.send`: the closure is entered with `attempts = 0`. -/
def send {π ρ : Type} (a : api) (c : Codec π ρ) (fuel : Nat) (req : Request)
    (respPayload : ρ) (w : World) : Run ρ :=
  send_do a c fuel 0 req respPayload w

/-- The loop of `Call` over `a.customHeaders`: an entry without values is skipped, of
the others the first value is set. -/
def setCustomHeaders (h : Header) (customHeaders : Header) : Header :=
  customHeaders.foldl
    (fun acc e => match e.2 with
      | [] => acc
      | v :: _ => acc.Set e.1 v) h

/-- The condition `len(opts) > 0 && opts[0].Method == http.MethodGet`. -/
def isGet : List CallOptions → Bool
  | [] => false
  | o :: _ => o.Method == "GET"

/-- The four standard headers of `Call`, followed by the custom headers. -/
def callHeaders (a : api) (token : Token) (h : Header) : Header :=
  setCustomHeaders
    ((((h.Set "Content-Type" "application/json").Set
      "Authorization" (authorizationValue token)).Set
      "User-agent" ("GO SDK Application " ++ a.clientID)).Set
      "X-Region" token.Region)
    a.customHeaders

/-- The tail of `Call` from the header block on: send, then report to the stats sink. -/
def callSend {π ρ : Type} (a : api) (c : Codec π ρ) (fuel : Nat) (action : String)
    (token : Token) (req : Request) (respPayload : ρ) (w : World) : Run ρ :=
  let req := { req with Header := callHeaders a token req.Header }
  let r := send a c fuel req respPayload w
  match r.outcome with
  | .returned err =>
    { r with world := { r.world with
        stats := r.world.stats ++ [{ Method := action, Success := err.isNone }] } }
  | _ => r

/-- The method `api.Call`. -/
def Call {π ρ : Type} (a : api) (c : Codec π ρ) (fuel : Nat) (action : String)
    (reqPayload : π) (respPayload : ρ) (opts : List CallOptions) (w : World) : Run ρ :=
  match getToken a w with
  | (w1, .error err) => ⟨w1, respPayload, .returned (some err)⟩
  | (w1, .ok token) =>
    let endpoint := a.httpEndpointGenerator token a.host action
    match c.urlParse endpoint with
    | .error err =>
      ⟨w1, respPayload, .returned (some (.text
        ("couldn't create new http request: " ++ err.Error)))⟩
    | .ok url =>
      let req : Request :=
        { Method := "POST", URL := url, Header := [], Body := none, GetBody := none }
      if isGet opts then
        match c.queryValuesEncode reqPayload with
        | .error err => ⟨w1, respPayload, .returned (some err)⟩
        | .ok qs =>
          let encodedQuery :=
            if req.URL.RawQuery ≠ "" ∧ qs ≠ "" then "&" ++ qs else qs
          callSend a c fuel action token
            { req with
              Method := "GET"
              URL := { req.URL with RawQuery := req.URL.RawQuery ++ encodedQuery } }
            respPayload w1
      else
        let w2 := { w1 with marshalCalls := w1.marshalCalls + 1 }
        match c.jsonMarshal reqPayload with
        | .error err => ⟨w2, respPayload, .returned (some err)⟩
        | .ok rawBody =>
          callSend a c fuel action token
            { req with GetBody := some (.ok rawBody), Body := some rawBody }
            respPayload w2

/-- The method `api.SetCustomHeader`. -/
def SetCustomHeader (a : api) (key val : String) : api :=
  { a with customHeaders := a.customHeaders.Set key val }

/-- The method `api.SetRetryStrategy`. -/
def SetRetryStrategy (a : api) (f : Option (Nat → ErrAPI → Bool)) : api :=
  { a with retryStrategy := f }

/-- The function `DefaultHTTPRequestGenerator`: the endpoint
`fmt.Sprintf("%s/v%s/%s/action/%s", host, apiVersion, name, action)`. -/
def DefaultHTTPRequestGenerator (name : String) : Token → String → String → String :=
  fun _ host action => host ++ "/v" ++ apiVersion ++ "/" ++ name ++ "/action/" ++ action

/-- The function `NewAPI`.  A nil argument is `none`.  The client that replaces a nil
one, a `http.Client` with a timeout of 20 s over the default transport, is the argument
`defaultClient`.  The stats sink it installs does nothing and its logger is the default
one; what they receive is recorded in the `World` all the same. -/
def NewAPI (defaultClient : Nat → Request → Except GoError Response)
    (t : Option (Nat → Option Token))
    (client : Option (Nat → Request → Except GoError Response)) (clientID : String)
    (r : Token → String → String → String) : Except GoError api :=
  match t with
  | none => .error (.text "cannot initialize api without TokenGetter")
  | some t =>
    .ok { tokenGetter := t
          clientID := clientID
          httpClient := match client with
            | none => defaultClient
            | some client => client
          host := "https://api.livechatinc.com"
          httpEndpointGenerator := r
          customHeaders := []
          retryStrategy := none }

/-- The struct `fileUploadAPI`: an `api` that also has the method `UploadFile`. -/
structure fileUploadAPI where
  api : api

/-- The function `NewAPIWithFileUpload`. -/
def NewAPIWithFileUpload (defaultClient : Nat → Request → Except GoError Response)
    (t : Option (Nat → Option Token))
    (client : Option (Nat → Request → Except GoError Response)) (clientID : String)
    (r : Token → String → String → String) : Except GoError fileUploadAPI :=
  match NewAPI defaultClient t client clientID r with
  | .error err => .error err
  | .ok api => .ok { api := api }

/-- The constructor `NewAPI` of the package `agent`. -/
def agent.NewAPI (defaultClient : Nat → Request → Except GoError Response)
    (t : Option (Nat → Option Token))
    (client : Option (Nat → Request → Except GoError Response)) (clientID : String) :
    Except GoError fileUploadAPI :=
  match NewAPIWithFileUpload defaultClient t client clientID
      (DefaultHTTPRequestGenerator "agent") with
  | .error err => .error err
  | .ok api => .ok api

/-- The constructor `NewAPI` of the package `configuration`. -/
def configuration.NewAPI (defaultClient : Nat → Request → Except GoError Response)
    (t : Option (Nat → Option Token))
    (client : Option (Nat → Request → Except GoError Response)) (clientID : String) :
    Except GoError api :=
  match LcSdk.NewAPI defaultClient t client clientID
      (DefaultHTTPRequestGenerator "configuration") with
  | .error err => .error err
  | .ok api => .ok api

/-- The method `API.SetAuthorID` of the package `agent`. -/
def agent.SetAuthorID (a : api) (authorID : String) : api :=
  SetCustomHeader a "X-Author-Id" authorID

/-- The functions of `mime/multipart` that `UploadFile` goes through, for a writer over
a fresh buffer: the three writing steps with the error each may return (nil is `none`),
the bytes that the buffer holds after them for a file name and a file, and the content
type, which names the boundary of the writer. -/
structure MultipartWriter where
  CreateFormFile : String → String → Option GoError
  Write : String → Option GoError
  Close : Option GoError
  Bytes : String → String → String
  FormDataContentType : String

/-- The anonymous struct into which `UploadFile` decodes the response. -/
structure uploadResponse where
  URL : String
deriving DecidableEq

/-- The four headers that `UploadFile` sets. -/
def uploadHeaders (a : api) (m : MultipartWriter) (token : Token) (h : Header) : Header :=
  (((h.Set "Content-Type" m.FormDataContentType).Set
    "Authorization" (authorizationValue token)).Set
    "User-agent" ("GO SDK Application " ++ a.clientID)).Set
    "X-Region" token.Region

/-- The method `fileUploadAPI.UploadFile`.  The result holds the returned string as its
target. -/
def UploadFile {π : Type} (a : fileUploadAPI) (c : Codec π uploadResponse)
    (m : MultipartWriter) (fuel : Nat) (filename file : String) (w : World) : Run String :=
  let w1 := { w with tokenCalls := w.tokenCalls + 1 }
  match a.api.tokenGetter w.tokenCalls with
  | none => ⟨w1, "", .returned (some (.text "couldn't get token"))⟩
  | some token =>
    let endpoint := a.api.httpEndpointGenerator token a.api.host "upload_file"
    match c.urlParse endpoint with
    | .error err =>
      ⟨w1, "", .returned (some (.text
        ("couldn't create new http request: " ++ err.Error)))⟩
    | .ok url =>
      let req : Request :=
        { Method := "POST", URL := url, Header := [], Body := none, GetBody := none }
      match m.CreateFormFile "file" filename with
      | some err =>
        ⟨w1, "", .returned (some (.text ("couldn't create form file: " ++ err.Error)))⟩
      | none =>
        match m.Write file with
        | some err =>
          ⟨w1, "", .returned (some (.text
            ("couldn't write file to multipart writer: " ++ err.Error)))⟩
        | none =>
          match m.Close with
          | some err =>
            ⟨w1, "", .returned (some (.text
              ("couldn't close multipart writer: " ++ err.Error)))⟩
          | none =>
            let req := { req with
              GetBody := some (.ok (m.Bytes filename file))
              Body := some (m.Bytes filename file) }
            let req := { req with Header := uploadHeaders a.api m token req.Header }
            let r := send a.api c fuel req { URL := "" } w1
            match r.outcome with
            | .returned err =>
              ⟨{ r.world with
                  stats := r.world.stats ++
                    [{ Method := "upload_file", Success := err.isNone }] },
                r.target.URL, .returned err⟩
            | o => ⟨r.world, r.target.URL, o⟩

/-! ## `encoding/json` for the request structs -/

/-- An object as `encoding/json` writes it: the members, each a quoted key, a colon and
the encoded value, between braces and separated by commas. -/
def jsonObject (members : List (String × String)) : String :=
  "\x7b" ++ ",".intercalate (members.map (fun m => "\"" ++ m.1 ++ "\":" ++ m.2)) ++ "\x7d"

/-- An array as `encoding/json` writes it. -/
def jsonArray (items : List String) : String :=
  "[" ++ ",".intercalate items ++ "]"

/-- A boolean as `encoding/json` writes it. -/
def jsonBool (b : Bool) : String :=
  if b then "true" else "false"

/-- A slice of strings as `encoding/json` writes it, given the encoding `q` of a string;
a nil slice is `none`. -/
def jsonStrings (q : String → String) : Option (List String) → String
  | none => "null"
  | some xs => jsonArray (xs.map q)

/-! ## Package `configuration` -/

/-- Modelled from the spec: the declaration of `GroupPriority` is not among the sources.
The package and its tests give the fields of this type string literals, and the request
structs encode them as JSON strings. -/
abbrev configuration.GroupPriority := String

/-- GroupConfig defines bot's priority and membership in group. -/
structure configuration.GroupConfig where
  ID : Nat := 0
  Priority : configuration.GroupPriority := ""
deriving DecidableEq

/-- Schedule represent a single day work schedule. -/
structure configuration.Schedule where
  Enabled : Bool := false
  Day : String := ""
  Start : String := ""
  End : String := ""
deriving DecidableEq

/-- WorkScheduler represents work schedule data.  A nil slice is `none`. -/
structure configuration.WorkScheduler where
  Timezone : String := ""
  Schedule : Option (List configuration.Schedule) := none
deriving DecidableEq

/-- The struct `CreateBotRequestOptions`; the default of each field is its zero value,
a nil pointer is `none`, a nil slice the empty list. -/
structure configuration.CreateBotRequestOptions where
  Avatar : String := ""
  DefaultGroupPriority : configuration.GroupPriority := ""
  JobTitle : String := ""
  MaxChatsCount : Option Nat := none
  Groups : List configuration.GroupConfig := []
  OwnerClientID : String := ""
  WorkScheduler : Option configuration.WorkScheduler := none
deriving DecidableEq

/-- The struct `UpdateBotRequestOptions`. -/
structure configuration.UpdateBotRequestOptions where
  Name : String := ""
  Avatar : String := ""
  DefaultGroupPriority : configuration.GroupPriority := ""
  JobTitle : String := ""
  MaxChatsCount : Option Nat := none
  Groups : List configuration.GroupConfig := []
  OwnerClientID : String := ""
  WorkScheduler : Option configuration.WorkScheduler := none
deriving DecidableEq

/-- The struct `createBotRequest`: the name and the embedded options. -/
structure configuration.createBotRequest where
  Name : String := ""
  CreateBotRequestOptions : configuration.CreateBotRequestOptions := {}
deriving DecidableEq

/-- The struct `createBotResponse`. -/
structure configuration.createBotResponse where
  BotID : String := ""
deriving DecidableEq

/-- The struct `updateBotRequest`: the id and the embedded options. -/
structure configuration.updateBotRequest where
  BotID : String := ""
  UpdateBotRequestOptions : configuration.UpdateBotRequestOptions := {}
deriving DecidableEq

/-- The struct `publishPropertyRequest`. -/
structure configuration.publishPropertyRequest where
  Name : String := ""
  OwnerClientID : String := ""
  AccessType : List String := []
deriving DecidableEq

/-- The function `validateBotGroupsAssignment`.  The constant `DoNotAssign`, whose
declaration is not among the sources, is the argument of that name. -/
def configuration.validateBotGroupsAssignment (DoNotAssign : configuration.GroupPriority) :
    List configuration.GroupConfig → Option GoError
  | [] => none
  | group :: groups =>
    if group.Priority = DoNotAssign then
      some (.text "DoNotAssign priority is allowed only as default group priority")
    else
      configuration.validateBotGroupsAssignment DoNotAssign groups

/-- The method `API.CreateBot`.  Nil options are `none`. -/
def configuration.CreateBot (DoNotAssign : configuration.GroupPriority) (a : api)
    (c : Codec configuration.createBotRequest configuration.createBotResponse)
    (fuel : Nat) (name : String) (opts : Option configuration.CreateBotRequestOptions)
    (w : World) : Run String :=
  let req : configuration.createBotRequest := { Name := name }
  let req : configuration.createBotRequest :=
    match opts with
    | some opts => { req with CreateBotRequestOptions := opts }
    | none => req
  match configuration.validateBotGroupsAssignment DoNotAssign
      req.CreateBotRequestOptions.Groups with
  | some err => ⟨w, "", .returned (some err)⟩
  | none =>
    let r := Call a c fuel "create_bot" req ({} : configuration.createBotResponse) [] w
    ⟨r.world, r.target.BotID, r.outcome⟩

/-- The method `API.UpdateBot`.  The response target is an `emptyResponse`. -/
def configuration.UpdateBot (DoNotAssign : configuration.GroupPriority) (a : api)
    (c : Codec configuration.updateBotRequest Unit)
    (fuel : Nat) (id : String) (opts : Option configuration.UpdateBotRequestOptions)
    (w : World) : Run Unit :=
  let req : configuration.updateBotRequest := { BotID := id }
  let req : configuration.updateBotRequest :=
    match opts with
    | some opts => { req with UpdateBotRequestOptions := opts }
    | none => req
  match configuration.validateBotGroupsAssignment DoNotAssign
      req.UpdateBotRequestOptions.Groups with
  | some err => ⟨w, (), .returned (some err)⟩
  | none => Call a c fuel "update_bot" req () [] w

/-- The method `API.PublishProperty`.  The slice `make([]string, 2)` has two elements,
both the empty string, and `append` adds after them. -/
def configuration.PublishProperty (a : api)
    (c : Codec configuration.publishPropertyRequest Unit) (fuel : Nat)
    (name ownerClientID : String) (read write : Bool) (w : World) : Run Unit :=
  let accessType : List String := List.replicate 2 ""
  let accessType := if read then accessType ++ ["read"] else accessType
  let accessType := if write then accessType ++ ["write"] else accessType
  Call a c fuel "publish_property"
    ({ Name := name, OwnerClientID := ownerClientID, AccessType := accessType } :
      configuration.publishPropertyRequest)
    () [] w

/-- The members that `encoding/json` writes for a `GroupConfig`, given the encoding `q`
of a string. -/
def configuration.GroupConfig.MarshalJSON (q : String → String)
    (g : configuration.GroupConfig) : String :=
  jsonObject [("id", toString g.ID), ("priority", q g.Priority)]

/-- What `encoding/json` writes for a `Schedule`. -/
def configuration.Schedule.MarshalJSON (q : String → String)
    (s : configuration.Schedule) : String :=
  jsonObject [("enabled", jsonBool s.Enabled), ("day", q s.Day), ("start", q s.Start),
    ("end", q s.End)]

/-- What `encoding/json` writes for a `WorkScheduler`; a nil slice is written `null`. -/
def configuration.WorkScheduler.MarshalJSON (q : String → String)
    (ws : configuration.WorkScheduler) : String :=
  jsonObject [("timezone", q ws.Timezone),
    ("schedule", match ws.Schedule with
      | none => "null"
      | some days => jsonArray (days.map (configuration.Schedule.MarshalJSON q)))]

/-- The members of the object that `encoding/json` writes for a `createBotRequest`,
after the tags of its fields and of the fields of the embedded options: `name` always,
each field tagged `omitempty` only when it is not the empty string, a nil pointer or an
empty slice. -/
def configuration.createBotRequest.members (q : String → String)
    (req : configuration.createBotRequest) : List (String × String) :=
  [("name", q req.Name)] ++
  (if req.CreateBotRequestOptions.Avatar = "" then []
    else [("avatar", q req.CreateBotRequestOptions.Avatar)]) ++
  (if req.CreateBotRequestOptions.DefaultGroupPriority = "" then []
    else [("default_group_priority", q req.CreateBotRequestOptions.DefaultGroupPriority)]) ++
  (if req.CreateBotRequestOptions.JobTitle = "" then []
    else [("job_title", q req.CreateBotRequestOptions.JobTitle)]) ++
  (match req.CreateBotRequestOptions.MaxChatsCount with
    | none => []
    | some n => [("max_chats_count", toString n)]) ++
  (if req.CreateBotRequestOptions.Groups = [] then []
    else [("groups", jsonArray (req.CreateBotRequestOptions.Groups.map
      (configuration.GroupConfig.MarshalJSON q)))]) ++
  (if req.CreateBotRequestOptions.OwnerClientID = "" then []
    else [("owner_client_id", q req.CreateBotRequestOptions.OwnerClientID)]) ++
  (match req.CreateBotRequestOptions.WorkScheduler with
    | none => []
    | some ws => [("work_scheduler", configuration.WorkScheduler.MarshalJSON q ws)])

/-- What `json.Marshal` writes for a `createBotRequest`. -/
def configuration.createBotRequest.MarshalJSON (q : String → String)
    (req : configuration.createBotRequest) : String :=
  jsonObject (configuration.createBotRequest.members q req)

/-- What `json.Marshal` writes for a `publishPropertyRequest`: the owner is tagged
`omitempty`, the access types are not. -/
def configuration.publishPropertyRequest.MarshalJSON (q : String → String)
    (req : configuration.publishPropertyRequest) : String :=
  jsonObject ([("name", q req.Name)] ++
    (if req.OwnerClientID = "" then [] else [("owner_client_id", q req.OwnerClientID)]) ++
    [("access_type", jsonArray (req.AccessType.map q))])

/-! ## Package `agent`: events -/

/-- The type `json.RawMessage`: a slice of bytes, `none` when it is nil. -/
abbrev json.RawMessage := Option String

/-- The type `Properties`, a map from namespaces to maps from property names to values;
the values are carried in their encoded form. -/
abbrev agent.Properties := List (String × List (String × String))

/-- The struct `eventSpecific`: the fields of the variants of an event, not yet
decoded. -/
structure agent.eventSpecific where
  Text : json.RawMessage := none
  TextVars : json.RawMessage := none
  Fields : json.RawMessage := none
  ContentType : json.RawMessage := none
  Name : json.RawMessage := none
  URL : json.RawMessage := none
  ThumbnailURL : json.RawMessage := none
  Thumbnail2xURL : json.RawMessage := none
  Width : json.RawMessage := none
  Height : json.RawMessage := none
  Size : json.RawMessage := none
  TemplateID : json.RawMessage := none
  Elements : json.RawMessage := none
  Postback : json.RawMessage := none
  AlternativeText : json.RawMessage := none
  SystemMessageType : json.RawMessage := none
deriving DecidableEq

/-- Event represents base of all LiveChat chat events.  The instant `CreatedAt` is a
number. -/
structure agent.Event where
  ID : String := ""
  CustomID : String := ""
  CreatedAt : Int := 0
  AuthorID : String := ""
  Properties : agent.Properties := []
  Recipients : String := ""
  Type' : String := ""
  eventSpecific : agent.eventSpecific := {}
deriving DecidableEq

/-- The anonymous struct of the elements of `FilledForm.Fields`. -/
structure agent.FilledFormField where
  ID : String := ""
  Label : String := ""
  Type' : String := ""
  Value : String := ""
deriving DecidableEq

/-- FilledForm represents LiveChat filled form event. -/
structure agent.FilledForm where
  Fields : List agent.FilledFormField := []
  Event : agent.Event := {}
deriving DecidableEq

/-- Postback represents postback data in LiveChat message event. -/
structure agent.Postback where
  ID : String := ""
  ThreadID : String := ""
  EventID : String := ""
  Type' : String := ""
  Value : String := ""
deriving DecidableEq

/-- Message represents LiveChat message event. -/
structure agent.Message where
  Event : agent.Event := {}
  Text : String := ""
  Postback : Option agent.Postback := none
deriving DecidableEq

/-- SystemMessage represents LiveChat system message event. -/
structure agent.SystemMessage where
  Event : agent.Event := {}
  SystemMessageType : String := ""
  Text : String := ""
  TextVars : List (String × String) := []
deriving DecidableEq

/-- File represents LiveChat file event. -/
structure agent.File where
  Event : agent.Event := {}
  ContentType : String := ""
  Name : String := ""
  URL : String := ""
  ThumbnailURL : String := ""
  Thumbnail2xURL : String := ""
  Width : Int := 0
  Height : Int := 0
  Size : Int := 0
  AlternativeText : String := ""
deriving DecidableEq

/-- RichMessageButton represents button in LiveChat rich message. -/
structure agent.RichMessageButton where
  Text : String := ""
  Type' : String := ""
  Value : String := ""
  UserIds : List String := []
  PostbackID : String := ""
  WebviewHeight : String := ""
  Target : String := ""
deriving DecidableEq

/-- RichMessageImage represents image in LiveChat rich message. -/
structure agent.RichMessageImage where
  URL : String := ""
  Name : String := ""
  ContentType : String := ""
  Size : Int := 0
  Width : Int := 0
  Height : Int := 0
  AlternativeText : String := ""
deriving DecidableEq

/-- RichMessageElement represents element of LiveChat rich message. -/
structure agent.RichMessageElement where
  Buttons : List agent.RichMessageButton := []
  Title : String := ""
  Subtitle : String := ""
  Image : Option agent.RichMessageImage := none
deriving DecidableEq

/-- RichMessage represents LiveChat rich message event. -/
structure agent.RichMessage where
  Event : agent.Event := {}
  TemplateID : String := ""
  Elements : List agent.RichMessageElement := []
deriving DecidableEq

/-- How a function that returns a value ended: the Go code panicked, or it returned. -/
inductive Returns (α : Type)
  | panicked
  | value (v : α)
deriving DecidableEq

/-- The function `json.Unmarshal` at the targets that the accessors of `Event` decode
into: a string, an int, a pointer to a `Postback`, the map of text variables, the fields
of a filled form and the elements of a rich message. -/
structure JSONDecoder where
  string : json.RawMessage → Except GoError String
  int : json.RawMessage → Except GoError Int
  postback : json.RawMessage → Except GoError (Option agent.Postback)
  textVars : json.RawMessage → Except GoError (List (String × String))
  fields : json.RawMessage → Except GoError (List agent.FilledFormField)
  elements : json.RawMessage → Except GoError (List agent.RichMessageElement)

/-- The function `internal.UnmarshalOptionalRawField`, given `json.Unmarshal` at the type
of the target: a nil source leaves the target as it is. -/
def UnmarshalOptionalRawField {α : Type} (unmarshal : json.RawMessage → Except GoError α)
    (source : json.RawMessage) (target : α) : Except GoError α :=
  match source with
  | some _ => unmarshal source
  | none => .ok target

/-- The method `Event.FilledForm`.  The receiver is a pointer; a nil one is `none`. -/
def agent.Event.FilledForm (d : JSONDecoder) (e : Option agent.Event) :
    Returns (Option agent.FilledForm) :=
  match e with
  | none => .panicked
  | some e =>
    if e.Type' ≠ "filled_form" then .value none
    else
      match d.fields e.eventSpecific.Fields with
      | .error _ => .value none
      | .ok fields => .value (some { Fields := fields, Event := e })

/-- The method `Event.Message`. -/
def agent.Event.Message (d : JSONDecoder) (e : Option agent.Event) :
    Returns (Option agent.Message) :=
  match e with
  | none => .panicked
  | some e =>
    if e.Type' ≠ "message" then .value none
    else
      match d.string e.eventSpecific.Text with
      | .error _ => .value none
      | .ok text =>
        match UnmarshalOptionalRawField d.postback e.eventSpecific.Postback none with
        | .error _ => .value none
        | .ok postback => .value (some { Event := e, Text := text, Postback := postback })

/-- The method `Event.SystemMessage`. -/
def agent.Event.SystemMessage (d : JSONDecoder) (e : Option agent.Event) :
    Returns (Option agent.SystemMessage) :=
  match e with
  | none => .panicked
  | some e =>
    if e.Type' ≠ "system_message" then .value none
    else
      match d.string e.eventSpecific.SystemMessageType with
      | .error _ => .value none
      | .ok type =>
        match UnmarshalOptionalRawField d.string e.eventSpecific.Text "" with
        | .error _ => .value none
        | .ok text =>
          match UnmarshalOptionalRawField d.textVars e.eventSpecific.TextVars [] with
          | .error _ => .value none
          | .ok textVars =>
            .value (some { Event := e, SystemMessageType := type, Text := text,
                           TextVars := textVars })

/-- The method `Event.File`. -/
def agent.Event.File (d : JSONDecoder) (e : Option agent.Event) :
    Returns (Option agent.File) :=
  match e with
  | none => .panicked
  | some e =>
    if e.Type' ≠ "file" then .value none
    else
      match d.string e.eventSpecific.ContentType with
      | .error _ => .value none
      | .ok contentType =>
      match d.string e.eventSpecific.Name with
      | .error _ => .value none
      | .ok name =>
      match d.string e.eventSpecific.URL with
      | .error _ => .value none
      | .ok url =>
      match UnmarshalOptionalRawField d.string e.eventSpecific.ThumbnailURL "" with
      | .error _ => .value none
      | .ok thumbnailURL =>
      match UnmarshalOptionalRawField d.string e.eventSpecific.Thumbnail2xURL "" with
      | .error _ => .value none
      | .ok thumbnail2xURL =>
      match UnmarshalOptionalRawField d.int e.eventSpecific.Width 0 with
      | .error _ => .value none
      | .ok width =>
      match UnmarshalOptionalRawField d.int e.eventSpecific.Height 0 with
      | .error _ => .value none
      | .ok height =>
      match UnmarshalOptionalRawField d.int e.eventSpecific.Size 0 with
      | .error _ => .value none
      | .ok size =>
      match UnmarshalOptionalRawField d.string e.eventSpecific.AlternativeText "" with
      | .error _ => .value none
      | .ok alternativeText =>
        .value (some { Event := e, ContentType := contentType, Name := name, URL := url,
                       ThumbnailURL := thumbnailURL, Thumbnail2xURL := thumbnail2xURL,
                       Width := width, Height := height, Size := size,
                       AlternativeText := alternativeText })

/-- The method `Event.RichMessage`. -/
def agent.Event.RichMessage (d : JSONDecoder) (e : Option agent.Event) :
    Returns (Option agent.RichMessage) :=
  match e with
  | none => .panicked
  | some e =>
    if e.Type' ≠ "rich_message" then .value none
    else
      match d.string e.eventSpecific.TemplateID with
      | .error _ => .value none
      | .ok templateID =>
        match d.elements e.eventSpecific.Elements with
        | .error _ => .value none
        | .ok elements =>
          .value (some { Event := e, TemplateID := templateID, Elements := elements })

/-- A value of type `interface{}` as `ValidateEvent` tells values apart: one of the five
event structs of the package, a pointer to one (`none` is the nil pointer of that type),
or a value of any other dynamic type, given by the name that `%T` prints for it (`<nil>`
for the nil interface). -/
inductive agent.Any
  | Event (v : agent.Event)
  | File (v : agent.File)
  | Message (v : agent.Message)
  | RichMessage (v : agent.RichMessage)
  | SystemMessage (v : agent.SystemMessage)
  | EventPtr (v : Option agent.Event)
  | FilePtr (v : Option agent.File)
  | MessagePtr (v : Option agent.Message)
  | RichMessagePtr (v : Option agent.RichMessage)
  | SystemMessagePtr (v : Option agent.SystemMessage)
  | other (typeName : String)
deriving DecidableEq

/-- The function `ValidateEvent`; the function of that name of the package `customer`
has the same text. -/
def agent.ValidateEvent (e : agent.Any) : Option GoError :=
  match e with
  | .EventPtr _ => none
  | .FilePtr _ => none
  | .MessagePtr _ => none
  | .RichMessagePtr _ => none
  | .SystemMessagePtr _ => none
  | .Event _ => none
  | .File _ => none
  | .Message _ => none
  | .RichMessage _ => none
  | .SystemMessage _ => none
  | .other typeName => some (.text ("event type " ++ typeName ++ " not supported"))

/-- InitialThread represents initial chat thread used in StartChat or ResumeChat.  The
fields `Properties` and `Tags`, which no function embedded here reads, are left out. -/
structure agent.InitialThread where
  Events : List agent.Any := []

/-- InitialChat represents initial chat used in StartChat or ResumeChat.  The fields
`Access`, `Properties` and `Users`, which no function embedded here reads, are left
out. -/
structure agent.InitialChat where
  ID : String := ""
  Thread : Option agent.InitialThread := none

/-- The loop of `InitialChat.Validate` over the events of the thread. -/
def agent.InitialChat.validateEvents : List agent.Any → Option GoError
  | [] => none
  | e :: events =>
    match agent.ValidateEvent e with
    | some err => some err
    | none => agent.InitialChat.validateEvents events

/-- The method `InitialChat.Validate`; the method of that name of the package `customer`
has the same text.  The receiver is a pointer; a nil one is `none`, and reading its
`Thread` panics. -/
def agent.InitialChat.Validate (chat : Option agent.InitialChat) : Outcome :=
  match chat with
  | none => .panicked
  | some chat =>
    match chat.Thread with
    | some thread => .returned (agent.InitialChat.validateEvents thread.Events)
    | none => .returned none

/-- The struct `startChatRequest`. -/
structure agent.startChatRequest where
  Chat : Option agent.InitialChat := none
  Continuous : Bool := false
  Active : Bool := false

/-- The struct `startChatResponse`. -/
structure agent.startChatResponse where
  ChatID : String := ""
  ThreadID : String := ""
  EventIDs : List String := []
deriving DecidableEq

/-- The struct `resumeChatRequest`. -/
structure agent.resumeChatRequest where
  Chat : Option agent.InitialChat := none
  Continuous : Bool := false
  Active : Bool := false

/-- The struct `resumeChatResponse`. -/
structure agent.resumeChatResponse where
  ThreadID : String := ""
  EventIDs : List String := []
deriving DecidableEq

/-- The struct `sendEventRequest`. -/
structure agent.sendEventRequest where
  ChatID : String := ""
  Event : agent.Any := .other "<nil>"
  AttachToLastThread : Option Bool := none

/-- The struct `sendEventResponse`. -/
structure agent.sendEventResponse where
  EventID : String := ""
deriving DecidableEq

/-- The method `API.StartChat`: the chat ID, the thread ID and the event IDs it returns
are the target of the run. -/
def agent.StartChat (a : api) (c : Codec agent.startChatRequest agent.startChatResponse)
    (fuel : Nat) (initialChat : Option agent.InitialChat) (continuous active : Bool)
    (w : World) : Run (String × String × List String) :=
  match agent.InitialChat.Validate initialChat with
  | .returned (some err) => ⟨w, ("", "", []), .returned (some err)⟩
  | .returned none =>
    let r := Call a c fuel "start_chat"
      ({ Chat := initialChat, Continuous := continuous, Active := active } :
        agent.startChatRequest)
      ({} : agent.startChatResponse) [] w
    ⟨r.world, (r.target.ChatID, r.target.ThreadID, r.target.EventIDs), r.outcome⟩
  | o => ⟨w, ("", "", []), o⟩

/-- The method `API.ResumeChat`. -/
def agent.ResumeChat (a : api) (c : Codec agent.resumeChatRequest agent.resumeChatResponse)
    (fuel : Nat) (initialChat : Option agent.InitialChat) (continuous active : Bool)
    (w : World) : Run (String × List String) :=
  match agent.InitialChat.Validate initialChat with
  | .returned (some err) => ⟨w, ("", []), .returned (some err)⟩
  | .returned none =>
    let r := Call a c fuel "resume_chat"
      ({ Chat := initialChat, Continuous := continuous, Active := active } :
        agent.resumeChatRequest)
      ({} : agent.resumeChatResponse) [] w
    ⟨r.world, (r.target.ThreadID, r.target.EventIDs), r.outcome⟩
  | o => ⟨w, ("", []), o⟩

/-- The method `API.SendEvent`. -/
def agent.SendEvent (a : api) (c : Codec agent.sendEventRequest agent.sendEventResponse)
    (fuel : Nat) (chatID : String) (event : agent.Any) (attachToLastThread : Bool)
    (w : World) : Run String :=
  match agent.ValidateEvent event with
  | some err => ⟨w, "", .returned (some err)⟩
  | none =>
    let r := Call a c fuel "send_event"
      ({ ChatID := chatID, Event := event,
         AttachToLastThread := some attachToLastThread } : agent.sendEventRequest)
      ({} : agent.sendEventResponse) [] w
    ⟨r.world, r.target.EventID, r.outcome⟩

/-! ## Package `agent`: filters -/

/-- The struct `propertyFilterType`, over the type `ι` of the values that its slices of
`interface{}` hold.  A nil pointer and a nil slice are `none`. -/
structure agent.propertyFilterType (ι : Type) where
  Exists : Option Bool := none
  Values : Option (List ι) := none
  ExcludeValues : Option (List ι) := none
  RequireEveryValue : Option Bool := none
deriving DecidableEq

/-- PropertiesFilters represents set of filters for Chat properties. -/
abbrev agent.PropertiesFilters (ι : Type) :=
  List (String × List (String × Option (agent.propertyFilterType ι)))

/-- The function `NewPropertyFilterType`.  The cases of its `switch` are tried in
order. -/
def agent.NewPropertyFilterType {ι : Type} (includes : Bool) (vals : Option (List ι))
    (requireEveryValue : Bool) : agent.propertyFilterType ι :=
  let pft : agent.propertyFilterType ι := {}
  match vals with
  | none => { pft with Exists := some includes }
  | some _ =>
    if includes then
      { pft with Values := vals, RequireEveryValue := some requireEveryValue }
    else if !includes then
      { pft with ExcludeValues := vals, RequireEveryValue := some requireEveryValue }
    else pft

/-- The struct `eventTypesFilter`. -/
structure agent.eventTypesFilter where
  Values : Option (List String) := none
  ExcludeValues : Option (List String) := none
  RequireEveryValue : Option Bool := none
deriving DecidableEq

/-- SurveyFilter represents structure to match surveys when getting Archives. -/
structure agent.SurveyFilter where
  Type' : String := ""
  AnswerID : String := ""
deriving DecidableEq

/-- The struct `integerFilter`. -/
structure agent.integerFilter where
  Values : Option (List Int) := none
  ExcludeValues : Option (List Int) := none
deriving DecidableEq

/-- GreetingsFilter represents structure to match greetings when getting Archives. -/
structure agent.GreetingsFilter where
  From : String := ""
  To : String := ""
  Values : Option (List Int) := none
  ExcludeValues : Option (List Int) := none
  Exists : Option Bool := none
  Groups : Option agent.integerFilter := none
deriving DecidableEq

/-- The struct `archivesFilters`; the default of each field is its zero value. -/
structure agent.archivesFilters (ι : Type) where
  Agents : Option (agent.propertyFilterType ι) := none
  GroupIDs : Option (List Nat) := none
  From : String := ""
  To : String := ""
  Properties : Option (agent.PropertiesFilters ι) := none
  Tags : Option (agent.propertyFilterType ι) := none
  Sales : Option (agent.propertyFilterType ι) := none
  Goals : Option (agent.propertyFilterType ι) := none
  Surveys : Option (List agent.SurveyFilter) := none
  ThreadIDs : Option (List String) := none
  Query : String := ""
  EventTypes : Option agent.eventTypesFilter := none
  Greetings : Option agent.GreetingsFilter := none

/-- The function `NewArchivesFilters`. -/
def agent.NewArchivesFilters {ι : Type} : agent.archivesFilters ι := {}

/-- The method `archivesFilters.ByAgents`.  The methods of `archivesFilters` change the
struct behind their receiver and return the receiver; here they map the struct before
the call to the struct after it. -/
def agent.archivesFilters.ByAgents {ι : Type} (af : agent.archivesFilters ι)
    (includes : Bool) (vals : Option (List ι)) (requireEveryValue : Bool) :
    agent.archivesFilters ι :=
  { af with Agents := some (agent.NewPropertyFilterType includes vals requireEveryValue) }

/-- The method `archivesFilters.ByGroups`. -/
def agent.archivesFilters.ByGroups {ι : Type} (af : agent.archivesFilters ι)
    (groupIDs : Option (List Nat)) : agent.archivesFilters ι :=
  { af with GroupIDs := groupIDs }

/-- The method `archivesFilters.ByThreads`: the struct behind the receiver is replaced by
a new one that has the thread IDs and nothing else. -/
def agent.archivesFilters.ByThreads {ι : Type} (_af : agent.archivesFilters ι)
    (threadIDs : Option (List String)) : agent.archivesFilters ι :=
  { ThreadIDs := threadIDs }

/-- The method `archivesFilters.ByQuery`. -/
def agent.archivesFilters.ByQuery {ι : Type} (af : agent.archivesFilters ι)
    (query : String) : agent.archivesFilters ι :=
  { af with Query := query }

/-- The method `archivesFilters.FromDate`. -/
def agent.archivesFilters.FromDate {ι : Type} (af : agent.archivesFilters ι)
    (date : String) : agent.archivesFilters ι :=
  { af with From := date }

/-- The method `archivesFilters.ToDate`. -/
def agent.archivesFilters.ToDate {ι : Type} (af : agent.archivesFilters ι)
    (date : String) : agent.archivesFilters ι :=
  { af with To := date }

/-- The method `archivesFilters.ByProperties`. -/
def agent.archivesFilters.ByProperties {ι : Type} (af : agent.archivesFilters ι)
    (propsFilters : Option (agent.PropertiesFilters ι)) : agent.archivesFilters ι :=
  { af with Properties := propsFilters }

/-- The method `archivesFilters.BySurveys`. -/
def agent.archivesFilters.BySurveys {ι : Type} (af : agent.archivesFilters ι)
    (surveyFilters : Option (List agent.SurveyFilter)) : agent.archivesFilters ι :=
  { af with Surveys := surveyFilters }

/-- The method `archivesFilters.ByTags`. -/
def agent.archivesFilters.ByTags {ι : Type} (af : agent.archivesFilters ι)
    (includes : Bool) (vals : Option (List ι)) (requireEveryValue : Bool) :
    agent.archivesFilters ι :=
  { af with Tags := some (agent.NewPropertyFilterType includes vals requireEveryValue) }

/-- The method `archivesFilters.BySales`. -/
def agent.archivesFilters.BySales {ι : Type} (af : agent.archivesFilters ι)
    (includes : Bool) (vals : Option (List ι)) (requireEveryValue : Bool) :
    agent.archivesFilters ι :=
  { af with Sales := some (agent.NewPropertyFilterType includes vals requireEveryValue) }

/-- The method `archivesFilters.ByGoals`. -/
def agent.archivesFilters.ByGoals {ι : Type} (af : agent.archivesFilters ι)
    (includes : Bool) (vals : Option (List ι)) (requireEveryValue : Bool) :
    agent.archivesFilters ι :=
  { af with Goals := some (agent.NewPropertyFilterType includes vals requireEveryValue) }

/-- The method `archivesFilters.ByEventTypes`. -/
def agent.archivesFilters.ByEventTypes {ι : Type} (af : agent.archivesFilters ι)
    (includes : Bool) (vals : Option (List String)) (requireEveryValue : Bool) :
    agent.archivesFilters ι :=
  let eventTypes : agent.eventTypesFilter :=
    if includes then { Values := vals } else { ExcludeValues := vals }
  { af with EventTypes := some { eventTypes with RequireEveryValue := some requireEveryValue } }

/-- The method `archivesFilters.ByGreetings`. -/
def agent.archivesFilters.ByGreetings {ι : Type} (af : agent.archivesFilters ι)
    (filters : Option agent.GreetingsFilter) : agent.archivesFilters ι :=
  { af with Greetings := filters }

/-! ## Auxiliary definitions for the statements -/

/-- The check of `getToken` passed: the type is one of the two supported ones. -/
def supported (t : Token) : Prop :=
  t.Type' = TokenType.BearerToken ∨ t.Type' = TokenType.BasicToken

instance (t : Token) : Decidable (supported t) := by unfold supported; infer_instance

/-- The request that the closure `do` passes on to its next run, given the request of
this run and the token fetched for the retry. -/
def retryRequest (req : Request) (token : Token) : Request :=
  { req with
    Header := req.Header.Set "Authorization" (authorizationValue token)
    Body := match req.Body, req.GetBody with
      | none, _ => none
      | some _, some (.ok b) => some b
      | some _, _ => some "" }

/-- The world in which the closure `do` starts its next run. -/
def retryWorld (w : World) (req : Request) (attempts : Nat) (e : ErrAPI) : World :=
  { w with
    sent := w.sent ++ [req]
    consulted := w.consulted ++ [(attempts, e)]
    tokenCalls := w.tokenCalls + 1 }

/-- A request whose body, when it has one, can be obtained again. -/
def bodyReplayable (req : Request) : Prop :=
  req.Body = none ∨ ∃ b, req.GetBody = some (.ok b)

/-- The token getter yields a supported token at its invocation number `k`. -/
def supportedAt (a : api) (k : Nat) : Prop :=
  ∃ tok, a.tokenGetter k = some tok ∧ supported tok

/-- The report to the stats sink that ends `Call`: it is made when `send` returned. -/
def recordStats {ρ : Type} (action : String) (r : Run ρ) : Run ρ :=
  match r.outcome with
  | .returned err =>
    { r with world := { r.world with
        stats := r.world.stats ++ [{ Method := action, Success := err.isNone }] } }
  | _ => r

/-- The encoding of the payload that `Call` chooses: the query string for a GET call,
the JSON body for every other call. -/
def encodePayload {π ρ : Type} (c : Codec π ρ) (reqPayload : π) (opts : List CallOptions) :
    Except GoError String :=
  if isGet opts then c.queryValuesEncode reqPayload else c.jsonMarshal reqPayload

/-- The request that `Call` hands to `send`, given the token, the parsed endpoint,
whether the call is a GET call, and the encoded payload. -/
def firstRequest (a : api) (tok : Token) (u : URL) (get : Bool) (enc : String) : Request :=
  if get then
    { Method := "GET"
      URL := { u with
        RawQuery := u.RawQuery ++ (if u.RawQuery ≠ "" ∧ enc ≠ "" then "&" ++ enc else enc) }
      Header := callHeaders a tok []
      Body := none
      GetBody := none }
  else
    { Method := "POST"
      URL := u
      Header := callHeaders a tok []
      Body := some enc
      GetBody := some (.ok enc) }

/-- The world in which `Call` enters `send`: the token has been fetched and, unless the
call is a GET call, the payload has been encoded. -/
def callWorld (w : World) (get : Bool) : World :=
  { w with
    tokenCalls := w.tokenCalls + 1
    marshalCalls := if get then w.marshalCalls else w.marshalCalls + 1 }

/-- The transport answers the request number `k`, whatever the request is, with a
response that is not a 200 and whose body decodes to the API error `e`, an error with
a non-empty rendered form. -/
def answersAPIError {π ρ : Type} (a : api) (c : Codec π ρ) (k : Nat) (e : ErrAPI) : Prop :=
  ∀ x, ∃ resp, a.httpClient k x = .ok resp ∧ resp.StatusCode ≠ 200 ∧
    c.jsonUnmarshalErrAPI resp.bodyBytes = .ok e ∧ e.Error ≠ ""

/-- The transport answers the request number `k`, whatever the request is, with a 200
whose body is read in full and decodes into the response target `t` without an error. -/
def answersOK {π ρ : Type} (a : api) (c : Codec π ρ) (k : Nat) (t : ρ) : Prop :=
  ∀ x, ∃ resp, a.httpClient k x = .ok resp ∧ resp.StatusCode = 200 ∧
    resp.readErr = none ∧ (c.jsonUnmarshal resp.bodyBytes t).2 = none

/-- The first token of the call in world `w` is a supported one, the endpoint generated
from it parses, and the payload encodes: `Call` gets as far as `send`. -/
def reachesSend {π ρ : Type} (a : api) (c : Codec π ρ) (action : String) (p : π)
    (opts : List CallOptions) (w : World) : Prop :=
  ∃ tok u enc, a.tokenGetter w.tokenCalls = some tok ∧ supported tok ∧
    c.urlParse (a.httpEndpointGenerator tok a.host action) = .ok u ∧
    encodePayload c p opts = .ok enc

/-- The number of retries a call performed: the requests it sent after its first one. -/
def retriesPerformed {ρ : Type} (w : World) (r : Run ρ) : Nat :=
  r.world.sent.length - w.sent.length - 1

/-- The number of times a call invoked the token getter. -/
def tokenFetches {ρ : Type} (w : World) (r : Run ρ) : Nat :=
  r.world.tokenCalls - w.tokenCalls

/-! ### A concrete client, after the test helpers of `agent/api_test.go` -/

/-- The token of `stubTokenGetter`, with the given type and access token. -/
def stubToken (tokenType : TokenType) (accessToken : String) : Token :=
  { AccessToken := accessToken, Region := "region", Type' := tokenType, OrganizationID := "" }

/-- The error body of `createMockedMultipleAuthErrorsResponder`. -/
def authErrorBody : String :=
  "\x7b\"error\":\x7b\"type\":\"authentication\",\"message\":\"Invalid access token\"\x7d\x7d"

/-- The API error that `authErrorBody` decodes to. -/
def authError : ErrAPI := ⟨some ("authentication", "Invalid access token")⟩

/-- A codec for calls without payload and without response value: it knows the two
bodies of the mocked responders and parses every endpoint without a query string. -/
def stubCodec : Codec Unit Unit where
  jsonMarshal := fun _ => .ok "null"
  queryValuesEncode := fun _ => .ok ""
  jsonUnmarshalErrAPI := fun s =>
    if s = authErrorBody then .ok authError
    else .error (.text "invalid character")
  jsonUnmarshal := fun s t =>
    if s = "\x7b\x7d" then (t, none) else (t, some (.text "unexpected end of JSON input"))
  urlParse := fun s => .ok { Base := s, RawQuery := "" }

/-- The responder `createMockedMultipleAuthErrorsResponder`: a 401 with `authErrorBody`
for the first `fails` requests, a 200 with an empty object after them. -/
def authErrorsResponder (fails : Nat) : Nat → Request → Except GoError Response :=
  fun n _ =>
    if n < fails then
      .ok { StatusCode := 401, Header := [], bodyBytes := authErrorBody, readErr := none }
    else
      .ok { StatusCode := 200, Header := [], bodyBytes := "\x7b\x7d", readErr := none }

/-- The retry strategy of the tests: retry while `attempts < limit`. -/
def retryBelow (limit : Nat) : Nat → ErrAPI → Bool :=
  fun attempts _ => decide (attempts < limit)

/-- A client as `agent.NewAPI` builds it, over the given collaborators. -/
def stubClient (tokenGetter : Nat → Option Token)
    (httpClient : Nat → Request → Except GoError Response)
    (retryStrategy : Option (Nat → ErrAPI → Bool)) : api :=
  { httpClient := httpClient
    clientID := "client_id"
    tokenGetter := tokenGetter
    httpEndpointGenerator := DefaultHTTPRequestGenerator "agent"
    host := "https://api.livechatinc.com"
    customHeaders := []
    retryStrategy := retryStrategy }

/-- The token getter `stubBearerTokenGetter`. -/
def stubBearerTokenGetter : Nat → Option Token :=
  fun _ => some (stubToken .BearerToken "access_token")

/-- A token getter that yields the bearer token of the tests once and nil from then on. -/
def expiringTokenGetter : Nat → Option Token :=
  fun k => if k = 0 then some (stubToken .BearerToken "access_token") else none

/-- A URL split the way `url.Parse` finds `RawQuery`: the fragment, from the first `#`
on, is cut off first, and what remains is split at its first question mark. -/
def splitQuery (s : String) : URL :=
  let rest := s.data.takeWhile (fun ch => ch != '#')
  { Base := String.mk (rest.takeWhile (fun ch => ch != '?'))
    RawQuery := String.mk ((rest.dropWhile (fun ch => ch != '?')).drop 1) }

/-- A codec for calls whose payload is given by its encoded fields: the query encoding is
the payload itself, the JSON encoding an object around it. -/
def fieldsCodec : Codec String Unit where
  jsonMarshal := fun p => .ok ("\x7b" ++ p ++ "\x7d")
  queryValuesEncode := fun p => .ok p
  jsonUnmarshalErrAPI := stubCodec.jsonUnmarshalErrAPI
  jsonUnmarshal := stubCodec.jsonUnmarshal
  urlParse := fun s => .ok (splitQuery s)

/-- A client whose endpoint generator puts the organization of the token into the query
string, as the URLs that the tests of the customer client expect. -/
def customerClient : api :=
  { httpClient := authErrorsResponder 0
    clientID := "client_id"
    tokenGetter := fun _ =>
      some { AccessToken := "access_token", Region := "region", Type' := .BearerToken,
             OrganizationID := "xD" }
    httpEndpointGenerator := fun token host action =>
      DefaultHTTPRequestGenerator "customer" token host action ++
        "?organization_id=" ++ token.OrganizationID
    host := "https://api.livechatinc.com"
    customHeaders := []
    retryStrategy := none }

/-- The transport answers the request number `k`, whatever the request is, with a
response of status `code` and body `b`. -/
def answersWith (a : api) (k : Nat) (code : Int) (b : String) : Prop :=
  ∀ x, ∃ resp, a.httpClient k x = .ok resp ∧ resp.StatusCode = code ∧ resp.bodyBytes = b

/-- A decoded API error without a usable type: there is no error object, or its type is
empty. -/
def noUsableType (e : ErrAPI) : Prop :=
  e.APIError = none ∨ ∃ message, e.APIError = some ("", message)

/-- A responder that answers every request with the given status and body. -/
def fixedResponder (code : Int) (b : String) : Nat → Request → Except GoError Response :=
  fun _ _ => .ok { StatusCode := code, Header := [], bodyBytes := b, readErr := none }

/-- A codec like `stubCodec` that, in addition, decodes the two error-shaped bodies
without a type: the empty object, and an error object with a message only. -/
def lenientCodec : Codec Unit Unit where
  jsonMarshal := stubCodec.jsonMarshal
  queryValuesEncode := stubCodec.queryValuesEncode
  jsonUnmarshalErrAPI := fun s =>
    if s = "\x7b\x7d" then .ok ⟨none⟩
    else if s = "\x7b\"error\":\x7b\"message\":\"no type\"\x7d\x7d" then
      .ok ⟨some ("", "no type")⟩
    else stubCodec.jsonUnmarshalErrAPI s
  jsonUnmarshal := stubCodec.jsonUnmarshal
  urlParse := stubCodec.urlParse

/-- A transport that fails: the connection is refused at every request. -/
def refusingTransport : Nat → Request → Except GoError Response :=
  fun _ _ => .error (.text "dial tcp: connection refused")

/-- The representation invariant of a `http.Header` that is only written through `Set`:
its keys are in canonical form and no key occurs twice. -/
def headerMap (h : Header) : Prop :=
  (∀ e ∈ h, CanonicalMIMEHeaderKey e.1 = e.1) ∧ (h.map Prod.fst).Nodup

/-- The request that `UploadFile` hands to `send`. -/
def uploadRequest (a : api) (m : MultipartWriter) (tok : Token) (u : URL)
    (filename file : String) : Request :=
  { Method := "POST"
    URL := u
    Header := uploadHeaders a m tok []
    Body := some (m.Bytes filename file)
    GetBody := some (.ok (m.Bytes filename file)) }

/-- The end of `UploadFile`: the report to the stats sink when `send` returned, and the
URL of the decoded response as the returned string. -/
def finishUpload (r : Run uploadResponse) : Run String :=
  match r.outcome with
  | .returned err =>
    ⟨{ r.world with
        stats := r.world.stats ++ [{ Method := "upload_file", Success := err.isNone }] },
      r.target.URL, .returned err⟩
  | o => ⟨r.world, r.target.URL, o⟩

/-- The token getter yields a token, of whatever type, the endpoint generated from it
parses and the multipart writer takes the file: `UploadFile` gets as far as `send`. -/
def uploadReachesSend {π : Type} (a : fileUploadAPI) (c : Codec π uploadResponse)
    (m : MultipartWriter) (filename file : String) (w : World) : Prop :=
  ∃ tok u, a.api.tokenGetter w.tokenCalls = some tok ∧
    c.urlParse (a.api.httpEndpointGenerator tok a.api.host "upload_file") = .ok u ∧
    m.CreateFormFile "file" filename = none ∧ m.Write file = none ∧ m.Close = none

/-- A multipart writer that never fails and writes with the boundary `b`. -/
def stubMultipart : MultipartWriter where
  CreateFormFile := fun _ _ => none
  Write := fun _ => none
  Close := none
  Bytes := fun filename file =>
    "--b\r\nContent-Disposition: form-data; name=\"file\"; filename=\"" ++ filename ++
      "\"\r\n\r\n" ++ file ++ "\r\n--b--\r\n"
  FormDataContentType := "multipart/form-data; boundary=b"

/-- The body with which the upload succeeds in the scenario of the spec. -/
def uploadBody : String := "\x7b\"url\":\"https://x/y\"\x7d"

/-- A codec for uploads: it decodes `uploadBody` into its URL and the error body of
the mocked responders into its API error. -/
def uploadCodec : Codec Unit uploadResponse where
  jsonMarshal := stubCodec.jsonMarshal
  queryValuesEncode := stubCodec.queryValuesEncode
  jsonUnmarshalErrAPI := stubCodec.jsonUnmarshalErrAPI
  jsonUnmarshal := fun s t =>
    if s = uploadBody then ({ URL := "https://x/y" }, none)
    else (t, some (.text "unexpected end of JSON input"))
  urlParse := stubCodec.urlParse

/-- A responder for uploads: a 401 with `authErrorBody` for the first `fails` requests,
a 200 with `uploadBody` after them. -/
def uploadResponder (fails : Nat) : Nat → Request → Except GoError Response :=
  fun n _ =>
    if n < fails then
      .ok { StatusCode := 401, Header := [], bodyBytes := authErrorBody, readErr := none }
    else
      .ok { StatusCode := 200, Header := [], bodyBytes := uploadBody, readErr := none }

/-- A client with `UploadFile`, as `agent.NewAPI` builds it, over the given
collaborators. -/
def uploadClient (tokenGetter : Nat → Option Token)
    (httpClient : Nat → Request → Except GoError Response)
    (retryStrategy : Option (Nat → ErrAPI → Bool)) : fileUploadAPI :=
  { api := stubClient tokenGetter httpClient retryStrategy }

/-- A token getter whose second and later tokens differ from the first in access token,
region and organization. -/
def rotatingTokenGetter : Nat → Option Token :=
  fun k =>
    if k = 0 then
      some { AccessToken := "access_token", Region := "region", Type' := .BearerToken,
             OrganizationID := "xD" }
    else
      some { AccessToken := "fresh_token", Region := "other", Type' := .BearerToken,
             OrganizationID := "yZ" }

/-- The customer client over `rotatingTokenGetter`, with a transport that answers the
first request with an authentication error, and a retry strategy. -/
def rotatingClient : api :=
  { customerClient with
    tokenGetter := rotatingTokenGetter
    httpClient := authErrorsResponder 1
    retryStrategy := some (retryBelow 3) }

/-- The query string that `Call` gives a GET request: the query `q` of the endpoint and
the encoded payload `e`, with an ampersand between them when neither is empty. -/
def getQuery (q e : String) : String :=
  q ++ (if q ≠ "" ∧ e ≠ "" then "&" ++ e else e)

/-! ### Clients of the configuration API, after `configuration/api_test.go` -/

/-- The encoding of a string that needs no escaping: the string between quotes. -/
def plainQuote (s : String) : String :=
  "\"" ++ s ++ "\""

/-- The codec `c` with the given encoder in the place of its `json.Marshal`. -/
def Codec.withMarshal {π ρ : Type} (c : Codec π ρ) (marshal : π → String) : Codec π ρ :=
  { c with jsonMarshal := fun p => .ok (marshal p) }

/-- The priority that the tests of the package expect `CreateBot` and `UpdateBot` to
reject in a group. -/
def testDoNotAssign : configuration.GroupPriority := "supervisor"

/-- The body with which the mocked server answers `create_bot`. -/
def createBotBody : String := "\x7b\"id\":\"5c9871d5372c824cbf22d860a707a578\"\x7d"

/-- A codec for `CreateBot`: requests are encoded by `createBotRequest.MarshalJSON`, the
body of the mocked server is decoded into the response. -/
def createBotCodec : Codec configuration.createBotRequest configuration.createBotResponse where
  jsonMarshal := fun req => .ok (configuration.createBotRequest.MarshalJSON plainQuote req)
  queryValuesEncode := fun _ => .ok ""
  jsonUnmarshalErrAPI := stubCodec.jsonUnmarshalErrAPI
  jsonUnmarshal := fun s t =>
    if s = createBotBody then ({ BotID := "5c9871d5372c824cbf22d860a707a578" }, none)
    else (t, some (.text "unexpected end of JSON input"))
  urlParse := fun s => .ok (splitQuery s)

/-- A codec for the calls of the configuration API that expect an empty response, given
the encoder of the request. -/
def emptyResponseCodec {π : Type} (marshal : π → String) : Codec π Unit where
  jsonMarshal := fun req => .ok (marshal req)
  queryValuesEncode := fun _ => .ok ""
  jsonUnmarshalErrAPI := stubCodec.jsonUnmarshalErrAPI
  jsonUnmarshal := stubCodec.jsonUnmarshal
  urlParse := fun s => .ok (splitQuery s)

/-- A client as `configuration.NewAPI` builds it, over the stub token getter and a
server that answers every request with a 200 and the given body. -/
def configurationClient (b : String) : api :=
  { httpClient := fixedResponder 200 b
    clientID := "client_id"
    tokenGetter := stubBearerTokenGetter
    httpEndpointGenerator := DefaultHTTPRequestGenerator "configuration"
    host := "https://api.livechatinc.com"
    customHeaders := []
    retryStrategy := none }

/-- The error with which `validateBotGroupsAssignment` rejects a list of groups. -/
def doNotAssignError : GoError :=
  .text "DoNotAssign priority is allowed only as default group priority"

/-- What `CreateBot` returns once the groups have passed the check: the outcome of the
call of `create_bot` with the request built from the name and the options. -/
def createBotCall (a : api)
    (c : Codec configuration.createBotRequest configuration.createBotResponse)
    (fuel : Nat) (name : String) (opts : configuration.CreateBotRequestOptions)
    (w : World) : Run String :=
  let r := Call a c fuel "create_bot"
    ({ Name := name, CreateBotRequestOptions := opts } : configuration.createBotRequest)
    ({} : configuration.createBotResponse) [] w
  ⟨r.world, r.target.BotID, r.outcome⟩

/-- What `UpdateBot` returns once the groups have passed the check. -/
def updateBotCall (a : api) (c : Codec configuration.updateBotRequest Unit)
    (fuel : Nat) (id : String) (opts : configuration.UpdateBotRequestOptions)
    (w : World) : Run Unit :=
  Call a c fuel "update_bot"
    ({ BotID := id, UpdateBotRequestOptions := opts } : configuration.updateBotRequest)
    () [] w

/-- The keys of the object that `json.Marshal` writes for a `createBotRequest`. -/
def createBotKeys (q : String → String) (req : configuration.createBotRequest) :
    List String :=
  (configuration.createBotRequest.members q req).map Prod.fst

/-! ### Values for the statements about the packages `agent` and `customer` -/

/-- What `SendEvent` returns once the event has passed `ValidateEvent`: the outcome of
the call of `send_event` with the request built from its arguments. -/
def sendEventCall (a : api) (c : Codec agent.sendEventRequest agent.sendEventResponse)
    (fuel : Nat) (chatID : String) (event : agent.Any) (attachToLastThread : Bool)
    (w : World) : Run String :=
  let r := Call a c fuel "send_event"
    ({ ChatID := chatID, Event := event,
       AttachToLastThread := some attachToLastThread } : agent.sendEventRequest)
    ({} : agent.sendEventResponse) [] w
  ⟨r.world, r.target.EventID, r.outcome⟩

/-- A codec for the calls of the tests of the agent and customer clients, which decodes
the body of the mocked server into the given response. -/
def agentCodec {π ρ : Type} (b : String) (resp : ρ) : Codec π ρ where
  jsonMarshal := fun _ => .ok "\x7b\x7d"
  queryValuesEncode := fun _ => .ok ""
  jsonUnmarshalErrAPI := stubCodec.jsonUnmarshalErrAPI
  jsonUnmarshal := fun s t =>
    if s = b then (resp, none) else (t, some (.text "unexpected end of JSON input"))
  urlParse := fun s => .ok (splitQuery s)

/-- The body with which the mocked server answers `send_event`. -/
def sendEventBody : String := "\x7b\"event_id\":\"K600PKZON8\"\x7d"

/-- The body with which the mocked server answers `start_chat`. -/
def startChatBody : String :=
  "\x7b\"chat_id\":\"PJ0MRSHTDG\",\"thread_id\":\"PGDGHT5G\"\x7d"

/-- An accessor returned a value, not nil. -/
def Returns.hasValue {α : Type} : Returns (Option α) → Bool
  | .value (some _) => true
  | _ => false

/-- A decoder for the accessors of `Event` that reads a string as itself and every other
target as its zero value; it fails, as `json.Unmarshal` does, on a nil source. -/
def stubDecoder : JSONDecoder where
  string := fun raw => match raw with
    | some s => .ok s
    | none => .error (.text "unexpected end of JSON input")
  int := fun raw => match raw with
    | some _ => .ok 0
    | none => .error (.text "unexpected end of JSON input")
  postback := fun raw => match raw with
    | some _ => .ok none
    | none => .error (.text "unexpected end of JSON input")
  textVars := fun raw => match raw with
    | some _ => .ok []
    | none => .error (.text "unexpected end of JSON input")
  fields := fun raw => match raw with
    | some _ => .ok []
    | none => .error (.text "unexpected end of JSON input")
  elements := fun raw => match raw with
    | some _ => .ok []
    | none => .error (.text "unexpected end of JSON input")

/-! ## The token getter and one run of the closure -/

theorem getToken_world (a : api) (w : World) :
    (getToken a w).1 = { w with tokenCalls := w.tokenCalls + 1 } := by
  unfold getToken
  split
  · rfl
  · split <;> rfl

theorem getToken_ok {a : api} {w : World} {tok : Token}
    (h : a.tokenGetter w.tokenCalls = some tok) (hs : supported tok) :
    getToken a w = ({ w with tokenCalls := w.tokenCalls + 1 }, .ok tok) := by
  unfold getToken
  rw [h]
  unfold supported at hs
  have : ¬ (tok.Type' ≠ TokenType.BearerToken ∧ tok.Type' ≠ TokenType.BasicToken) := by
    rintro ⟨h1, h2⟩; rcases hs with hs | hs <;> contradiction
  simp [this]

theorem getToken_eq_ok {a : api} {w w1 : World} {tok : Token}
    (h : getToken a w = (w1, .ok tok)) :
    a.tokenGetter w.tokenCalls = some tok ∧ supported tok ∧
      w1 = { w with tokenCalls := w.tokenCalls + 1 } := by
  unfold getToken at h
  split at h
  · simp at h
  · split at h
    · simp at h
    · rename_i token htok hsup
      simp only [Prod.mk.injEq, Except.ok.injEq] at h
      obtain ⟨h1, h2⟩ := h
      subst h2
      refine ⟨htok, ?_, h1.symm⟩
      unfold supported
      by_contra hc
      push_neg at hc
      exact hsup hc

theorem getToken_eq_error {a : api} {w w1 : World} {err : GoError}
    (h : getToken a w = (w1, .error err)) :
    w1 = { w with tokenCalls := w.tokenCalls + 1 } ∧
      ((a.tokenGetter w.tokenCalls = none ∧ err = .text "couldn't get token") ∨
        (∃ tok, a.tokenGetter w.tokenCalls = some tok ∧ ¬ supported tok ∧
          err = .text "unsupported token type")) := by
  unfold getToken at h
  split at h
  · rename_i hnone
    simp only [Prod.mk.injEq, Except.error.injEq] at h
    exact ⟨h.1.symm, Or.inl ⟨hnone, h.2.symm⟩⟩
  · split at h
    · rename_i token htok hsup
      simp only [Prod.mk.injEq, Except.error.injEq] at h
      refine ⟨h.1.symm, Or.inr ⟨token, htok, ?_, h.2.symm⟩⟩
      unfold supported
      push_neg
      exact hsup
    · simp at h

theorem send_attempt_again {π ρ : Type} {a : api} {c : Codec π ρ} {att : Nat} {req : Request}
    {t : ρ} {w : World} {att1 : Nat} {req1 : Request} {w1 : World}
    (h : send_attempt a c att req t w = .again att1 req1 w1) :
    ∃ resp e f tok, a.httpClient w.sent.length req = .ok resp ∧ resp.StatusCode ≠ 200 ∧
      c.jsonUnmarshalErrAPI resp.bodyBytes = .ok e ∧ e.Error ≠ "" ∧
      a.retryStrategy = some f ∧ f att e = true ∧
      a.tokenGetter w.tokenCalls = some tok ∧ supported tok ∧ bodyReplayable req ∧
      att1 = (att + 1) % uintSize ∧ req1 = retryRequest req tok ∧
      w1 = retryWorld w req att e := by
  unfold send_attempt at h
  split at h
  · simp at h
  · rename_i resp hresp
    simp only at h
    split at h
    · rename_i hcode
      split at h
      · simp at h
      · rename_i apiErr hdec
        split at h
        · simp at h
        · rename_i herr
          split at h
          · simp at h
          · rename_i f hf
            split at h
            · simp at h
            · rename_i hyes
              split at h
              · simp at h
              · rename_i w3 token htok
                obtain ⟨htg, hsup, hw3⟩ := getToken_eq_ok htok
                simp only [Bool.not_eq_true, Bool.not_eq_false_eq_eq_true, Bool.not_eq_eq_eq_not, Bool.not_true, Bool.not_eq_false] at hyes
                refine ⟨resp, apiErr, f, token, hresp, hcode, hdec, herr, hf, hyes, htg, hsup, ?_⟩
                split at h
                · rename_i hb
                  simp only [Attempt.again.injEq] at h
                  obtain ⟨h1, h2, h3⟩ := h
                  simp only [Option.map_eq_none'] at hb
                  refine ⟨Or.inl hb, h1.symm, ?_, ?_⟩
                  · rw [← h2]; simp [retryRequest, hb]
                  · rw [← h3, hw3]; rfl
                · rename_i x hb
                  split at h
                  · simp at h
                  · simp at h
                  · rename_i reqBody hgb
                    simp only [Attempt.again.injEq] at h
                    obtain ⟨h1, h2, h3⟩ := h
                    refine ⟨Or.inr ⟨reqBody, hgb⟩, h1.symm, ?_, ?_⟩
                    · rw [← h2]
                      simp only [Option.map_eq_some'] at hb
                      obtain ⟨y, hy, _⟩ := hb
                      simp [retryRequest, hy, hgb]
                    · rw [← h3, hw3]; rfl
    · split at h <;> simp at h

theorem send_attempt_ended {π ρ : Type} {a : api} {c : Codec π ρ} {att : Nat} {req : Request}
    {t : ρ} {w : World} {r : Run ρ}
    (h : send_attempt a c att req t w = .ended r) :
    r.world.sent = w.sent ++ [req] ∧ r.world.stats = w.stats ∧
      r.world.marshalCalls = w.marshalCalls ∧
      ((r.world.tokenCalls = w.tokenCalls ∧ (∃ err, r.outcome = .returned err) ∧
          w.consulted.length ≤ r.world.consulted.length ∧
          r.world.consulted.length ≤ w.consulted.length + 1) ∨
        (r.world.tokenCalls = w.tokenCalls + 1 ∧
          r.world.consulted.length = w.consulted.length + 1 ∧
          ((a.tokenGetter w.tokenCalls = none ∧
              r.outcome = .returned (some (.text "couldn't get token"))) ∨
            (∃ tok, a.tokenGetter w.tokenCalls = some tok ∧ ¬ supported tok ∧
              r.outcome = .returned (some (.text "unsupported token type"))) ∨
            (∃ tok, a.tokenGetter w.tokenCalls = some tok ∧ supported tok ∧
              ¬ bodyReplayable req)))) := by
  unfold send_attempt at h
  split at h
  · simp only [Attempt.ended.injEq] at h
    subst h
    simp
  · rename_i resp hresp
    simp only at h
    split at h
    · split at h
      · simp only [Attempt.ended.injEq] at h
        subst h
        simp
      · split at h
        · simp only [Attempt.ended.injEq] at h
          subst h
          simp
        · split at h
          · simp only [Attempt.ended.injEq] at h
            subst h
            simp
          · split at h
            · simp only [Attempt.ended.injEq] at h
              subst h
              simp
            · split at h
              · rename_i w3 err htok
                obtain ⟨hw3, hcase⟩ := getToken_eq_error htok
                simp only [Attempt.ended.injEq] at h
                subst h
                subst hw3
                refine ⟨by simp, by simp, by simp, Or.inr ⟨by simp, by simp, ?_⟩⟩
                rcases hcase with ⟨h1, h2⟩ | ⟨tok, h1, h2, h3⟩
                · exact Or.inl ⟨h1, by simp [h2]⟩
                · exact Or.inr (Or.inl ⟨tok, h1, h2, by simp [h3]⟩)
              · rename_i w3 token htok
                obtain ⟨htg, hsup, hw3⟩ := getToken_eq_ok htok
                split at h
                · simp at h
                · rename_i x hb
                  simp only [Option.map_eq_some'] at hb
                  obtain ⟨y, hy, _⟩ := hb
                  have hnr : ∀ g, req.GetBody = g → (∀ b, g ≠ some (.ok b)) →
                      ¬ bodyReplayable req := by
                    intro g hg hne hrep
                    rcases hrep with hrep | ⟨b, hb⟩
                    · rw [hy] at hrep; simp at hrep
                    · rw [hg] at hb; exact hne b hb
                  split at h
                  · rename_i hgb
                    simp only [Attempt.ended.injEq] at h
                    subst h
                    subst hw3
                    exact ⟨by simp, by simp, by simp, Or.inr ⟨by simp, by simp,
                      Or.inr (Or.inr ⟨token, htg, hsup, hnr _ hgb (by simp)⟩)⟩⟩
                  · rename_i err hgb
                    simp only [Attempt.ended.injEq] at h
                    subst h
                    subst hw3
                    exact ⟨by simp, by simp, by simp, Or.inr ⟨by simp, by simp,
                      Or.inr (Or.inr ⟨token, htg, hsup, hnr _ hgb (by simp)⟩)⟩⟩
                  · simp at h
    · split at h
      · simp only [Attempt.ended.injEq] at h
        subst h
        simp
      · simp only [Attempt.ended.injEq] at h
        subst h
        refine ⟨?_, ?_, ?_, Or.inl ⟨?_, ⟨_, rfl⟩, ?_, ?_⟩⟩ <;> simp only <;>
          split <;> split <;> simp

theorem send_attempt_retry {π ρ : Type} {a : api} {c : Codec π ρ} {att : Nat} {req : Request}
    {t : ρ} {w : World} {resp : Response} {e : ErrAPI} {f : Nat → ErrAPI → Bool} {tok : Token}
    (hresp : a.httpClient w.sent.length req = .ok resp) (hcode : resp.StatusCode ≠ 200)
    (hdec : c.jsonUnmarshalErrAPI resp.bodyBytes = .ok e) (herr : e.Error ≠ "")
    (hf : a.retryStrategy = some f) (hyes : f att e = true)
    (htok : a.tokenGetter w.tokenCalls = some tok) (hsup : supported tok)
    (hbody : bodyReplayable req) :
    send_attempt a c att req t w =
      .again ((att + 1) % uintSize) (retryRequest req tok) (retryWorld w req att e) := by
  have hg : getToken a
      { w with sent := w.sent ++ [req], consulted := w.consulted ++ [(att, e)] } =
      (retryWorld w req att e, .ok tok) := by
    rw [@getToken_ok a _ tok (by simpa using htok) hsup]
    rfl
  unfold send_attempt
  simp only [hresp, hcode, hdec, herr, hf, hyes, hg, ne_eq, not_false_eq_true, if_true, if_false,
    Bool.not_true, Bool.false_eq_true]
  rcases hbody with hb | ⟨b, hb⟩
  · simp [hb, retryRequest]
  · cases hB : req.Body with
    | none => simp [retryRequest, hB]
    | some x => simp [retryRequest, hB, hb]

theorem send_attempt_reject {π ρ : Type} {a : api} {c : Codec π ρ} {att : Nat} {req : Request}
    {t : ρ} {w : World} {resp : Response} {e : ErrAPI} {f : Nat → ErrAPI → Bool}
    (hresp : a.httpClient w.sent.length req = .ok resp) (hcode : resp.StatusCode ≠ 200)
    (hdec : c.jsonUnmarshalErrAPI resp.bodyBytes = .ok e) (herr : e.Error ≠ "")
    (hf : a.retryStrategy = some f) (hno : f att e = false) :
    send_attempt a c att req t w =
      .ended ⟨{ w with sent := w.sent ++ [req], consulted := w.consulted ++ [(att, e)] }, t,
        .returned (some (.api e))⟩ := by
  unfold send_attempt
  simp [hresp, hcode, hdec, herr, hf, hno]

theorem send_attempt_no_strategy {π ρ : Type} {a : api} {c : Codec π ρ} {att : Nat}
    {req : Request} {t : ρ} {w : World} {resp : Response} {e : ErrAPI}
    (hresp : a.httpClient w.sent.length req = .ok resp) (hcode : resp.StatusCode ≠ 200)
    (hdec : c.jsonUnmarshalErrAPI resp.bodyBytes = .ok e) (herr : e.Error ≠ "")
    (hf : a.retryStrategy = none) :
    send_attempt a c att req t w =
      .ended ⟨{ w with sent := w.sent ++ [req] }, t, .returned (some (.api e))⟩ := by
  unfold send_attempt
  simp [hresp, hcode, hdec, herr, hf]

theorem send_attempt_ok {π ρ : Type} {a : api} {c : Codec π ρ} {att : Nat}
    {req : Request} {t : ρ} {w : World} {resp : Response}
    (hresp : a.httpClient w.sent.length req = .ok resp) (hcode : resp.StatusCode = 200)
    (hread : resp.readErr = none) :
    ∃ w1, send_attempt a c att req t w =
        .ended ⟨w1, (c.jsonUnmarshal resp.bodyBytes t).1,
          .returned (c.jsonUnmarshal resp.bodyBytes t).2⟩ ∧
      w1.sent = w.sent ++ [req] ∧ w1.tokenCalls = w.tokenCalls ∧
      w1.consulted = w.consulted ∧ w1.stats = w.stats ∧ w1.marshalCalls = w.marshalCalls := by
  unfold send_attempt
  simp only [hresp, hcode, hread, ne_eq, not_true_eq_false, if_false]
  refine ⟨_, rfl, ?_, ?_, ?_, ?_, ?_⟩ <;> split <;> split <;> rfl

theorem bodyReplayable_retryRequest {req : Request} (tok : Token) (h : bodyReplayable req) :
    bodyReplayable (retryRequest req tok) := by
  rcases h with h | ⟨b, h⟩
  · left; simp [retryRequest, h]
  · right; exact ⟨b, by simp [retryRequest, h]⟩

theorem send_do_succ {π ρ : Type} (a : api) (c : Codec π ρ) (fuel att : Nat) (req : Request)
    (t : ρ) (w : World) :
    send_do a c (fuel + 1) att req t w =
      match send_attempt a c att req t w with
      | .ended r => r
      | .again att1 req1 w1 => send_do a c fuel att1 req1 t w1 := rfl

theorem send_do_modes {π ρ : Type} (a : api) (c : Codec π ρ) (t : ρ) :
    ∀ (fuel att : Nat) (req : Request) (w : World) (r : Run ρ), bodyReplayable req →
      send_do a c fuel att req t w = r →
      r.world.stats = w.stats ∧ r.world.marshalCalls = w.marshalCalls ∧
      ∃ n, (∀ i, i < n → supportedAt a (w.tokenCalls + i)) ∧
        (((∃ err, r.outcome = .returned err) ∧ r.world.tokenCalls = w.tokenCalls + n ∧
            r.world.sent.length = w.sent.length + n + 1 ∧
            w.consulted.length + n ≤ r.world.consulted.length ∧
            r.world.consulted.length ≤ w.consulted.length + n + 1) ∨
          (r.world.tokenCalls = w.tokenCalls + n + 1 ∧
            r.world.sent.length = w.sent.length + n + 1 ∧
            r.world.consulted.length = w.consulted.length + n + 1 ∧
            ((a.tokenGetter (w.tokenCalls + n) = none ∧
                r.outcome = .returned (some (.text "couldn't get token"))) ∨
              (∃ tok, a.tokenGetter (w.tokenCalls + n) = some tok ∧ ¬ supported tok ∧
                r.outcome = .returned (some (.text "unsupported token type"))))) ∨
          (r.outcome = .outOfFuel ∧ n = fuel ∧ r.world.tokenCalls = w.tokenCalls + n ∧
            r.world.sent.length = w.sent.length + n ∧
            r.world.consulted.length = w.consulted.length + n)) := by
  intro fuel
  induction fuel with
  | zero =>
    intro att req w r _ h
    simp only [send_do] at h
    subst h
    exact ⟨rfl, rfl, 0, by simp, Or.inr (Or.inr ⟨rfl, rfl, rfl, rfl, rfl⟩)⟩
  | succ fuel ih =>
    intro att req w r hb h
    rw [send_do_succ] at h
    cases hA : send_attempt a c att req t w with
    | ended r1 =>
      rw [hA] at h
      simp only at h
      subst h
      obtain ⟨hs, hst, hm, hmode⟩ := send_attempt_ended hA
      refine ⟨hst, hm, 0, by simp, ?_⟩
      rcases hmode with ⟨h1, h2, h3, h4⟩ | ⟨h1, h2, h3⟩
      · left
        exact ⟨h2, by simpa using h1, by simp [hs], by simpa using h3, by simpa using h4⟩
      · right; left
        refine ⟨by simpa using h1, by simp [hs], by simpa using h2, ?_⟩
        rcases h3 with h3 | h3 | ⟨tok, _, _, h3⟩
        · exact Or.inl (by simpa using h3)
        · exact Or.inr (by simpa using h3)
        · exact absurd hb h3
    | again att1 req1 w1 =>
      rw [hA] at h
      simp only at h
      obtain ⟨resp, e, f, tok, -, -, -, -, -, -, htok, hsup, -, -, hreq, hw⟩ :=
        send_attempt_again hA
      subst hreq
      subst hw
      obtain ⟨hst, hm, n, hn, hmode⟩ :=
        ih att1 (retryRequest req tok) (retryWorld w req att e) r
          (bodyReplayable_retryRequest tok hb) h
      have hn1 : ∀ i, i < n + 1 → supportedAt a (w.tokenCalls + i) := by
        intro i hi
        cases i with
        | zero => exact ⟨tok, htok, hsup⟩
        | succ j =>
          have := hn j (by omega)
          simpa [retryWorld, Nat.add_assoc, Nat.add_comm 1 j] using this
      refine ⟨by simpa [retryWorld] using hst, by simpa [retryWorld] using hm, n + 1, hn1, ?_⟩
      simp only [retryWorld, List.length_append, List.length_singleton] at hmode
      rcases hmode with ⟨h1, h2, h3, h4, h5⟩ | ⟨h1, h2, h3, h4⟩ | ⟨h1, h2, h3, h4, h5⟩
      · left
        exact ⟨h1, by omega, by omega, by omega, by omega⟩
      · right; left
        refine ⟨by omega, by omega, by omega, ?_⟩
        have hidx : w.tokenCalls + 1 + n = w.tokenCalls + (n + 1) := by omega
        rw [hidx] at h4
        exact h4
      · right; right
        exact ⟨h1, by omega, by omega, by omega, by omega⟩

theorem send_do_sent {π ρ : Type} (a : api) (c : Codec π ρ) (t : ρ) (P : Nat → Request → Prop)
    (hstep : ∀ k x tok, P k x → a.tokenGetter k = some tok → supported tok →
      P (k + 1) (retryRequest x tok)) :
    ∀ (fuel att : Nat) (req : Request) (w : World), P w.tokenCalls req →
      ∃ extra, (send_do a c fuel att req t w).world.sent = w.sent ++ extra ∧
        ∀ i x, extra[i]? = some x → P (w.tokenCalls + i) x := by
  intro fuel
  induction fuel with
  | zero =>
    intro att req w _
    exact ⟨[], by simp [send_do], by simp⟩
  | succ fuel ih =>
    intro att req w hP
    rw [send_do_succ]
    cases hA : send_attempt a c att req t w with
    | ended r1 =>
      obtain ⟨hs, -⟩ := send_attempt_ended hA
      refine ⟨[req], hs, ?_⟩
      intro i x hx
      cases i with
      | zero => simp at hx; subst hx; simpa using hP
      | succ j => simp at hx
    | again att1 req1 w1 =>
      obtain ⟨resp, e, f, tok, -, -, -, -, -, -, htok, hsup, -, -, hreq, hw⟩ :=
        send_attempt_again hA
      subst hreq
      subst hw
      obtain ⟨extra, hs, hall⟩ :=
        ih att1 (retryRequest req tok) (retryWorld w req att e)
          (by simpa [retryWorld] using hstep _ _ _ hP htok hsup)
      refine ⟨req :: extra, by simpa [retryWorld] using hs, ?_⟩
      intro i x hx
      cases i with
      | zero => simp at hx; subst hx; simpa using hP
      | succ j =>
        have := hall j x (by simpa using hx)
        simpa [retryWorld, Nat.add_assoc, Nat.add_comm 1 j] using this

theorem Call_built {π ρ : Type} {a : api} {c : Codec π ρ} (fuel : Nat) {action : String}
    {p : π} (t : ρ) {opts : List CallOptions} {w : World} {tok : Token} {u : URL}
    {enc : String}
    (htok : a.tokenGetter w.tokenCalls = some tok) (hsup : supported tok)
    (hurl : c.urlParse (a.httpEndpointGenerator tok a.host action) = .ok u)
    (henc : encodePayload c p opts = .ok enc) :
    Call a c fuel action p t opts w =
      recordStats action
        (send_do a c fuel 0 (firstRequest a tok u (isGet opts) enc) t
          (callWorld w (isGet opts))) := by
  unfold Call
  rw [getToken_ok htok hsup]
  simp only [hurl]
  unfold encodePayload at henc
  cases hg : isGet opts with
  | true =>
    simp only [hg, if_true] at henc
    simp only [henc, if_true]
    rfl
  | false =>
    simp only [hg, if_false, Bool.false_eq_true] at henc
    simp only [henc, if_false, Bool.false_eq_true]
    rfl

theorem Call_cases {π ρ : Type} (a : api) (c : Codec π ρ) (fuel : Nat) (action : String)
    (p : π) (t : ρ) (opts : List CallOptions) (w : World) :
    (∃ err, Call a c fuel action p t opts w =
          ⟨{ w with tokenCalls := w.tokenCalls + 1 }, t, .returned (some err)⟩ ∧
        ((a.tokenGetter w.tokenCalls = none ∧ err = .text "couldn't get token") ∨
          (∃ tok, a.tokenGetter w.tokenCalls = some tok ∧ ¬ supported tok ∧
            err = .text "unsupported token type"))) ∨
      (∃ tok, a.tokenGetter w.tokenCalls = some tok ∧ supported tok ∧
        ((∃ err, c.urlParse (a.httpEndpointGenerator tok a.host action) = .error err ∧
            Call a c fuel action p t opts w =
              ⟨{ w with tokenCalls := w.tokenCalls + 1 }, t, .returned (some (.text
                ("couldn't create new http request: " ++ err.Error)))⟩) ∨
          (∃ u, c.urlParse (a.httpEndpointGenerator tok a.host action) = .ok u ∧
            ((∃ err, encodePayload c p opts = .error err ∧
                Call a c fuel action p t opts w =
                  ⟨callWorld w (isGet opts), t, .returned (some err)⟩) ∨
              (∃ enc, encodePayload c p opts = .ok enc ∧
                Call a c fuel action p t opts w =
                  recordStats action
                    (send_do a c fuel 0 (firstRequest a tok u (isGet opts) enc) t
                      (callWorld w (isGet opts)))))))) := by
  cases hg : getToken a w with
  | mk w1 res =>
    cases res with
    | error err =>
      obtain ⟨hw1, hcase⟩ := getToken_eq_error hg
      left
      refine ⟨err, ?_, hcase⟩
      unfold Call
      rw [hg, hw1]
    | ok tok =>
      obtain ⟨htok, hsup, hw1⟩ := getToken_eq_ok hg
      right
      refine ⟨tok, htok, hsup, ?_⟩
      cases hurl : c.urlParse (a.httpEndpointGenerator tok a.host action) with
      | error err =>
        left
        refine ⟨err, rfl, ?_⟩
        unfold Call
        rw [hg, hw1]
        simp only [hurl]
      | ok u =>
        right
        refine ⟨u, rfl, ?_⟩
        cases henc : encodePayload c p opts with
        | ok enc => exact Or.inr ⟨enc, rfl, Call_built fuel t htok hsup hurl henc⟩
        | error err =>
          left
          refine ⟨err, rfl, ?_⟩
          unfold Call
          rw [hg, hw1]
          simp only [hurl]
          unfold encodePayload at henc
          cases hget : isGet opts with
          | true =>
            simp only [hget, if_true] at henc
            simp only [henc, if_true]
            rfl
          | false =>
            simp only [hget, if_false, Bool.false_eq_true] at henc
            simp only [henc, if_false, Bool.false_eq_true]
            rfl

theorem send_do_retries {π ρ : Type} (a : api) (c : Codec π ρ) (t : ρ)
    (f : Nat → ErrAPI → Bool) (hf : a.retryStrategy = some f) (errs : Nat → ErrAPI)
    (att : Nat) (req : Request) (w : World) (hatt : att < uintSize)
    (hbody : bodyReplayable req) :
    ∀ (K fuel : Nat),
      (∀ k, k < K → supportedAt a (w.tokenCalls + k)) →
      (∀ k, k < K → answersAPIError a c (w.sent.length + k) (errs k)) →
      (∀ k, k < K → f ((att + k) % uintSize) (errs k) = true) →
      ∃ req1 w1, send_do a c (fuel + K) att req t w =
          send_do a c fuel ((att + K) % uintSize) req1 t w1 ∧
        bodyReplayable req1 ∧ w1.tokenCalls = w.tokenCalls + K ∧
        w1.sent.length = w.sent.length + K ∧
        w1.consulted =
          w.consulted ++ (List.range K).map (fun k => ((att + k) % uintSize, errs k)) ∧
        w1.stats = w.stats ∧ w1.marshalCalls = w.marshalCalls := by
  intro K
  induction K with
  | zero =>
    intro fuel _ _ _
    exact ⟨req, w, by simp [Nat.mod_eq_of_lt hatt], hbody, by simp, by simp, by simp, rfl, rfl⟩
  | succ K ih =>
    intro fuel htok htr hyes
    obtain ⟨req1, w1, hrun, hb1, htc, hsent, hcons, hst, hm⟩ :=
      ih (fuel + 1) (fun k hk => htok k (by omega)) (fun k hk => htr k (by omega))
        (fun k hk => hyes k (by omega))
    obtain ⟨tok, htk, hsup⟩ := htok K (by omega)
    obtain ⟨resp, hresp, hcode, hdec, herr⟩ := htr K (by omega) req1
    have hstep := @send_attempt_retry π ρ a c ((att + K) % uintSize) req1 t w1 resp (errs K) f tok
      (by rw [hsent]; exact hresp) hcode hdec herr hf (hyes K (by omega))
      (by rw [htc]; exact htk) hsup hb1
    refine ⟨retryRequest req1 tok, retryWorld w1 req1 ((att + K) % uintSize) (errs K), ?_,
      bodyReplayable_retryRequest tok hb1, ?_, ?_, ?_, ?_, ?_⟩
    · have hfuel : fuel + (K + 1) = fuel + 1 + K := by omega
      rw [hfuel, hrun, send_do_succ, hstep]
      simp only
      rw [Nat.mod_add_mod]
      rfl
    · simp [retryWorld, htc]; omega
    · simp [retryWorld, hsent]; omega
    · simp [retryWorld, hcons, List.range_succ]
    · simpa [retryWorld] using hst
    · simpa [retryWorld] using hm

theorem firstRequest_bodyReplayable (a : api) (tok : Token) (u : URL) (get : Bool)
    (enc : String) : bodyReplayable (firstRequest a tok u get enc) := by
  cases get with
  | true => left; simp [firstRequest]
  | false => right; exact ⟨enc, by simp [firstRequest]⟩

theorem ErrAPI_Error_some (type message : String) (htype : type ≠ "") :
    (ErrAPI.mk (some (type, message))).Error = "API error: " ++ type ++ " - " ++ message ∧
      (ErrAPI.mk (some (type, message))).Error ≠ "" := by
  have hE : (ErrAPI.mk (some (type, message))).Error =
      "API error: " ++ type ++ " - " ++ message := by
    simp [ErrAPI.Error, htype]
  refine ⟨hE, ?_⟩
  rw [hE]
  intro h
  have := congrArg String.length h
  simp only [String.length_append] at this
  have hlen : "API error: ".length = 11 := by decide
  rw [hlen] at this
  simp only [String.length, List.length_cons, List.length_nil] at this
  omega

theorem ErrAPI_Error_ne_empty {type message : String}
    (h : (ErrAPI.mk (some (type, message))).Error ≠ "") : type ≠ "" := by
  intro ht
  apply h
  simp [ErrAPI.Error, ht]

/-! ## `Call` under a scripted transport -/

theorem recordStats_returned {ρ : Type} (action : String) (w : World) (t : ρ)
    (err : Option GoError) :
    recordStats action ⟨w, t, .returned err⟩ =
      ⟨{ w with stats := w.stats ++ [{ Method := action, Success := err.isNone }] }, t,
        .returned err⟩ := rfl

theorem Call_retries {π ρ : Type} (a : api) (c : Codec π ρ) (action : String) (p : π) (t : ρ)
    (opts : List CallOptions) (f : Nat → ErrAPI → Bool) (hf : a.retryStrategy = some f)
    (errs : Nat → ErrAPI) (K fuel : Nat)
    (hreach : reachesSend a c action p opts World.init)
    (htok : ∀ k, k < K → supportedAt a (k + 1))
    (htr : ∀ k, k < K → answersAPIError a c k (errs k))
    (hyes : ∀ k, k < K → f (k % uintSize) (errs k) = true) :
    ∃ req1 w1, Call a c (fuel + K) action p t opts World.init =
        recordStats action (send_do a c fuel (K % uintSize) req1 t w1) ∧
      bodyReplayable req1 ∧ w1.tokenCalls = K + 1 ∧ w1.sent.length = K ∧
      w1.consulted = (List.range K).map (fun k => (k % uintSize, errs k)) ∧
      w1.stats = [] := by
  obtain ⟨tok, u, enc, htok0, hsup0, hurl, henc⟩ := hreach
  rw [Call_built (fuel + K) t htok0 hsup0 hurl henc]
  obtain ⟨req1, w1, hrun, hb, htc, hsent, hcons, hst, -⟩ :=
    send_do_retries a c t f hf errs 0 (firstRequest a tok u (isGet opts) enc)
      (callWorld World.init (isGet opts)) (by unfold uintSize; norm_num)
      (firstRequest_bodyReplayable a tok u (isGet opts) enc) K fuel
      (fun k hk => by simpa [callWorld, World.init, Nat.add_comm] using htok k hk)
      (fun k hk => by simpa [callWorld, World.init] using htr k hk)
      (fun k hk => by simpa using hyes k hk)
  refine ⟨req1, w1, by rw [hrun]; simp, hb, ?_, ?_, ?_, ?_⟩
  · simpa [callWorld, World.init, Nat.add_comm] using htc
  · simpa [callWorld, World.init] using hsent
  · simpa [callWorld, World.init] using hcons
  · simpa [callWorld, World.init] using hst

/-- Claim C1.  For every `N` below the range of `uint` and every retry strategy that
returns true for the attempts `0, …, N-1` and false for the attempt `N`, when the
transport answers each attempt with a non-200 response whose body decodes to an API
error, `Call` (given more than `N` units of fuel, on a client whose tokens are supported
and whose request can be built) returns, having sent exactly `N + 1` requests and
consulted the strategy with the attempts `0, 1, …, N` in that order, and what it returns
is the API error decoded from the last response. -/
theorem Call_retries_until_strategy_refuses {π ρ : Type} (a : api) (c : Codec π ρ)
    (action : String) (p : π) (t : ρ) (opts : List CallOptions)
    (f : Nat → ErrAPI → Bool) (errs : Nat → ErrAPI) (N fuel : Nat)
    (hN : N < uintSize) (hfuel : N < fuel)
    (hf : a.retryStrategy = some f)
    (hyes : ∀ k, k < N → f k (errs k) = true)
    (hno : f N (errs N) = false)
    (hreach : reachesSend a c action p opts World.init)
    (htok : ∀ k, k ≤ N → supportedAt a k)
    (htr : ∀ k, k ≤ N → answersAPIError a c k (errs k)) :
    (Call a c fuel action p t opts World.init).outcome = .returned (some (.api (errs N))) ∧
      (Call a c fuel action p t opts World.init).world.sent.length = N + 1 ∧
      (Call a c fuel action p t opts World.init).world.consulted =
        (List.range (N + 1)).map (fun k => (k, errs k)) ∧
      (Call a c fuel action p t opts World.init).world.tokenCalls = N + 1 := by
  obtain ⟨fuel1, rfl⟩ : ∃ fuel1, fuel = fuel1 + 1 + N := ⟨fuel - N - 1, by omega⟩
  have hmod : ∀ k, k ≤ N → k % uintSize = k := fun k hk => Nat.mod_eq_of_lt (by omega)
  obtain ⟨req1, w1, hrun, hb, htc, hsent, hcons, hst⟩ :=
    Call_retries a c action p t opts f hf errs N (fuel1 + 1) hreach
      (fun k hk => htok (k + 1) (by omega)) (fun k hk => htr k (by omega))
      (fun k hk => by rw [hmod k (by omega)]; exact hyes k hk)
  obtain ⟨resp, hresp, hcode, hdec, herr⟩ := htr N (le_refl N) req1
  have hstep := @send_attempt_reject π ρ a c N req1 t w1 resp (errs N) f
    (by rw [hsent]; exact hresp) hcode hdec herr hf hno
  rw [hrun, hmod N (le_refl N), send_do_succ, hstep]
  simp only [recordStats_returned]
  refine ⟨trivial, by simp [hsent], ?_, htc⟩
  rw [hcons, List.range_succ, List.map_append]
  congr 1
  apply List.map_congr_left
  intro k hk
  rw [hmod k (by have := List.mem_range.mp hk; omega)]

theorem stub_reachesSend (tokenGetter : Nat → Option Token)
    (httpClient : Nat → Request → Except GoError Response)
    (retryStrategy : Option (Nat → ErrAPI → Bool)) (action : String) (opts : List CallOptions)
    (w : World) (tok : Token) (h : tokenGetter w.tokenCalls = some tok) (hs : supported tok) :
    reachesSend (stubClient tokenGetter httpClient retryStrategy) stubCodec action () opts w := by
  refine ⟨tok, ⟨DefaultHTTPRequestGenerator "agent" tok "https://api.livechatinc.com" action, ""⟩,
    if isGet opts then "" else "null", h, hs, rfl, ?_⟩
  unfold encodePayload
  split <;> rfl

theorem authErrorsResponder_fails (tokenGetter : Nat → Option Token)
    (retryStrategy : Option (Nat → ErrAPI → Bool)) (fails k : Nat) (h : k < fails) :
    answersAPIError (stubClient tokenGetter (authErrorsResponder fails) retryStrategy)
      stubCodec k authError := by
  intro x
  refine ⟨{ StatusCode := 401, Header := [], bodyBytes := authErrorBody, readErr := none },
    ?_, by decide, ?_, by decide⟩
  · simp [stubClient, authErrorsResponder, h]
  · simp [stubCodec]

theorem authErrorsResponder_succeeds (tokenGetter : Nat → Option Token)
    (retryStrategy : Option (Nat → ErrAPI → Bool)) (fails k : Nat) (h : fails ≤ k) :
    answersOK (stubClient tokenGetter (authErrorsResponder fails) retryStrategy)
      stubCodec k () := by
  intro x
  refine ⟨{ StatusCode := 200, Header := [], bodyBytes := "\x7b\x7d", readErr := none },
    ?_, rfl, rfl, ?_⟩
  · have : ¬ k < fails := by omega
    simp [stubClient, authErrorsResponder, this]
  · simp [stubCodec]

theorem stubBearer_supportedAt (httpClient : Nat → Request → Except GoError Response)
    (retryStrategy : Option (Nat → ErrAPI → Bool)) (k : Nat) :
    supportedAt (stubClient stubBearerTokenGetter httpClient retryStrategy) k :=
  ⟨stubToken .BearerToken "access_token", rfl, Or.inl rfl⟩

/-- The test `TestRetryStrategyAllFails`: with the strategy that retries while
`attempts < 3` and a transport that always answers 401, the call sends four requests,
asks the strategy about the attempts 0, 1, 2, 3 and returns the authentication error. -/
theorem Call_retries_until_strategy_refuses_witness :
    (Call (stubClient stubBearerTokenGetter (authErrorsResponder 10) (some (retryBelow 3)))
        stubCodec 4 "" () () [] World.init).outcome = .returned (some (.api authError)) ∧
      (Call (stubClient stubBearerTokenGetter (authErrorsResponder 10) (some (retryBelow 3)))
        stubCodec 4 "" () () [] World.init).world.sent.length = 3 + 1 ∧
      (Call (stubClient stubBearerTokenGetter (authErrorsResponder 10) (some (retryBelow 3)))
        stubCodec 4 "" () () [] World.init).world.consulted =
        (List.range (3 + 1)).map (fun k => (k, authError)) ∧
      (Call (stubClient stubBearerTokenGetter (authErrorsResponder 10) (some (retryBelow 3)))
        stubCodec 4 "" () () [] World.init).world.tokenCalls = 3 + 1 :=
  Call_retries_until_strategy_refuses
    (stubClient stubBearerTokenGetter (authErrorsResponder 10) (some (retryBelow 3)))
    stubCodec "" () () [] (retryBelow 3) (fun _ => authError) 3 4
    (by unfold uintSize; norm_num) (by decide) rfl
    (fun k hk => by simp [retryBelow, hk]) (by simp [retryBelow])
    (stub_reachesSend _ _ _ _ _ _ _ rfl (Or.inl rfl))
    (fun k _ => stubBearer_supportedAt _ _ k)
    (fun k hk => authErrorsResponder_fails _ _ 10 k (by omega))

/-- Claim C2.  For every `K`, also beyond the range of `uint`, and every retry strategy
that returns true for the attempts `0, …, K-1` as the wrapping counter presents them,
when the transport answers the first `K` attempts with an API error and the next one
with a 200 whose body decodes, `Call` (given more than `K` units of fuel, on a client
whose tokens are supported and whose request can be built) returns no error after
exactly `K` retries: it has sent `K + 1` requests, consulted the strategy `K` times and
fetched `K + 1` tokens.  There is no bound on `K`. -/
theorem Call_succeeds_after_retries {π ρ : Type} (a : api) (c : Codec π ρ)
    (action : String) (p : π) (t : ρ) (opts : List CallOptions)
    (f : Nat → ErrAPI → Bool) (errs : Nat → ErrAPI) (K fuel : Nat)
    (hfuel : K < fuel)
    (hf : a.retryStrategy = some f)
    (hyes : ∀ k, k < K → f (k % uintSize) (errs k) = true)
    (hreach : reachesSend a c action p opts World.init)
    (htok : ∀ k, k ≤ K → supportedAt a k)
    (htr : ∀ k, k < K → answersAPIError a c k (errs k))
    (hok : answersOK a c K t) :
    (Call a c fuel action p t opts World.init).outcome = .returned none ∧
      (Call a c fuel action p t opts World.init).world.sent.length = K + 1 ∧
      (Call a c fuel action p t opts World.init).world.consulted.length = K ∧
      (Call a c fuel action p t opts World.init).world.tokenCalls = K + 1 := by
  obtain ⟨fuel1, rfl⟩ : ∃ fuel1, fuel = fuel1 + 1 + K := ⟨fuel - K - 1, by omega⟩
  obtain ⟨req1, w1, hrun, hb, htc, hsent, hcons, hst⟩ :=
    Call_retries a c action p t opts f hf errs K (fuel1 + 1) hreach
      (fun k hk => htok (k + 1) (by omega)) htr hyes
  obtain ⟨resp, hresp, hcode, hread, hdec⟩ := hok req1
  obtain ⟨w2, hstep, hs2, htc2, hc2, -, -⟩ :=
    @send_attempt_ok π ρ a c (K % uintSize) req1 t w1 resp
      (by rw [hsent]; exact hresp) hcode hread
  rw [hrun, send_do_succ, hstep]
  simp only [recordStats_returned, hdec]
  refine ⟨trivial, by simp [hs2, hsent], by simp [hc2, hcons], by rw [htc2, htc]⟩

/-- The test `TestRetryStrategyLastSuccess`: two 401 answers, then a 200; the call
succeeds after two retries. -/
theorem Call_succeeds_after_retries_witness :
    (Call (stubClient stubBearerTokenGetter (authErrorsResponder 2) (some (retryBelow 3)))
        stubCodec 3 "" () () [] World.init).outcome = .returned none ∧
      (Call (stubClient stubBearerTokenGetter (authErrorsResponder 2) (some (retryBelow 3)))
        stubCodec 3 "" () () [] World.init).world.sent.length = 2 + 1 ∧
      (Call (stubClient stubBearerTokenGetter (authErrorsResponder 2) (some (retryBelow 3)))
        stubCodec 3 "" () () [] World.init).world.consulted.length = 2 ∧
      (Call (stubClient stubBearerTokenGetter (authErrorsResponder 2) (some (retryBelow 3)))
        stubCodec 3 "" () () [] World.init).world.tokenCalls = 2 + 1 :=
  Call_succeeds_after_retries
    (stubClient stubBearerTokenGetter (authErrorsResponder 2) (some (retryBelow 3)))
    stubCodec "" () () [] (retryBelow 3) (fun _ => authError) 2 3 (by decide) rfl
    (fun k hk => by
      have : k % uintSize < 3 := lt_of_le_of_lt (Nat.mod_le _ _) (by omega)
      simp [retryBelow, this])
    (stub_reachesSend _ _ _ _ _ _ _ rfl (Or.inl rfl))
    (fun k _ => stubBearer_supportedAt _ _ k)
    (fun k hk => authErrorsResponder_fails _ _ 2 k hk)
    (authErrorsResponder_succeeds _ _ 2 2 (le_refl 2))

/-- Claim C10.  With no retry strategy set, when the transport answers the first request
with a non-200 response whose body decodes to the API error of type `T` and message `M`,
`Call` (given fuel, on a client whose first token is supported and whose request can be
built) sends exactly one request, never asks for a second token, and returns an error
whose rendered form is `API error: T - M`. -/
theorem Call_without_strategy_returns_API_error {π ρ : Type} (a : api) (c : Codec π ρ)
    (action : String) (p : π) (t : ρ) (opts : List CallOptions) (T M : String) (fuel : Nat)
    (hfuel : 0 < fuel)
    (hf : a.retryStrategy = none)
    (hreach : reachesSend a c action p opts World.init)
    (htr : answersAPIError a c 0 ⟨some (T, M)⟩) :
    (Call a c fuel action p t opts World.init).world.sent.length = 1 ∧
      (Call a c fuel action p t opts World.init).world.tokenCalls = 1 ∧
      ∃ err, (Call a c fuel action p t opts World.init).outcome = .returned (some err) ∧
        err.Error = "API error: " ++ T ++ " - " ++ M := by
  obtain ⟨fuel1, rfl⟩ : ∃ fuel1, fuel = fuel1 + 1 := ⟨fuel - 1, by omega⟩
  obtain ⟨tok, u, enc, htok0, hsup0, hurl, henc⟩ := hreach
  obtain ⟨resp, hresp, hcode, hdec, herr⟩ := htr (firstRequest a tok u (isGet opts) enc)
  have hstep := @send_attempt_no_strategy π ρ a c 0 (firstRequest a tok u (isGet opts) enc) t
    (callWorld World.init (isGet opts)) resp ⟨some (T, M)⟩
    (by simpa [callWorld, World.init] using hresp) hcode hdec herr hf
  rw [Call_built (fuel1 + 1) t htok0 hsup0 hurl henc, send_do_succ, hstep]
  simp only [recordStats_returned]
  exact ⟨by simp [callWorld, World.init], by simp [callWorld, World.init],
    .api ⟨some (T, M)⟩, rfl, (ErrAPI_Error_some T M (ErrAPI_Error_ne_empty herr)).1⟩

/-- The error responder of the tests (`verifyErrorResponse`): one request, and the
rendered error is the one the tests compare with. -/
theorem Call_without_strategy_returns_API_error_witness :
    (Call (stubClient stubBearerTokenGetter (authErrorsResponder 10) none)
        stubCodec 1 "" () () [] World.init).world.sent.length = 1 ∧
      (Call (stubClient stubBearerTokenGetter (authErrorsResponder 10) none)
        stubCodec 1 "" () () [] World.init).world.tokenCalls = 1 ∧
      ∃ err, (Call (stubClient stubBearerTokenGetter (authErrorsResponder 10) none)
        stubCodec 1 "" () () [] World.init).outcome = .returned (some err) ∧
        err.Error = "API error: " ++ "authentication" ++ " - " ++ "Invalid access token" :=
  Call_without_strategy_returns_API_error
    (stubClient stubBearerTokenGetter (authErrorsResponder 10) none)
    stubCodec "" () () [] "authentication" "Invalid access token" 1 (by decide) rfl
    (stub_reachesSend _ _ _ _ _ _ _ rfl (Or.inl rfl))
    (authErrorsResponder_fails _ _ 10 0 (by decide))

/-! ## How a `Call` can end -/

theorem not_reachesSend_of_urlParse {π ρ : Type} {a : api} {c : Codec π ρ} {action : String}
    {p : π} {opts : List CallOptions} {w : World} {tok : Token} {err : GoError}
    (htok : a.tokenGetter w.tokenCalls = some tok)
    (hurl : c.urlParse (a.httpEndpointGenerator tok a.host action) = .error err) :
    ¬ reachesSend a c action p opts w := by
  rintro ⟨tok1, u, enc, h1, -, h2, -⟩
  rw [htok] at h1
  cases h1
  rw [hurl] at h2
  cases h2

theorem not_reachesSend_of_encode {π ρ : Type} {a : api} {c : Codec π ρ} {action : String}
    {p : π} {opts : List CallOptions} {w : World} {err : GoError}
    (henc : encodePayload c p opts = .error err) :
    ¬ reachesSend a c action p opts w := by
  rintro ⟨tok1, u, enc, -, -, -, h2⟩
  rw [henc] at h2
  cases h2

theorem recordStats_outcome {ρ : Type} (action : String) (s : Run ρ) :
    (recordStats action s).outcome = s.outcome := by
  unfold recordStats; split <;> rfl

theorem recordStats_tokenCalls {ρ : Type} (action : String) (s : Run ρ) :
    (recordStats action s).world.tokenCalls = s.world.tokenCalls := by
  unfold recordStats; split <;> rfl

theorem recordStats_sent {ρ : Type} (action : String) (s : Run ρ) :
    (recordStats action s).world.sent = s.world.sent := by
  unfold recordStats; split <;> rfl

theorem recordStats_consulted {ρ : Type} (action : String) (s : Run ρ) :
    (recordStats action s).world.consulted = s.world.consulted := by
  unfold recordStats; split <;> rfl

theorem recordStats_marshalCalls {ρ : Type} (action : String) (s : Run ρ) :
    (recordStats action s).world.marshalCalls = s.world.marshalCalls := by
  unfold recordStats; split <;> rfl

theorem recordStats_stats {ρ : Type} (action : String) (s : Run ρ) (err : Option GoError)
    (h : s.outcome = .returned err) :
    (recordStats action s).world.stats =
      s.world.stats ++ [{ Method := action, Success := err.isNone }] := by
  unfold recordStats; rw [h]

theorem recordStats_stats_outOfFuel {ρ : Type} (action : String) (s : Run ρ)
    (h : s.outcome = .outOfFuel) :
    (recordStats action s).world.stats = s.world.stats := by
  unfold recordStats; rw [h]

theorem Call_modes {π ρ : Type} (a : api) (c : Codec π ρ) (fuel : Nat) (action : String)
    (p : π) (t : ρ) (opts : List CallOptions) (w : World) (r : Run ρ)
    (h : Call a c fuel action p t opts w = r) :
    ∃ n, (∀ i, i < n → supportedAt a (w.tokenCalls + i)) ∧
      ((0 < n ∧ reachesSend a c action p opts w ∧
          (∃ err, r.outcome = .returned err ∧
            r.world.stats = w.stats ++ [{ Method := action, Success := err.isNone }]) ∧
          r.world.tokenCalls = w.tokenCalls + n ∧
          r.world.sent.length = w.sent.length + n ∧
          w.consulted.length + n ≤ r.world.consulted.length + 1 ∧
          r.world.consulted.length ≤ w.consulted.length + n) ∨
        (r.world.tokenCalls = w.tokenCalls + n + 1 ∧
          r.world.sent.length = w.sent.length + n ∧
          r.world.consulted.length = w.consulted.length + n ∧
          (n = 0 → r.world.stats = w.stats) ∧
          (0 < n → reachesSend a c action p opts w ∧
            r.world.stats = w.stats ++ [{ Method := action, Success := false }]) ∧
          ((a.tokenGetter (w.tokenCalls + n) = none ∧
              r.outcome = .returned (some (.text "couldn't get token"))) ∨
            (∃ tok, a.tokenGetter (w.tokenCalls + n) = some tok ∧ ¬ supported tok ∧
              r.outcome = .returned (some (.text "unsupported token type"))))) ∨
        (n = 1 ∧ ¬ reachesSend a c action p opts w ∧
          (∃ err, r.outcome = .returned (some err)) ∧
          r.world.tokenCalls = w.tokenCalls + 1 ∧ r.world.sent = w.sent ∧
          r.world.consulted = w.consulted ∧ r.world.stats = w.stats) ∨
        (r.outcome = .outOfFuel ∧ n = fuel + 1 ∧ reachesSend a c action p opts w ∧
          r.world.tokenCalls = w.tokenCalls + n ∧
          r.world.sent.length = w.sent.length + fuel ∧
          r.world.consulted.length = w.consulted.length + fuel ∧
          r.world.stats = w.stats)) := by
  rcases Call_cases a c fuel action p t opts w with
    ⟨err, hC, hcase⟩ | ⟨tok, htok, hsup, hrest⟩
  · rw [hC] at h
    subst h
    refine ⟨0, by simp, Or.inr (Or.inl ⟨rfl, rfl, rfl, fun _ => rfl, by simp, ?_⟩)⟩
    rcases hcase with ⟨h1, h2⟩ | ⟨tok, h1, h2, h3⟩
    · exact Or.inl ⟨by simpa using h1, by rw [h2]⟩
    · exact Or.inr ⟨tok, by simpa using h1, h2, by rw [h3]⟩
  · have h0 : ∀ i, i < 1 → supportedAt a (w.tokenCalls + i) := by
      intro i hi
      have : i = 0 := by omega
      subst this
      exact ⟨tok, htok, hsup⟩
    rcases hrest with ⟨err, hurl, hC⟩ | ⟨u, hurl, ⟨err, henc, hC⟩ | ⟨enc, henc, hC⟩⟩
    · rw [hC] at h
      subst h
      exact ⟨1, h0, Or.inr (Or.inr (Or.inl ⟨rfl, not_reachesSend_of_urlParse htok hurl,
        ⟨_, rfl⟩, rfl, rfl, rfl, rfl⟩))⟩
    · rw [hC] at h
      subst h
      exact ⟨1, h0, Or.inr (Or.inr (Or.inl ⟨rfl, not_reachesSend_of_encode henc,
        ⟨_, rfl⟩, rfl, rfl, rfl, rfl⟩))⟩
    · have hreach : reachesSend a c action p opts w := ⟨tok, u, enc, htok, hsup, hurl, henc⟩
      rw [hC] at h
      obtain ⟨hst, -, n, hn, hmode⟩ :=
        send_do_modes a c t fuel 0 (firstRequest a tok u (isGet opts) enc)
          (callWorld w (isGet opts)) _ (firstRequest_bodyReplayable a tok u (isGet opts) enc) rfl
      generalize send_do a c fuel 0 (firstRequest a tok u (isGet opts) enc) t
        (callWorld w (isGet opts)) = s at h hst hmode
      subst h
      have e1 : (callWorld w (isGet opts)).tokenCalls = w.tokenCalls + 1 := rfl
      have e2 : (callWorld w (isGet opts)).sent = w.sent := rfl
      have e3 : (callWorld w (isGet opts)).consulted = w.consulted := rfl
      have e4 : (callWorld w (isGet opts)).stats = w.stats := rfl
      rw [e1] at hn
      rw [e1, e2, e3] at hmode
      rw [e4] at hst
      have hn1 : ∀ i, i < n + 1 → supportedAt a (w.tokenCalls + i) := by
        intro i hi
        cases i with
        | zero => exact ⟨tok, htok, hsup⟩
        | succ j =>
          have := hn j (by omega)
          simpa [Nat.add_assoc, Nat.add_comm 1 j] using this
      refine ⟨n + 1, hn1, ?_⟩
      rw [recordStats_outcome, recordStats_tokenCalls, recordStats_sent, recordStats_consulted]
      rcases hmode with ⟨⟨err, h1⟩, h2, h3, h4, h5⟩ | ⟨h1, h2, h3, h4⟩ | ⟨h1, h2, h3, h4, h5⟩
      · left
        exact ⟨by omega, hreach, ⟨err, h1, by rw [recordStats_stats action s err h1, hst]⟩,
          by omega, by omega, by omega, by omega⟩
      · right; left
        have hidx : w.tokenCalls + 1 + n = w.tokenCalls + (n + 1) := by omega
        rw [hidx] at h4
        have hout : s.outcome = .returned (some (.text "couldn't get token")) ∨
            s.outcome = .returned (some (.text "unsupported token type")) := by
          rcases h4 with ⟨-, h4⟩ | ⟨_, -, -, h4⟩
          · exact Or.inl h4
          · exact Or.inr h4
        have hstats : (recordStats action s).world.stats =
            w.stats ++ [{ Method := action, Success := false }] := by
          rcases hout with hout | hout <;> rw [recordStats_stats action s _ hout, hst] <;> rfl
        exact ⟨by omega, by omega, by omega, by omega, fun _ => ⟨hreach, hstats⟩, h4⟩
      · right; right; right
        subst h2
        exact ⟨h1, rfl, hreach, by omega, by omega, by omega,
          by rw [recordStats_stats_outOfFuel action s h1, hst]⟩

/-! ## Token fetches, stats and token failures -/

theorem reachesSend_supportedAt {π ρ : Type} {a : api} {c : Codec π ρ} {action : String}
    {p : π} {opts : List CallOptions} {w : World} (h : reachesSend a c action p opts w) :
    supportedAt a w.tokenCalls := by
  obtain ⟨tok, _, _, h1, h2, -, -⟩ := h
  exact ⟨tok, h1, h2⟩

theorem not_supportedAt_of_failure {a : api} {k : Nat}
    (h : a.tokenGetter k = none ∨ ∃ tok, a.tokenGetter k = some tok ∧ ¬ supported tok) :
    ¬ supportedAt a k := by
  rintro ⟨tok, h1, h2⟩
  rcases h with h | ⟨tok1, h3, h4⟩
  · rw [h] at h1; cases h1
  · rw [h3] at h1; cases h1; exact h4 h2

/-- Claim C3, as the code has it.  In every `Call` that returns, with `N` the number of
retries it performed (the requests sent after the first), the token getter is invoked
exactly `N + 1` times, with one exception: when the fetch that precedes a retry yields
nil or an unsupported token, the call ends at that fetch, after `N + 2` invocations.
In particular the count is `N + 1` whenever every fetch of the call yields a supported
token. -/
theorem Call_token_fetches {π ρ : Type} (a : api) (c : Codec π ρ) (fuel : Nat)
    (action : String) (p : π) (t : ρ) (opts : List CallOptions) (w : World)
    (err : Option GoError)
    (hret : (Call a c fuel action p t opts w).outcome = .returned err) :
    (tokenFetches w (Call a c fuel action p t opts w) =
          retriesPerformed w (Call a c fuel action p t opts w) + 1 ∨
        (tokenFetches w (Call a c fuel action p t opts w) =
            retriesPerformed w (Call a c fuel action p t opts w) + 2 ∧
          w.sent.length < (Call a c fuel action p t opts w).world.sent.length ∧
          ¬ supportedAt a ((Call a c fuel action p t opts w).world.tokenCalls - 1))) ∧
      ((∀ k, w.tokenCalls ≤ k → k < (Call a c fuel action p t opts w).world.tokenCalls →
          supportedAt a k) →
        tokenFetches w (Call a c fuel action p t opts w) =
          retriesPerformed w (Call a c fuel action p t opts w) + 1) := by
  obtain ⟨n, hn, hmode⟩ := Call_modes a c fuel action p t opts w _ rfl
  generalize Call a c fuel action p t opts w = r at hret hmode
  unfold tokenFetches retriesPerformed
  rcases hmode with ⟨h0, -, -, h1, h2, -, -⟩ | ⟨h1, h2, -, -, -, h3⟩ |
    ⟨-, -, -, h1, h2, -, -⟩ | ⟨h1, -⟩
  · exact ⟨Or.inl (by omega), fun _ => by omega⟩
  · have hbad : ¬ supportedAt a (w.tokenCalls + n) := by
      apply not_supportedAt_of_failure
      rcases h3 with ⟨h3, -⟩ | ⟨tok, h3, h4, -⟩
      · exact Or.inl h3
      · exact Or.inr ⟨tok, h3, h4⟩
    rcases Nat.eq_zero_or_pos n with hz | hpos
    · subst hz
      exact ⟨Or.inl (by omega), fun _ => by omega⟩
    · refine ⟨Or.inr ⟨by omega, by omega, ?_⟩, fun hall => ?_⟩
      · have : r.world.tokenCalls - 1 = w.tokenCalls + n := by omega
        rw [this]
        exact hbad
      · exact absurd (hall (w.tokenCalls + n) (by omega) (by omega)) hbad
  · rw [h2]
    exact ⟨Or.inl (by omega), fun _ => by omega⟩
  · rw [h1] at hret
    cases hret

/-- A call that performs two retries and fetches three tokens
(`TestRetryStrategyLastSuccess`). -/
theorem Call_token_fetches_witness :
    (tokenFetches World.init
          (Call (stubClient stubBearerTokenGetter (authErrorsResponder 2) (some (retryBelow 3)))
            stubCodec 3 "" () () [] World.init) =
        retriesPerformed World.init
          (Call (stubClient stubBearerTokenGetter (authErrorsResponder 2) (some (retryBelow 3)))
            stubCodec 3 "" () () [] World.init) + 1 ∨
      (tokenFetches World.init
          (Call (stubClient stubBearerTokenGetter (authErrorsResponder 2) (some (retryBelow 3)))
            stubCodec 3 "" () () [] World.init) =
        retriesPerformed World.init
          (Call (stubClient stubBearerTokenGetter (authErrorsResponder 2) (some (retryBelow 3)))
            stubCodec 3 "" () () [] World.init) + 2 ∧
        World.init.sent.length <
          (Call (stubClient stubBearerTokenGetter (authErrorsResponder 2) (some (retryBelow 3)))
            stubCodec 3 "" () () [] World.init).world.sent.length ∧
        ¬ supportedAt
          (stubClient stubBearerTokenGetter (authErrorsResponder 2) (some (retryBelow 3)))
          ((Call (stubClient stubBearerTokenGetter (authErrorsResponder 2) (some (retryBelow 3)))
            stubCodec 3 "" () () [] World.init).world.tokenCalls - 1))) ∧
      retriesPerformed World.init
          (Call (stubClient stubBearerTokenGetter (authErrorsResponder 2) (some (retryBelow 3)))
            stubCodec 3 "" () () [] World.init) = 2 :=
  ⟨(Call_token_fetches
      (stubClient stubBearerTokenGetter (authErrorsResponder 2) (some (retryBelow 3)))
      stubCodec 3 "" () () [] World.init none (by decide)).1, by decide⟩

/-- Claim C3 fails as stated: when the token getter yields nil at the fetch that
precedes the first retry, the call has sent one request, so it performed no retry, and
has invoked the token getter twice, not once. -/
theorem Call_token_fetches_counterexample :
    (Call (stubClient expiringTokenGetter (authErrorsResponder 10) (some (retryBelow 3)))
        stubCodec 5 "" () () [] World.init).outcome =
        .returned (some (.text "couldn't get token")) ∧
      retriesPerformed World.init
        (Call (stubClient expiringTokenGetter (authErrorsResponder 10) (some (retryBelow 3)))
          stubCodec 5 "" () () [] World.init) = 0 ∧
      tokenFetches World.init
        (Call (stubClient expiringTokenGetter (authErrorsResponder 10) (some (retryBelow 3)))
          stubCodec 5 "" () () [] World.init) = 2 ∧
      ¬ (tokenFetches World.init
        (Call (stubClient expiringTokenGetter (authErrorsResponder 10) (some (retryBelow 3)))
          stubCodec 5 "" () () [] World.init) =
        retriesPerformed World.init
          (Call (stubClient expiringTokenGetter (authErrorsResponder 10) (some (retryBelow 3)))
            stubCodec 5 "" () () [] World.init) + 1) := by
  decide

/-- Claim C4, as the code has it.  A `Call` that gets as far as `send` (its first token
is supported, its endpoint parses, its payload encodes) and returns has invoked the
stats sink exactly once, with its action name and with `Success` false if and only if
it returns an error; a `Call` whose first token fetch fails returns without invoking the
stats sink. -/
theorem Call_stats_once {π ρ : Type} (a : api) (c : Codec π ρ) (fuel : Nat)
    (action : String) (p : π) (t : ρ) (opts : List CallOptions) (w : World)
    (err : Option GoError)
    (hret : (Call a c fuel action p t opts w).outcome = .returned err) :
    (reachesSend a c action p opts w →
        (Call a c fuel action p t opts w).world.stats =
          w.stats ++ [{ Method := action, Success := err.isNone }]) ∧
      (¬ supportedAt a w.tokenCalls →
        (Call a c fuel action p t opts w).world.stats = w.stats) := by
  obtain ⟨n, hn, hmode⟩ := Call_modes a c fuel action p t opts w _ rfl
  generalize Call a c fuel action p t opts w = r at hret hmode
  rcases hmode with ⟨h0, -, ⟨err1, h1, h2⟩, -⟩ | ⟨-, -, -, h1, h2, h3⟩ |
    ⟨h0, h1, -⟩ | ⟨h1, -⟩
  · rw [hret] at h1
    cases h1
    exact ⟨fun _ => h2, fun hns => absurd (by simpa using hn 0 h0) hns⟩
  · rcases Nat.eq_zero_or_pos n with hz | hpos
    · subst hz
      refine ⟨fun hreach => ?_, fun _ => h1 rfl⟩
      have hbad : ¬ supportedAt a (w.tokenCalls + 0) := by
        apply not_supportedAt_of_failure
        rcases h3 with ⟨h3, -⟩ | ⟨tok, h3, h4, -⟩
        · exact Or.inl h3
        · exact Or.inr ⟨tok, h3, h4⟩
      exact absurd (reachesSend_supportedAt hreach) (by simpa using hbad)
    · have herr : err.isNone = false := by
        rcases h3 with ⟨-, h3⟩ | ⟨_, -, -, h3⟩ <;>
          · rw [hret] at h3
            cases h3
            rfl
      rw [herr]
      exact ⟨fun _ => (h2 hpos).2, fun hns => absurd (by simpa using hn 0 hpos) hns⟩
  · subst h0
    exact ⟨fun hreach => absurd hreach h1,
      fun hns => absurd (by simpa using hn 0 (by omega)) hns⟩
  · rw [h1] at hret
    cases hret

/-- The call of `TestRetryStrategyAllFails` reports once, with `Success` false. -/
theorem Call_stats_once_witness :
    (Call (stubClient stubBearerTokenGetter (authErrorsResponder 10) (some (retryBelow 3)))
        stubCodec 4 "follow_customer" () () [] World.init).world.stats =
      World.init.stats ++
        [{ Method := "follow_customer", Success := (some (GoError.api authError)).isNone }] :=
  (Call_stats_once
      (stubClient stubBearerTokenGetter (authErrorsResponder 10) (some (retryBelow 3)))
      stubCodec 4 "follow_customer" () () [] World.init (some (.api authError))
      (by decide)).1
    (stub_reachesSend _ _ _ _ _ _ _ rfl (Or.inl rfl))

/-- Claim C4 fails as stated: a call whose token getter yields nil returns an error and
the stats sink is not invoked at all. -/
theorem Call_stats_once_counterexample :
    (Call (stubClient (fun _ => none) (authErrorsResponder 0) none)
        stubCodec 5 "follow_customer" () () [] World.init).outcome =
        .returned (some (.text "couldn't get token")) ∧
      (Call (stubClient (fun _ => none) (authErrorsResponder 0) none)
        stubCodec 5 "follow_customer" () () [] World.init).world.stats = [] := by
  decide

/-- Claim C5.  Whenever the token getter yields nil at a fetch made during a `Call`, be
it the first fetch or one that precedes a retry, the call returns the error
`couldn't get token`; that fetch is the last thing the call does with its collaborators:
no request is sent after it (the requests sent are those that followed the earlier
fetches, none when it is the first fetch) and the retry strategy is not consulted about
it. -/
theorem Call_nil_token_is_terminal {π ρ : Type} (a : api) (c : Codec π ρ) (fuel : Nat)
    (action : String) (p : π) (t : ρ) (opts : List CallOptions) (w : World) (k : Nat)
    (hk : w.tokenCalls ≤ k)
    (hfetched : k < (Call a c fuel action p t opts w).world.tokenCalls)
    (hnil : a.tokenGetter k = none) :
    (Call a c fuel action p t opts w).outcome =
        .returned (some (.text "couldn't get token")) ∧
      (Call a c fuel action p t opts w).world.tokenCalls = k + 1 ∧
      (Call a c fuel action p t opts w).world.sent.length =
        w.sent.length + (k - w.tokenCalls) ∧
      (Call a c fuel action p t opts w).world.consulted.length =
        w.consulted.length + (k - w.tokenCalls) := by
  obtain ⟨n, hn, hmode⟩ := Call_modes a c fuel action p t opts w _ rfl
  generalize Call a c fuel action p t opts w = r at hfetched hmode
  have hbad : ¬ supportedAt a k := not_supportedAt_of_failure (Or.inl hnil)
  have hlt : ¬ k < w.tokenCalls + n := by
    intro hlt
    have := hn (k - w.tokenCalls) (by omega)
    rw [show w.tokenCalls + (k - w.tokenCalls) = k by omega] at this
    exact hbad this
  rcases hmode with ⟨-, -, -, h1, -⟩ | ⟨h1, h2, h3, -, -, h4⟩ |
    ⟨h0, -, -, h1, -⟩ | ⟨-, -, -, h1, -⟩
  · omega
  · have hkn : k = w.tokenCalls + n := by omega
    subst hkn
    refine ⟨?_, h1, by rw [h2]; omega, by rw [h3]; omega⟩
    rcases h4 with ⟨-, h4⟩ | ⟨tok, h4, -⟩
    · exact h4
    · rw [hnil] at h4; cases h4
  · omega
  · omega

/-- The token getter yields nil at the fetch that precedes the first retry: one request
was sent before it, none after it. -/
theorem Call_nil_token_is_terminal_witness :
    (Call (stubClient expiringTokenGetter (authErrorsResponder 10) (some (retryBelow 3)))
        stubCodec 5 "" () () [] World.init).outcome =
        .returned (some (.text "couldn't get token")) ∧
      (Call (stubClient expiringTokenGetter (authErrorsResponder 10) (some (retryBelow 3)))
        stubCodec 5 "" () () [] World.init).world.tokenCalls = 1 + 1 ∧
      (Call (stubClient expiringTokenGetter (authErrorsResponder 10) (some (retryBelow 3)))
        stubCodec 5 "" () () [] World.init).world.sent.length =
        World.init.sent.length + (1 - World.init.tokenCalls) ∧
      (Call (stubClient expiringTokenGetter (authErrorsResponder 10) (some (retryBelow 3)))
        stubCodec 5 "" () () [] World.init).world.consulted.length =
        World.init.consulted.length + (1 - World.init.tokenCalls) :=
  Call_nil_token_is_terminal
    (stubClient expiringTokenGetter (authErrorsResponder 10) (some (retryBelow 3)))
    stubCodec 5 "" () () [] World.init 1 (by decide) (by decide) rfl

/-- Claim C6.  Whenever the token getter yields, at a fetch made during a `Call`, a token
whose type is neither `BearerToken` nor `BasicToken`, the call returns the error
`unsupported token type` and sends no request after that fetch: no request at all when
it is the first fetch of the call, and otherwise only the requests that followed the
earlier fetches. -/
theorem Call_unsupported_token_is_terminal {π ρ : Type} (a : api) (c : Codec π ρ)
    (fuel : Nat) (action : String) (p : π) (t : ρ) (opts : List CallOptions) (w : World)
    (k : Nat) (tok : Token)
    (hk : w.tokenCalls ≤ k)
    (hfetched : k < (Call a c fuel action p t opts w).world.tokenCalls)
    (htok : a.tokenGetter k = some tok)
    (htype : tok.Type' ≠ TokenType.BearerToken ∧ tok.Type' ≠ TokenType.BasicToken) :
    (Call a c fuel action p t opts w).outcome =
        .returned (some (.text "unsupported token type")) ∧
      (Call a c fuel action p t opts w).world.tokenCalls = k + 1 ∧
      (Call a c fuel action p t opts w).world.sent.length =
        w.sent.length + (k - w.tokenCalls) ∧
      (k = w.tokenCalls → (Call a c fuel action p t opts w).world.sent = w.sent) := by
  obtain ⟨n, hn, hmode⟩ := Call_modes a c fuel action p t opts w _ rfl
  rcases Call_cases a c fuel action p t opts w with ⟨err, hC, -⟩ | ⟨tok0, htok0, hsup0, -⟩
  · rw [hC] at hfetched hmode ⊢
    simp only at hfetched hmode ⊢
    have hkw : k = w.tokenCalls := by omega
    subst hkw
    have hbad : ¬ supportedAt a w.tokenCalls :=
      not_supportedAt_of_failure (Or.inr ⟨tok, htok, fun hs => by
        rcases hs with hs | hs
        · exact htype.1 hs
        · exact htype.2 hs⟩)
    rcases hmode with ⟨h0, -⟩ | ⟨h1, h2, -, -, -, h4⟩ | ⟨h0, -⟩ | ⟨h0, -⟩
    · exact absurd (by simpa using hn 0 h0) hbad
    · have hn0 : n = 0 := by omega
      subst hn0
      refine ⟨?_, ?_, ?_, ?_⟩
      · rcases h4 with ⟨h4, -⟩ | ⟨_, -, -, h4⟩
        · rw [Nat.add_zero, htok] at h4; cases h4
        · exact h4
      · trivial
      · omega
      · intro _; trivial
    · exact absurd (by simpa using hn 0 (by omega)) hbad
    · cases h0
  · generalize Call a c fuel action p t opts w = r at hfetched hmode
    have hbad : ¬ supportedAt a k :=
      not_supportedAt_of_failure (Or.inr ⟨tok, htok, fun hs => by
        rcases hs with hs | hs
        · exact htype.1 hs
        · exact htype.2 hs⟩)
    have hne : k ≠ w.tokenCalls := by
      rintro rfl
      exact hbad ⟨tok0, htok0, hsup0⟩
    have hlt : ¬ k < w.tokenCalls + n := by
      intro hlt
      have := hn (k - w.tokenCalls) (by omega)
      rw [show w.tokenCalls + (k - w.tokenCalls) = k by omega] at this
      exact hbad this
    rcases hmode with ⟨-, -, -, h1, -⟩ | ⟨h1, h2, h3, -, -, h4⟩ |
      ⟨h0, -, -, h1, -⟩ | ⟨-, -, -, h1, -⟩
    · omega
    · have hkn : k = w.tokenCalls + n := by omega
      subst hkn
      refine ⟨?_, h1, by rw [h2]; omega, fun h => absurd h hne⟩
      rcases h4 with ⟨h4, -⟩ | ⟨_, -, -, h4⟩
      · rw [htok] at h4; cases h4
      · exact h4
    · omega
    · omega

/-- The test `TestInvalidAuthorizationScheme`: the first token has the type 2020; the
call fails and the transport is never reached. -/
theorem Call_unsupported_token_is_terminal_witness :
    (Call (stubClient (fun _ => some (stubToken (.other 2020) "access_token"))
        (authErrorsResponder 0) none) stubCodec 5 "" () () [] World.init).outcome =
        .returned (some (.text "unsupported token type")) ∧
      (Call (stubClient (fun _ => some (stubToken (.other 2020) "access_token"))
        (authErrorsResponder 0) none) stubCodec 5 "" () () [] World.init).world.tokenCalls =
        0 + 1 ∧
      (Call (stubClient (fun _ => some (stubToken (.other 2020) "access_token"))
        (authErrorsResponder 0) none) stubCodec 5 "" () () [] World.init).world.sent.length =
        World.init.sent.length + (0 - World.init.tokenCalls) ∧
      (0 = World.init.tokenCalls →
        (Call (stubClient (fun _ => some (stubToken (.other 2020) "access_token"))
          (authErrorsResponder 0) none) stubCodec 5 "" () () [] World.init).world.sent =
          World.init.sent) :=
  Call_unsupported_token_is_terminal
    (stubClient (fun _ => some (stubToken (.other 2020) "access_token"))
      (authErrorsResponder 0) none)
    stubCodec 5 "" () () [] World.init 0 (stubToken (.other 2020) "access_token")
    (by decide) (by decide) rfl (by decide)

/-! ## The requests a `Call` sends -/

theorem lookup_filter_ne (h : Header) (k k1 : String) (hne : k1 ≠ k) :
    List.lookup k1 (h.filter (fun e => e.1 != k)) = List.lookup k1 h := by
  induction h with
  | nil => rfl
  | cons e es ih =>
    by_cases hek : e.1 = k
    · have hk1 : (k1 == e.1) = false := by
        rw [hek]; simpa using hne
      have hf : (e.1 != k) = false := by simp [hek]
      obtain ⟨e1, e2⟩ := e
      simp only at hk1 hf
      rw [List.filter_cons_of_neg (by simp [hf]), List.lookup_cons, hk1]
      exact ih
    · have hf : (e.1 != k) = true := by simp [hek]
      obtain ⟨e1, e2⟩ := e
      simp only at hf
      rw [List.filter_cons_of_pos (by simp [hf]), List.lookup_cons, List.lookup_cons, ih]

theorem Header_Get_Set_same (h : Header) (k k1 v : String)
    (hk : CanonicalMIMEHeaderKey k1 = CanonicalMIMEHeaderKey k) :
    (h.Set k v).Get k1 = v := by
  unfold Header.Get Header.Set
  rw [hk, List.lookup_cons]
  simp

theorem Header_Get_Set_other (h : Header) (k k1 v : String)
    (hk : CanonicalMIMEHeaderKey k1 ≠ CanonicalMIMEHeaderKey k) :
    (h.Set k v).Get k1 = h.Get k1 := by
  unfold Header.Get Header.Set
  have hb : (CanonicalMIMEHeaderKey k1 == CanonicalMIMEHeaderKey k) = false := by
    simpa using hk
  rw [List.lookup_cons, hb]
  simp only
  rw [lookup_filter_ne h _ _ hk]

theorem Header_Get_setCustomHeaders (customHeaders : Header) (k1 : String)
    (hfree : ∀ e ∈ customHeaders, e.2 ≠ [] →
      CanonicalMIMEHeaderKey e.1 ≠ CanonicalMIMEHeaderKey k1) :
    ∀ h : Header, (setCustomHeaders h customHeaders).Get k1 = h.Get k1 := by
  induction customHeaders with
  | nil => intro h; rfl
  | cons e es ih =>
    intro h
    have hes : ∀ e1 ∈ es, e1.2 ≠ [] →
        CanonicalMIMEHeaderKey e1.1 ≠ CanonicalMIMEHeaderKey k1 :=
      fun e1 he1 => hfree e1 (List.mem_cons_of_mem _ he1)
    unfold setCustomHeaders
    rw [List.foldl_cons]
    obtain ⟨key, vals⟩ := e
    cases vals with
    | nil => exact ih hes h
    | cons v vs =>
      have hne := hfree (key, v :: vs) (List.mem_cons_self _ _) (by simp)
      have := ih hes (h.Set key v)
      unfold setCustomHeaders at this
      rw [this]
      exact Header_Get_Set_other h key k1 v (fun hc => hne hc.symm)

theorem callHeaders_Authorization (a : api) (tok : Token)
    (hfree : ∀ e ∈ a.customHeaders, e.2 ≠ [] →
      CanonicalMIMEHeaderKey e.1 ≠ CanonicalMIMEHeaderKey "Authorization") :
    (callHeaders a tok []).Get "Authorization" = authorizationValue tok := by
  unfold callHeaders
  rw [Header_Get_setCustomHeaders a.customHeaders "Authorization" hfree,
    Header_Get_Set_other _ "X-Region" "Authorization" _ (by decide),
    Header_Get_Set_other _ "User-agent" "Authorization" _ (by decide),
    Header_Get_Set_same _ "Authorization" "Authorization" _ rfl]

theorem Call_sent {π ρ : Type} (a : api) (c : Codec π ρ) (fuel : Nat) (action : String)
    (p : π) (t : ρ) (opts : List CallOptions) (w : World) (P : Nat → Request → Prop)
    (hstep : ∀ k x tok, P k x → a.tokenGetter k = some tok → supported tok →
      P (k + 1) (retryRequest x tok))
    (hfirst : ∀ tok u enc, a.tokenGetter w.tokenCalls = some tok → supported tok →
      c.urlParse (a.httpEndpointGenerator tok a.host action) = .ok u →
      encodePayload c p opts = .ok enc →
      P (w.tokenCalls + 1) (firstRequest a tok u (isGet opts) enc)) :
    ∃ extra, (Call a c fuel action p t opts w).world.sent = w.sent ++ extra ∧
      ∀ i x, extra[i]? = some x → P (w.tokenCalls + 1 + i) x := by
  rcases Call_cases a c fuel action p t opts w with
    ⟨err, hC, -⟩ | ⟨tok, htok, hsup, ⟨err, hurl, hC⟩ | ⟨u, hurl, ⟨err, henc, hC⟩ |
      ⟨enc, henc, hC⟩⟩⟩
  · exact ⟨[], by rw [hC]; simp, by simp⟩
  · exact ⟨[], by rw [hC]; simp, by simp⟩
  · exact ⟨[], by rw [hC]; simp [callWorld], by simp⟩
  · obtain ⟨extra, hs, hall⟩ :=
      send_do_sent a c t P hstep fuel 0 (firstRequest a tok u (isGet opts) enc)
        (callWorld w (isGet opts)) (hfirst tok u enc htok hsup hurl henc)
    exact ⟨extra, by rw [hC, recordStats_sent, hs]; rfl, hall⟩

theorem authorizationValue_bearer (tok : Token) (h : tok.Type' = TokenType.BearerToken) :
    authorizationValue tok = "Bearer " ++ tok.AccessToken := by
  unfold authorizationValue
  rw [h]
  exact congrArg (fun s => s ++ tok.AccessToken) (by decide : "Bearer" ++ " " = "Bearer ")

theorem authorizationValue_basic (tok : Token) (h : tok.Type' = TokenType.BasicToken) :
    authorizationValue tok = "Basic " ++ tok.AccessToken := by
  unfold authorizationValue
  rw [h]
  exact congrArg (fun s => s ++ tok.AccessToken) (by decide : "Basic" ++ " " = "Basic ")

theorem firstRequest_Header (a : api) (tok : Token) (u : URL) (get : Bool) (enc : String) :
    (firstRequest a tok u get enc).Header = callHeaders a tok [] := by
  cases get <;> rfl

/-- Claim C7, as the code has it.  Every request a `Call` sends is preceded by a token
fetch of its own, and its `Authorization` header is the name of that token's type, one
space and its access token, `Bearer s` for a bearer token and `Basic s` for a basic
token, on the retries always and on the first attempt provided that no custom header
named `Authorization` has been registered (a registered one is applied after the standard
headers and replaces the value on the first attempt). -/
theorem Call_authorization_header {π ρ : Type} (a : api) (c : Codec π ρ) (fuel : Nat)
    (action : String) (p : π) (t : ρ) (opts : List CallOptions) (w : World) :
    ∃ extra, (Call a c fuel action p t opts w).world.sent = w.sent ++ extra ∧
      ∀ i x, extra[i]? = some x →
        (i = 0 → ∀ e ∈ a.customHeaders, e.2 ≠ [] →
          CanonicalMIMEHeaderKey e.1 ≠ "Authorization") →
        ∃ tok, a.tokenGetter (w.tokenCalls + i) = some tok ∧
          ((tok.Type' = TokenType.BearerToken ∧
              x.Header.Get "Authorization" = "Bearer " ++ tok.AccessToken) ∨
            (tok.Type' = TokenType.BasicToken ∧
              x.Header.Get "Authorization" = "Basic " ++ tok.AccessToken)) := by
  obtain ⟨extra, hs, hall⟩ := Call_sent a c fuel action p t opts w
    (fun k x => 1 ≤ k ∧
      ((k = w.tokenCalls + 1 → ∀ e ∈ a.customHeaders, e.2 ≠ [] →
          CanonicalMIMEHeaderKey e.1 ≠ "Authorization") →
        ∃ tok, a.tokenGetter (k - 1) = some tok ∧ supported tok ∧
          x.Header.Get "Authorization" = authorizationValue tok))
    (by
      intro k x tok _ htok hsup
      refine ⟨by omega, fun _ => ⟨tok, by simpa using htok, hsup, ?_⟩⟩
      exact Header_Get_Set_same _ "Authorization" "Authorization" _ rfl)
    (by
      intro tok u enc htok hsup _ _
      refine ⟨by omega, fun hfree => ⟨tok, by simpa using htok, hsup, ?_⟩⟩
      rw [firstRequest_Header]
      apply callHeaders_Authorization
      have hcanon : CanonicalMIMEHeaderKey "Authorization" = "Authorization" := by decide
      rw [hcanon]
      exact hfree rfl)
  refine ⟨extra, hs, fun i x hx hfree => ?_⟩
  obtain ⟨-, hP⟩ := hall i x hx
  obtain ⟨tok, htok, hsup, hget⟩ := hP (fun hi => hfree (by omega))
  refine ⟨tok, by simpa [Nat.add_assoc, Nat.add_comm 1 i] using htok, ?_⟩
  rcases hsup with hb | hb
  · exact Or.inl ⟨hb, by rw [hget, authorizationValue_bearer tok hb]⟩
  · exact Or.inr ⟨hb, by rw [hget, authorizationValue_basic tok hb]⟩

/-- The test `TestBasicAuthorizationScheme`: the one request of the call carries
`Basic access_token`. -/
theorem Call_authorization_header_witness :
    ∃ x, (Call (stubClient (fun _ => some (stubToken .BasicToken "access_token"))
        (authErrorsResponder 0) none) stubCodec 1 "" () () [] World.init).world.sent[0]? =
        some x ∧ x.Header.Get "Authorization" = "Basic " ++ "access_token" := by
  obtain ⟨extra, hs, hall⟩ := Call_authorization_header
    (stubClient (fun _ => some (stubToken .BasicToken "access_token"))
      (authErrorsResponder 0) none) stubCodec 1 "" () () [] World.init
  have hlen : (Call (stubClient (fun _ => some (stubToken .BasicToken "access_token"))
      (authErrorsResponder 0) none) stubCodec 1 "" () () [] World.init).world.sent.length =
      1 := by decide
  rw [hs] at hlen ⊢
  simp only [World.init, List.nil_append] at hlen ⊢
  match extra, hlen, hall with
  | [x], _, hall =>
    refine ⟨x, rfl, ?_⟩
    obtain ⟨tok, htok, hcase⟩ := hall 0 x rfl (fun _ e he => by simp [stubClient] at he)
    simp only [stubClient, Option.some.injEq] at htok
    subst htok
    rcases hcase with ⟨hty, -⟩ | ⟨-, hget⟩
    · simp [stubToken] at hty
    · exact hget

/-- Claim C7 fails as stated: with a custom header `Authorization` registered, the
request of a call with the bearer token `access_token` carries the custom value. -/
theorem Call_authorization_header_counterexample :
    (Call (SetCustomHeader (stubClient stubBearerTokenGetter (authErrorsResponder 0) none)
        "Authorization" "custom") stubCodec 1 "" () () [] World.init).world.sent.map
        (fun x => x.Header.Get "Authorization") = ["custom"] ∧
      "custom" ≠ "Bearer " ++ "access_token" := by
  decide

/-- Claim C8.  Within one `Call` the body presented to the transport is the same on
every attempt.  A GET call has no body on any attempt.  Every other call encodes its
payload once, before the first attempt (the encoder is invoked at most once in the
whole call), and each request it sends, first attempt or retry, carries exactly those
bytes and keeps them as the buffer from which the next retry reads. -/
theorem Call_body_identical_across_attempts {π ρ : Type} (a : api) (c : Codec π ρ)
    (fuel : Nat) (action : String) (p : π) (t : ρ) (opts : List CallOptions) (w : World) :
    ∃ extra, (Call a c fuel action p t opts w).world.sent = w.sent ++ extra ∧
      (Call a c fuel action p t opts w).world.marshalCalls ≤ w.marshalCalls + 1 ∧
      ((isGet opts = true ∧ ∀ x ∈ extra, x.Body = none) ∨
        (isGet opts = false ∧ ∀ x ∈ extra, ∃ rawBody, c.jsonMarshal p = .ok rawBody ∧
          x.Body = some rawBody ∧ x.GetBody = some (.ok rawBody))) := by
  obtain ⟨extra, hs, hall⟩ := Call_sent a c fuel action p t opts w
    (fun _ x => (isGet opts = true ∧ x.Body = none) ∨
      (isGet opts = false ∧ ∃ rawBody, c.jsonMarshal p = .ok rawBody ∧
        x.Body = some rawBody ∧ x.GetBody = some (.ok rawBody)))
    (by
      intro k x tok hP _ _
      rcases hP with ⟨hg, hb⟩ | ⟨hg, raw, hm, hb, hgb⟩
      · exact Or.inl ⟨hg, by simp [retryRequest, hb]⟩
      · exact Or.inr ⟨hg, raw, hm, by simp [retryRequest, hb, hgb], by simp [retryRequest, hgb]⟩)
    (by
      intro tok u enc _ _ _ henc
      unfold encodePayload at henc
      cases hg : isGet opts with
      | true => exact Or.inl ⟨rfl, by simp [firstRequest]⟩
      | false =>
        rw [hg] at henc
        simp only [Bool.false_eq_true, if_false] at henc
        exact Or.inr ⟨rfl, enc, henc, by simp [firstRequest], by simp [firstRequest]⟩)
  refine ⟨extra, hs, ?_, ?_⟩
  · rcases Call_cases a c fuel action p t opts w with
      ⟨err, hC, -⟩ | ⟨tok, htok, hsup, ⟨err, hurl, hC⟩ | ⟨u, hurl, ⟨err, henc, hC⟩ |
        ⟨enc, henc, hC⟩⟩⟩
    · rw [hC]; simp
    · rw [hC]; simp
    · rw [hC]; simp only [callWorld]; split <;> omega
    · rw [hC, recordStats_marshalCalls]
      obtain ⟨-, hm, -⟩ := send_do_modes a c t fuel 0 (firstRequest a tok u (isGet opts) enc)
        (callWorld w (isGet opts)) _ (firstRequest_bodyReplayable a tok u (isGet opts) enc) rfl
      rw [hm]
      simp only [callWorld]
      split <;> omega
  · cases hg : isGet opts with
    | true =>
      refine Or.inl ⟨rfl, fun x hx => ?_⟩
      obtain ⟨i, hi⟩ := List.mem_iff_getElem?.mp hx
      rcases hall i x hi with ⟨-, hb⟩ | ⟨hf, -⟩
      · exact hb
      · rw [hg] at hf; cases hf
    | false =>
      refine Or.inr ⟨rfl, fun x hx => ?_⟩
      obtain ⟨i, hi⟩ := List.mem_iff_getElem?.mp hx
      rcases hall i x hi with ⟨hf, -⟩ | ⟨-, hb⟩
      · rw [hg] at hf; cases hf
      · exact hb

/-- The three requests of `TestRetryStrategyLastSuccess` all carry the one encoding of
the payload, although the transport consumed the body of each. -/
theorem three_attempts_carry_one_encoding :
    (Call (stubClient stubBearerTokenGetter (authErrorsResponder 2) (some (retryBelow 3)))
        stubCodec 3 "" () () [] World.init).world.sent.map (fun x => x.Body) =
      [some "null", some "null", some "null"] ∧
    (Call (stubClient stubBearerTokenGetter (authErrorsResponder 2) (some (retryBelow 3)))
        stubCodec 3 "" () () [] World.init).world.marshalCalls = 1 := by
  decide

/-- Claim C9.  The two payload encodings exclude each other.  Every request of a `Call`
made with the GET option has the method GET and no body, and its query string is the
query string of the generated endpoint followed by the encoded payload fields; every
request of any other `Call` has the method POST, the JSON encoding of the payload as its
body, and the URL of the generated endpoint unchanged.  A call that gets as far as
`send` with fuel left does send a request. -/
theorem Call_encodings_exclusive {π ρ : Type} (a : api) (c : Codec π ρ)
    (fuel : Nat) (action : String) (p : π) (t : ρ) (opts : List CallOptions) (w : World) :
    ∃ extra, (Call a c fuel action p t opts w).world.sent = w.sent ++ extra ∧
      (reachesSend a c action p opts w → 0 < fuel → extra ≠ []) ∧
      ∀ x ∈ extra, ∃ tok u, a.tokenGetter w.tokenCalls = some tok ∧
        c.urlParse (a.httpEndpointGenerator tok a.host action) = .ok u ∧
        ((isGet opts = true ∧ x.Method = "GET" ∧ x.Body = none ∧
            ∃ qs, c.queryValuesEncode p = .ok qs ∧ x.URL.Base = u.Base ∧
              x.URL.RawQuery =
                u.RawQuery ++ (if u.RawQuery ≠ "" ∧ qs ≠ "" then "&" ++ qs else qs)) ∨
          (isGet opts = false ∧ x.Method = "POST" ∧ x.URL = u ∧
            ∃ rawBody, c.jsonMarshal p = .ok rawBody ∧ x.Body = some rawBody)) := by
  obtain ⟨extra, hs, hall⟩ := Call_sent a c fuel action p t opts w
    (fun _ x => ∃ tok u, a.tokenGetter w.tokenCalls = some tok ∧
        c.urlParse (a.httpEndpointGenerator tok a.host action) = .ok u ∧
        ((isGet opts = true ∧ x.Method = "GET" ∧ x.Body = none ∧
            ∃ qs, c.queryValuesEncode p = .ok qs ∧ x.URL.Base = u.Base ∧
              x.URL.RawQuery =
                u.RawQuery ++ (if u.RawQuery ≠ "" ∧ qs ≠ "" then "&" ++ qs else qs)) ∨
          (isGet opts = false ∧ x.Method = "POST" ∧ x.URL = u ∧
            ∃ rawBody, c.jsonMarshal p = .ok rawBody ∧ x.Body = some rawBody ∧
              x.GetBody = some (.ok rawBody))))
    (by
      intro k x tok hP _ _
      obtain ⟨tok0, u, h1, h2, hcase⟩ := hP
      refine ⟨tok0, u, h1, h2, ?_⟩
      rcases hcase with ⟨hg, hm, hb, hq⟩ | ⟨hg, hm, hu, raw, hj, hb, hgb⟩
      · exact Or.inl ⟨hg, hm, by simp [retryRequest, hb], hq⟩
      · exact Or.inr ⟨hg, hm, hu, raw, hj, by simp [retryRequest, hb, hgb],
          by simp [retryRequest, hgb]⟩)
    (by
      intro tok u enc htok _ hurl henc
      refine ⟨tok, u, htok, hurl, ?_⟩
      unfold encodePayload at henc
      cases hg : isGet opts with
      | true =>
        rw [hg] at henc
        simp only [if_true] at henc
        exact Or.inl ⟨rfl, by simp [firstRequest], by simp [firstRequest], enc, henc,
          by simp [firstRequest], by simp [firstRequest]⟩
      | false =>
        rw [hg] at henc
        simp only [Bool.false_eq_true, if_false] at henc
        exact Or.inr ⟨rfl, by simp [firstRequest], by simp [firstRequest], enc, henc,
          by simp [firstRequest], by simp [firstRequest]⟩)
  refine ⟨extra, hs, ?_, ?_⟩
  · intro hreach hfuel hnil
    subst hnil
    have hlen : (Call a c fuel action p t opts w).world.sent.length = w.sent.length := by
      rw [hs]; simp
    obtain ⟨n, hn, hmode⟩ := Call_modes a c fuel action p t opts w _ rfl
    rcases hmode with ⟨h0, -, -, -, h1, -⟩ | ⟨-, h1, -, -, -, h2⟩ | ⟨-, h1, -⟩ |
      ⟨-, -, -, -, h1, -⟩
    · omega
    · have hn0 : n = 0 := by omega
      subst hn0
      have hbad : ¬ supportedAt a (w.tokenCalls + 0) := by
        apply not_supportedAt_of_failure
        rcases h2 with ⟨h2, -⟩ | ⟨tok, h2, h3, -⟩
        · exact Or.inl h2
        · exact Or.inr ⟨tok, h2, h3⟩
      exact hbad (by simpa using reachesSend_supportedAt hreach)
    · exact h1 hreach
    · omega
  · intro x hx
    obtain ⟨i, hi⟩ := List.mem_iff_getElem?.mp hx
    obtain ⟨tok, u, h1, h2, hcase⟩ := hall i x hi
    refine ⟨tok, u, h1, h2, ?_⟩
    rcases hcase with hc | ⟨hg, hm, hu, raw, hj, hb, -⟩
    · exact Or.inl hc
    · exact Or.inr ⟨hg, hm, hu, raw, hj, hb⟩

/-- A GET call of the customer client gets as far as `send` and so sends a request. -/
theorem Call_encodings_exclusive_witness :
    (Call customerClient fieldsCodec 1 "get_configuration" "group_id=0" ()
      [{ Method := "GET" }] World.init).world.sent ≠ [] := by
  obtain ⟨extra, hs, hne, -⟩ := Call_encodings_exclusive customerClient fieldsCodec 1
    "get_configuration" "group_id=0" () [{ Method := "GET" }] World.init
  rw [hs]
  have hreach : reachesSend customerClient fieldsCodec "get_configuration" "group_id=0"
      [{ Method := "GET" }] World.init :=
    ⟨_, _, _, rfl, Or.inl rfl, rfl, rfl⟩
  simpa [World.init] using hne hreach (by decide)

/-- The same payload sent with and without the GET option: in the query string and
without a body, or as the body and with the query string of the endpoint as it was. -/
theorem get_and_post_encodings_of_one_payload :
    (Call customerClient fieldsCodec 1 "get_configuration" "group_id=0" ()
        [{ Method := "GET" }] World.init).world.sent.map
        (fun x => (x.Method, x.URL.RawQuery, x.Body)) =
      [("GET", "organization_id=xD&group_id=0", none)] ∧
    (Call customerClient fieldsCodec 1 "get_configuration" "group_id=0" ()
        [] World.init).world.sent.map
        (fun x => (x.Method, x.URL.RawQuery, x.Body)) =
      [("POST", "organization_id=xD", some "\x7bgroup_id=0\x7d")] := by
  decide

/-! ## Attempts that end the call without a word from the retry strategy -/

theorem send_attempt_transport_error {π ρ : Type} {a : api} {c : Codec π ρ} {att : Nat}
    {req : Request} {t : ρ} {w : World} {err : GoError}
    (hresp : a.httpClient w.sent.length req = .error err) :
    send_attempt a c att req t w =
      .ended ⟨{ w with sent := w.sent ++ [req] }, t, .returned (some err)⟩ := by
  unfold send_attempt
  simp [hresp]

theorem send_attempt_undecodable {π ρ : Type} {a : api} {c : Codec π ρ} {att : Nat}
    {req : Request} {t : ρ} {w : World} {resp : Response} {derr : GoError}
    (hresp : a.httpClient w.sent.length req = .ok resp) (hcode : resp.StatusCode ≠ 200)
    (hdec : c.jsonUnmarshalErrAPI resp.bodyBytes = .error derr) :
    send_attempt a c att req t w =
      .ended ⟨{ w with sent := w.sent ++ [req] }, t, .returned (some (.text
        ("couldn't unmarshal error response: " ++ derr.Error ++ " (code: " ++
          toString resp.StatusCode ++ ", raw body: " ++ resp.bodyBytes ++ ")")))⟩ := by
  unfold send_attempt
  simp [hresp, hcode, hdec]

theorem send_attempt_unusable {π ρ : Type} {a : api} {c : Codec π ρ} {att : Nat}
    {req : Request} {t : ρ} {w : World} {resp : Response} {e : ErrAPI}
    (hresp : a.httpClient w.sent.length req = .ok resp) (hcode : resp.StatusCode ≠ 200)
    (hdec : c.jsonUnmarshalErrAPI resp.bodyBytes = .ok e) (herr : e.Error = "") :
    send_attempt a c att req t w =
      .ended ⟨{ w with sent := w.sent ++ [req] }, t, .returned (some (.text
        ("couldn't unmarshal error response (code: " ++
          toString resp.StatusCode ++ ", raw body: " ++ resp.bodyBytes ++ ")")))⟩ := by
  unfold send_attempt
  simp [hresp, hcode, hdec, herr]

theorem noUsableType_Error {e : ErrAPI} (h : noUsableType e) : e.Error = "" := by
  obtain ⟨x⟩ := e
  rcases h with h | ⟨m, h⟩
  · simp only at h; subst h; rfl
  · simp only at h; subst h; simp [ErrAPI.Error]

theorem Call_retries_any {π ρ : Type} (a : api) (c : Codec π ρ) (action : String) (p : π)
    (t : ρ) (opts : List CallOptions) (f : Nat → ErrAPI → Bool) (errs : Nat → ErrAPI)
    (K fuel : Nat) (hf : 0 < K → a.retryStrategy = some f)
    (hreach : reachesSend a c action p opts World.init)
    (htok : ∀ k, k < K → supportedAt a (k + 1))
    (htr : ∀ k, k < K → answersAPIError a c k (errs k))
    (hyes : ∀ k, k < K → f (k % uintSize) (errs k) = true) :
    ∃ req1 w1, Call a c (fuel + K) action p t opts World.init =
        recordStats action (send_do a c fuel (K % uintSize) req1 t w1) ∧
      bodyReplayable req1 ∧ w1.tokenCalls = K + 1 ∧ w1.sent.length = K ∧
      w1.consulted = (List.range K).map (fun k => (k % uintSize, errs k)) ∧
      w1.stats = [] := by
  rcases Nat.eq_zero_or_pos K with hK | hK
  · subst hK
    obtain ⟨tok, u, enc, htok0, hsup0, hurl, henc⟩ := hreach
    exact ⟨firstRequest a tok u (isGet opts) enc, callWorld World.init (isGet opts),
      by rw [Call_built (fuel + 0) t htok0 hsup0 hurl henc]; rfl,
      firstRequest_bodyReplayable a tok u (isGet opts) enc, rfl, rfl, rfl, rfl⟩
  · exact Call_retries a c action p t opts f (hf hK) errs K fuel hreach htok htr hyes

/-- Claim C11.  For every status code `code` other than 200 and every body `b` that the
JSON decoder rejects, a `Call` whose attempt receives that response (the first attempt,
or a retry after `K` API errors that the strategy approved) returns, without a panic,
the synthetic error `couldn't unmarshal error response: <decoder error> (code: <code>,
raw body: <b>)`, which spells out the status code and the raw body.  The retry strategy
is not consulted about it: it has been asked `K` times, once for each earlier API error,
and no request follows. -/
theorem Call_undecodable_error_body {π ρ : Type} (a : api) (c : Codec π ρ)
    (action : String) (p : π) (t : ρ) (opts : List CallOptions)
    (f : Nat → ErrAPI → Bool) (errs : Nat → ErrAPI) (K fuel : Nat)
    (code : Int) (b : String) (derr : GoError)
    (hfuel : K < fuel)
    (hf : 0 < K → a.retryStrategy = some f)
    (hyes : ∀ k, k < K → f (k % uintSize) (errs k) = true)
    (hreach : reachesSend a c action p opts World.init)
    (htok : ∀ k, k ≤ K → supportedAt a k)
    (htr : ∀ k, k < K → answersAPIError a c k (errs k))
    (hlast : answersWith a K code b)
    (hcode : code ≠ 200)
    (hjson : c.jsonUnmarshalErrAPI b = .error derr) :
    (Call a c fuel action p t opts World.init).outcome =
        .returned (some (.text
          ("couldn't unmarshal error response: " ++ derr.Error ++ " (code: " ++
            toString code ++ ", raw body: " ++ b ++ ")"))) ∧
      (Call a c fuel action p t opts World.init).world.sent.length = K + 1 ∧
      (Call a c fuel action p t opts World.init).world.consulted.length = K := by
  obtain ⟨fuel1, rfl⟩ : ∃ fuel1, fuel = fuel1 + 1 + K := ⟨fuel - K - 1, by omega⟩
  obtain ⟨req1, w1, hrun, hb, htc, hsent, hcons, hst⟩ :=
    Call_retries_any a c action p t opts f errs K (fuel1 + 1) hf hreach
      (fun k hk => htok (k + 1) (by omega)) htr hyes
  obtain ⟨resp, hresp, hrc, hrb⟩ := hlast req1
  have hstep := @send_attempt_undecodable π ρ a c (K % uintSize) req1 t w1 resp derr
    (by rw [hsent]; exact hresp) (by rw [hrc]; exact hcode) (by rw [hrb]; exact hjson)
  rw [hrun, send_do_succ, hstep]
  simp only [recordStats_returned, hrc, hrb]
  exact ⟨trivial, by simp [hsent], by simp [hcons]⟩

/-- The scenario of the spec: the body `not json` with the status 400. -/
theorem Call_undecodable_error_body_witness :
    (Call (stubClient stubBearerTokenGetter (fixedResponder 400 "not json")
          (some (retryBelow 3)))
        stubCodec 1 "" () () [] World.init).outcome =
        .returned (some (.text
          ("couldn't unmarshal error response: " ++ (GoError.text "invalid character").Error ++
            " (code: " ++ toString (400 : Int) ++ ", raw body: " ++ "not json" ++ ")"))) ∧
      (Call (stubClient stubBearerTokenGetter (fixedResponder 400 "not json")
          (some (retryBelow 3)))
        stubCodec 1 "" () () [] World.init).world.sent.length = 0 + 1 ∧
      (Call (stubClient stubBearerTokenGetter (fixedResponder 400 "not json")
          (some (retryBelow 3)))
        stubCodec 1 "" () () [] World.init).world.consulted.length = 0 :=
  Call_undecodable_error_body
    (stubClient stubBearerTokenGetter (fixedResponder 400 "not json") (some (retryBelow 3)))
    stubCodec "" () () [] (retryBelow 3) (fun _ => authError) 0 1 400 "not json"
    (.text "invalid character") (by decide) (fun _ => rfl) (fun k hk => absurd hk (by omega))
    (stub_reachesSend _ _ _ _ _ _ _ rfl (Or.inl rfl))
    (fun k _ => stubBearer_supportedAt _ _ k)
    (fun k hk => absurd hk (by omega))
    (fun _ => ⟨_, rfl, rfl, rfl⟩) (by decide) (by simp [stubCodec, authErrorBody])

/-- Claim C12.  For every non-200 response whose body is valid JSON, so that it decodes,
but yields no usable error type (no error object, as for the empty object, or an error
object whose type is empty), a `Call` whose attempt receives that response returns the
synthetic error `couldn't unmarshal error response (code: <code>, raw body: <b>)`, which
carries the status code and the raw body; what it returns is therefore not an API error
with an empty type, and the retry strategy is not consulted about it. -/
theorem Call_error_body_without_type {π ρ : Type} (a : api) (c : Codec π ρ)
    (action : String) (p : π) (t : ρ) (opts : List CallOptions)
    (f : Nat → ErrAPI → Bool) (errs : Nat → ErrAPI) (K fuel : Nat)
    (code : Int) (b : String) (e : ErrAPI)
    (hfuel : K < fuel)
    (hf : 0 < K → a.retryStrategy = some f)
    (hyes : ∀ k, k < K → f (k % uintSize) (errs k) = true)
    (hreach : reachesSend a c action p opts World.init)
    (htok : ∀ k, k ≤ K → supportedAt a k)
    (htr : ∀ k, k < K → answersAPIError a c k (errs k))
    (hlast : answersWith a K code b)
    (hcode : code ≠ 200)
    (hjson : c.jsonUnmarshalErrAPI b = .ok e)
    (htype : noUsableType e) :
    (Call a c fuel action p t opts World.init).outcome =
        .returned (some (.text
          ("couldn't unmarshal error response (code: " ++
            toString code ++ ", raw body: " ++ b ++ ")"))) ∧
      (∀ e1, (Call a c fuel action p t opts World.init).outcome ≠
        .returned (some (.api e1))) ∧
      (Call a c fuel action p t opts World.init).world.sent.length = K + 1 ∧
      (Call a c fuel action p t opts World.init).world.consulted.length = K := by
  obtain ⟨fuel1, rfl⟩ : ∃ fuel1, fuel = fuel1 + 1 + K := ⟨fuel - K - 1, by omega⟩
  obtain ⟨req1, w1, hrun, hb, htc, hsent, hcons, hst⟩ :=
    Call_retries_any a c action p t opts f errs K (fuel1 + 1) hf hreach
      (fun k hk => htok (k + 1) (by omega)) htr hyes
  obtain ⟨resp, hresp, hrc, hrb⟩ := hlast req1
  have hstep := @send_attempt_unusable π ρ a c (K % uintSize) req1 t w1 resp e
    (by rw [hsent]; exact hresp) (by rw [hrc]; exact hcode) (by rw [hrb]; exact hjson)
    (noUsableType_Error htype)
  rw [hrun, send_do_succ, hstep, recordStats_returned, hrc, hrb]
  refine ⟨rfl, fun e1 h => ?_, by simp [hsent], by simp [hcons]⟩
  simp only [Outcome.returned.injEq, Option.some.injEq] at h
  cases h

/-- An error object with a message but no type, with the status 400. -/
theorem Call_error_body_without_type_witness :
    (Call (stubClient stubBearerTokenGetter
          (fixedResponder 400 "\x7b\"error\":\x7b\"message\":\"no type\"\x7d\x7d")
          (some (retryBelow 3)))
        lenientCodec 1 "" () () [] World.init).outcome =
        .returned (some (.text
          ("couldn't unmarshal error response (code: " ++ toString (400 : Int) ++
            ", raw body: " ++ "\x7b\"error\":\x7b\"message\":\"no type\"\x7d\x7d" ++ ")"))) ∧
      (∀ e1, (Call (stubClient stubBearerTokenGetter
          (fixedResponder 400 "\x7b\"error\":\x7b\"message\":\"no type\"\x7d\x7d")
          (some (retryBelow 3)))
        lenientCodec 1 "" () () [] World.init).outcome ≠ .returned (some (.api e1))) ∧
      (Call (stubClient stubBearerTokenGetter
          (fixedResponder 400 "\x7b\"error\":\x7b\"message\":\"no type\"\x7d\x7d")
          (some (retryBelow 3)))
        lenientCodec 1 "" () () [] World.init).world.sent.length = 0 + 1 ∧
      (Call (stubClient stubBearerTokenGetter
          (fixedResponder 400 "\x7b\"error\":\x7b\"message\":\"no type\"\x7d\x7d")
          (some (retryBelow 3)))
        lenientCodec 1 "" () () [] World.init).world.consulted.length = 0 :=
  Call_error_body_without_type
    (stubClient stubBearerTokenGetter
      (fixedResponder 400 "\x7b\"error\":\x7b\"message\":\"no type\"\x7d\x7d")
      (some (retryBelow 3)))
    lenientCodec "" () () [] (retryBelow 3) (fun _ => authError) 0 1 400
    "\x7b\"error\":\x7b\"message\":\"no type\"\x7d\x7d" ⟨some ("", "no type")⟩
    (by decide) (fun _ => rfl) (fun k hk => absurd hk (by omega))
    ⟨_, _, _, rfl, Or.inl rfl, rfl, rfl⟩
    (fun k _ => stubBearer_supportedAt _ _ k)
    (fun k hk => absurd hk (by omega))
    (fun _ => ⟨_, rfl, rfl, rfl⟩) (by decide) (by simp [lenientCodec])
    (Or.inr ⟨"no type", rfl⟩)

/-- Claim C13.  A transport-level failure of an attempt, and a JSON decode failure of the
body of an HTTP 200 answer, are each returned to the caller at once, whatever retry
strategy is set (one that always returns true included): the call returns that very
error, sends no request after the failed attempt and does not consult the strategy
about it; the stats sink receives one report, with `Success` false.  The failed attempt
may be the first one or a retry after `K` API errors that the strategy approved. -/
theorem Call_terminal_failures_not_retried {π ρ : Type} (a : api) (c : Codec π ρ)
    (action : String) (p : π) (t : ρ) (opts : List CallOptions)
    (f : Nat → ErrAPI → Bool) (errs : Nat → ErrAPI) (K fuel : Nat) (err : GoError)
    (hfuel : K < fuel)
    (hf : 0 < K → a.retryStrategy = some f)
    (hyes : ∀ k, k < K → f (k % uintSize) (errs k) = true)
    (hreach : reachesSend a c action p opts World.init)
    (htok : ∀ k, k ≤ K → supportedAt a k)
    (htr : ∀ k, k < K → answersAPIError a c k (errs k))
    (hlast : (∀ x, a.httpClient K x = .error err) ∨
      (∀ x, ∃ resp, a.httpClient K x = .ok resp ∧ resp.StatusCode = 200 ∧
        resp.readErr = none ∧ (c.jsonUnmarshal resp.bodyBytes t).2 = some err)) :
    (Call a c fuel action p t opts World.init).outcome = .returned (some err) ∧
      (Call a c fuel action p t opts World.init).world.sent.length = K + 1 ∧
      (Call a c fuel action p t opts World.init).world.consulted.length = K ∧
      (Call a c fuel action p t opts World.init).world.stats =
        [{ Method := action, Success := false }] := by
  obtain ⟨fuel1, rfl⟩ : ∃ fuel1, fuel = fuel1 + 1 + K := ⟨fuel - K - 1, by omega⟩
  obtain ⟨req1, w1, hrun, hb, htc, hsent, hcons, hst⟩ :=
    Call_retries_any a c action p t opts f errs K (fuel1 + 1) hf hreach
      (fun k hk => htok (k + 1) (by omega)) htr hyes
  rcases hlast with hlast | hlast
  · have hstep := @send_attempt_transport_error π ρ a c (K % uintSize) req1 t w1 err
      (by rw [hsent]; exact hlast req1)
    rw [hrun, send_do_succ, hstep, recordStats_returned]
    exact ⟨rfl, by simp [hsent], by simp [hcons], by simp [hst]⟩
  · obtain ⟨resp, hresp, hcode, hread, hdec⟩ := hlast req1
    obtain ⟨w2, hstep, hs2, -, hc2, hst2, -⟩ :=
      @send_attempt_ok π ρ a c (K % uintSize) req1 t w1 resp
        (by rw [hsent]; exact hresp) hcode hread
    rw [hrun, send_do_succ, hstep, recordStats_returned, hdec]
    exact ⟨rfl, by simp [hs2, hsent], by simp [hc2, hcons], by simp [hst2, hst]⟩

/-- A refused connection under a strategy that always returns true: one request, no
consultation, the transport error returned. -/
theorem Call_terminal_failures_not_retried_witness :
    (Call (stubClient stubBearerTokenGetter refusingTransport (some (fun _ _ => true)))
        stubCodec 5 "send_event" () () [] World.init).outcome =
        .returned (some (.text "dial tcp: connection refused")) ∧
      (Call (stubClient stubBearerTokenGetter refusingTransport (some (fun _ _ => true)))
        stubCodec 5 "send_event" () () [] World.init).world.sent.length = 0 + 1 ∧
      (Call (stubClient stubBearerTokenGetter refusingTransport (some (fun _ _ => true)))
        stubCodec 5 "send_event" () () [] World.init).world.consulted.length = 0 ∧
      (Call (stubClient stubBearerTokenGetter refusingTransport (some (fun _ _ => true)))
        stubCodec 5 "send_event" () () [] World.init).world.stats =
        [{ Method := "send_event", Success := false }] :=
  Call_terminal_failures_not_retried
    (stubClient stubBearerTokenGetter refusingTransport (some (fun _ _ => true)))
    stubCodec "send_event" () () [] (fun _ _ => true) (fun _ => authError) 0 5
    (.text "dial tcp: connection refused") (by decide) (fun _ => rfl)
    (fun k hk => absurd hk (by omega))
    (stub_reachesSend _ _ _ _ _ _ _ rfl (Or.inl rfl))
    (fun k _ => stubBearer_supportedAt _ _ k)
    (fun k hk => absurd hk (by omega))
    (Or.inl (fun _ => rfl))

/-- An HTTP 200 with an empty body, as in `TestAuthorIDHeader`, under a strategy that
always returns true: the decode error is returned after one request. -/
theorem empty_success_body_is_not_retried :
    (Call (stubClient stubBearerTokenGetter (fixedResponder 200 "") (some (fun _ _ => true)))
        stubCodec 5 "" () () [] World.init).outcome =
        .returned (some (.text "unexpected end of JSON input")) ∧
      (Call (stubClient stubBearerTokenGetter (fixedResponder 200 "") (some (fun _ _ => true)))
        stubCodec 5 "" () () [] World.init).world.sent.length = 1 ∧
      (Call (stubClient stubBearerTokenGetter (fixedResponder 200 "") (some (fun _ _ => true)))
        stubCodec 5 "" () () [] World.init).world.consulted = [] := by
  decide

/-! ## Headers as maps -/

theorem canonicalize_idem : ∀ (cs : List Char) (upper : Bool),
    canonicalize upper (canonicalize upper cs) = canonicalize upper cs := by
  have hup : ∀ m : Nat, 97 ≤ m → m ≤ 122 → (Char.ofNat (m - 32)).toNat = m - 32 := by
    intro m h1 h2
    interval_cases m <;> rfl
  have hlow : ∀ m : Nat, 65 ≤ m → m ≤ 90 → (Char.ofNat (m + 32)).toNat = m + 32 := by
    intro m h1 h2
    interval_cases m <;> rfl
  intro cs
  induction cs with
  | nil => intro upper; rfl
  | cons ch cs ih =>
    intro upper
    cases upper with
    | true =>
      by_cases hr : 97 ≤ ch.toNat ∧ ch.toNat ≤ 122
      · have h1 := hup ch.toNat hr.1 hr.2
        have hnot : ¬ (97 ≤ ch.toNat - 32) := by omega
        simp only [canonicalize, hr.1, hr.2, h1, hnot, Bool.true_and, decide_True,
          decide_False, Bool.and_self, if_true, Bool.not_true, Bool.false_and,
          Bool.false_eq_true, if_false, ih]
      · have hr2 : ¬ (97 ≤ ch.toNat) ∨ ¬ (ch.toNat ≤ 122) := by
          by_contra hc
          push_neg at hc
          exact hr hc
        rcases hr2 with hr2 | hr2 <;>
          simp [canonicalize, hr2, ih]
    | false =>
      by_cases hr : 65 ≤ ch.toNat ∧ ch.toNat ≤ 90
      · have h1 := hlow ch.toNat hr.1 hr.2
        have hnot : ¬ (ch.toNat + 32 ≤ 90) := by omega
        simp only [canonicalize, hr.1, hr.2, h1, hnot, Bool.false_and, Bool.false_eq_true,
          if_false, Bool.not_false, Bool.true_and, decide_True, decide_False, Bool.and_self,
          Bool.and_false, if_true, ih]
      · have hr2 : ¬ (65 ≤ ch.toNat) ∨ ¬ (ch.toNat ≤ 90) := by
          by_contra hc
          push_neg at hc
          exact hr hc
        rcases hr2 with hr2 | hr2 <;>
          simp [canonicalize, hr2, ih]

theorem CanonicalMIMEHeaderKey_idem (s : String) :
    CanonicalMIMEHeaderKey (CanonicalMIMEHeaderKey s) = CanonicalMIMEHeaderKey s := by
  unfold CanonicalMIMEHeaderKey
  by_cases hs : s.data.all validHeaderFieldByte = true
  · simp only [hs, if_true]
    by_cases h2 : (canonicalize true s.data).all validHeaderFieldByte = true
    · simp only [h2, if_true, canonicalize_idem]
    · simp only [h2, if_false, Bool.false_eq_true]
  · simp only [hs, if_false, Bool.false_eq_true]

theorem headerMap_nil : headerMap [] := by
  refine ⟨fun e he => ?_, by simp⟩
  cases he

theorem headerMap_Set {h : Header} (hm : headerMap h) (key value : String) :
    headerMap (h.Set key value) := by
  obtain ⟨hcanon, hnodup⟩ := hm
  unfold Header.Set
  refine ⟨fun e he => ?_, ?_⟩
  · rcases List.mem_cons.mp he with he | he
    · rw [he]
      exact CanonicalMIMEHeaderKey_idem key
    · exact hcanon e (List.mem_of_mem_filter he)
  · rw [List.map_cons, List.nodup_cons]
    refine ⟨fun hin => ?_, ?_⟩
    · obtain ⟨e, he, hk⟩ := List.mem_map.mp hin
      have := (List.mem_filter.mp he).2
      simp only [bne_iff_ne, ne_eq] at this
      exact this hk
    · exact List.Nodup.sublist (List.Sublist.map _ (List.filter_sublist _)) hnodup

theorem lookup_of_mem_nodup : ∀ (h : Header), (h.map Prod.fst).Nodup →
    ∀ e ∈ h, h.lookup e.1 = some e.2 := by
  intro h
  induction h with
  | nil => intro _ e he; cases he
  | cons e0 es ih =>
    intro hnd e he
    rw [List.map_cons, List.nodup_cons] at hnd
    obtain ⟨k0, v0⟩ := e0
    rcases List.mem_cons.mp he with hhead | htail
    · subst hhead
      simp [List.lookup_cons]
    · have hne : e.1 ≠ k0 := by
        intro hk
        exact hnd.1 (List.mem_map.mpr ⟨e, htail, hk⟩)
      have hb : (e.1 == k0) = false := by simpa using hne
      rw [List.lookup_cons, hb]
      exact ih hnd.2 e htail

theorem Header_Get_setCustomHeaders_value (customHeaders : Header) (key v : String)
    (vs : List String) (hm : headerMap customHeaders)
    (hv : customHeaders.lookup (CanonicalMIMEHeaderKey key) = some (v :: vs)) :
    ∀ h : Header, (setCustomHeaders h customHeaders).Get key = v := by
  induction customHeaders with
  | nil => simp at hv
  | cons e es ih =>
    intro h
    obtain ⟨hcanon, hnodup⟩ := hm
    rw [List.map_cons, List.nodup_cons] at hnodup
    have hes : headerMap es :=
      ⟨fun e1 he1 => hcanon e1 (List.mem_cons_of_mem _ he1), hnodup.2⟩
    obtain ⟨k0, vals⟩ := e
    have hk0 : CanonicalMIMEHeaderKey k0 = k0 := hcanon (k0, vals) (List.mem_cons_self _ _)
    unfold setCustomHeaders
    rw [List.foldl_cons]
    by_cases hk : CanonicalMIMEHeaderKey key = k0
    · have hb : (CanonicalMIMEHeaderKey key == k0) = true := by simpa using hk
      rw [List.lookup_cons, hb] at hv
      simp only [Option.some.injEq] at hv
      subst hv
      have hfree : ∀ e1 ∈ es, e1.2 ≠ [] →
          CanonicalMIMEHeaderKey e1.1 ≠ CanonicalMIMEHeaderKey key := by
        intro e1 he1 _ hc
        rw [hcanon e1 (List.mem_cons_of_mem _ he1), hk] at hc
        exact hnodup.1 (List.mem_map.mpr ⟨e1, he1, hc⟩)
      have := Header_Get_setCustomHeaders es key hfree (h.Set k0 v)
      unfold setCustomHeaders at this
      rw [this]
      exact Header_Get_Set_same h k0 key v (by rw [hk0, hk])
    · have hb : (CanonicalMIMEHeaderKey key == k0) = false := by simpa using hk
      rw [List.lookup_cons, hb] at hv
      have := ih hes hv
      unfold setCustomHeaders at this
      exact this _

theorem Header_Get_setCustomHeaders_no_value (customHeaders : Header) (key : String)
    (hm : headerMap customHeaders)
    (hv : ∀ v vs, customHeaders.lookup (CanonicalMIMEHeaderKey key) ≠ some (v :: vs))
    (h : Header) : (setCustomHeaders h customHeaders).Get key = h.Get key := by
  apply Header_Get_setCustomHeaders
  intro e he hne hc
  obtain ⟨k0, vals⟩ := e
  have hl := lookup_of_mem_nodup customHeaders hm.2 (k0, vals) he
  simp only at hl hne hc
  rw [hm.1 (k0, vals) he] at hc
  simp only at hc
  rw [hc] at hl
  cases vals with
  | nil => exact hne rfl
  | cons v vs => exact hv v vs hl

theorem callHeaders_ContentType (a : api) (tok : Token) (hm : headerMap a.customHeaders)
    (hv : ∀ v vs, a.customHeaders.lookup "Content-Type" ≠ some (v :: vs)) :
    (callHeaders a tok []).Get "Content-Type" = "application/json" := by
  unfold callHeaders
  have hcanon : CanonicalMIMEHeaderKey "Content-Type" = "Content-Type" := by decide
  rw [Header_Get_setCustomHeaders_no_value a.customHeaders "Content-Type" hm
      (by rw [hcanon]; exact hv),
    Header_Get_Set_other _ "X-Region" "Content-Type" _ (by decide),
    Header_Get_Set_other _ "User-agent" "Content-Type" _ (by decide),
    Header_Get_Set_other _ "Authorization" "Content-Type" _ (by decide),
    Header_Get_Set_same _ "Content-Type" "Content-Type" _ rfl]

theorem retryRequest_Get (x : Request) (tok : Token) (key : String)
    (hk : CanonicalMIMEHeaderKey key ≠ "Authorization") :
    (retryRequest x tok).Header.Get key = x.Header.Get key := by
  have hcanon : CanonicalMIMEHeaderKey "Authorization" = "Authorization" := by decide
  exact Header_Get_Set_other x.Header "Authorization" key _ (by rw [hcanon]; exact hk)

/-- Claim C14, as the code has it.  Custom headers are applied after the standard headers
and take precedence over every one of them, `Content-Type` included: each request of a
`Call` carries, for every custom header registered with a value, that value (on a retry
with the exception of `Authorization`, which is rebuilt from the new token), so that a
custom header named `Content-Type` replaces `application/json`, also on a call that
sends a JSON body.  The `Content-Type` is `application/json` when no custom header of
that name is registered. -/
theorem Call_custom_headers_take_precedence {π ρ : Type} (a : api) (c : Codec π ρ)
    (fuel : Nat) (action : String) (p : π) (t : ρ) (opts : List CallOptions) (w : World)
    (hmap : headerMap a.customHeaders) :
    ∃ extra, (Call a c fuel action p t opts w).world.sent = w.sent ++ extra ∧
      ∀ i x, extra[i]? = some x →
        (∀ key v vs, a.customHeaders.lookup (CanonicalMIMEHeaderKey key) = some (v :: vs) →
          (i = 0 ∨ CanonicalMIMEHeaderKey key ≠ "Authorization") →
          x.Header.Get key = v) ∧
        ((∀ v vs, a.customHeaders.lookup "Content-Type" ≠ some (v :: vs)) →
          x.Header.Get "Content-Type" = "application/json") := by
  obtain ⟨extra, hs, hall⟩ := Call_sent a c fuel action p t opts w
    (fun k x => w.tokenCalls + 1 ≤ k ∧
      (∀ key v vs, a.customHeaders.lookup (CanonicalMIMEHeaderKey key) = some (v :: vs) →
        (k = w.tokenCalls + 1 ∨ CanonicalMIMEHeaderKey key ≠ "Authorization") →
        x.Header.Get key = v) ∧
      ((∀ v vs, a.customHeaders.lookup "Content-Type" ≠ some (v :: vs)) →
        x.Header.Get "Content-Type" = "application/json"))
    (by
      intro k x tok hP _ _
      obtain ⟨hk, hcustom, hct⟩ := hP
      refine ⟨by omega, fun key v vs hv hor => ?_, fun hno => ?_⟩
      · have hne : CanonicalMIMEHeaderKey key ≠ "Authorization" := by
          rcases hor with hor | hor
          · omega
          · exact hor
        rw [retryRequest_Get x tok key hne]
        exact hcustom key v vs hv (Or.inr hne)
      · rw [retryRequest_Get x tok "Content-Type" (by decide)]
        exact hct hno)
    (by
      intro tok u enc _ _ _ _
      refine ⟨le_refl _, fun key v vs hv _ => ?_, fun hno => ?_⟩
      · rw [firstRequest_Header]
        exact Header_Get_setCustomHeaders_value a.customHeaders key v vs hmap hv _
      · rw [firstRequest_Header]
        exact callHeaders_ContentType a tok hmap hno)
  refine ⟨extra, hs, fun i x hx => ?_⟩
  obtain ⟨-, hcustom, hct⟩ := hall i x hx
  refine ⟨fun key v vs hv hor => hcustom key v vs hv ?_, hct⟩
  rcases hor with hor | hor
  · exact Or.inl (by omega)
  · exact Or.inr hor

/-- A custom `Content-Type` on a call with a JSON body: the request carries the custom
value. -/
theorem Call_custom_headers_take_precedence_witness :
    ∃ x, (Call (SetCustomHeader (stubClient stubBearerTokenGetter (authErrorsResponder 0) none)
        "Content-Type" "text/plain") stubCodec 1 "" () () [] World.init).world.sent[0]? =
        some x ∧ x.Header.Get "Content-Type" = "text/plain" := by
  obtain ⟨extra, hs, hall⟩ := Call_custom_headers_take_precedence
    (SetCustomHeader (stubClient stubBearerTokenGetter (authErrorsResponder 0) none)
      "Content-Type" "text/plain") stubCodec 1 "" () () [] World.init
    (headerMap_Set headerMap_nil "Content-Type" "text/plain")
  have hlen : (Call (SetCustomHeader
      (stubClient stubBearerTokenGetter (authErrorsResponder 0) none)
      "Content-Type" "text/plain") stubCodec 1 "" () () [] World.init).world.sent.length =
      1 := by decide
  rw [hs] at hlen ⊢
  simp only [World.init, List.nil_append] at hlen ⊢
  match extra, hlen, hall with
  | [x], _, hall =>
    exact ⟨x, rfl, (hall 0 x rfl).1 "Content-Type" "text/plain" [] (by decide) (Or.inl rfl)⟩

/-- Claim C14 fails as stated: with a custom header `Content-Type` registered, the
request of a call that sends a JSON body carries the custom value, not
`application/json`. -/
theorem Call_custom_headers_take_precedence_counterexample :
    (Call (SetCustomHeader (stubClient stubBearerTokenGetter (authErrorsResponder 0) none)
        "Content-Type" "text/plain") stubCodec 1 "" () () [] World.init).world.sent.map
        (fun x => (x.Header.Get "Content-Type", x.Body)) = [("text/plain", some "null")] ∧
      "text/plain" ≠ "application/json" := by
  decide

/-! ## Endpoints and construction -/

theorem version_segment (rest : String) :
    "/v" ++ (apiVersion ++ ("/" ++ rest)) = "/v3.6/" ++ rest := by
  rw [← String.append_assoc, ← String.append_assoc]
  exact congrArg (fun s => s ++ rest) (by decide : "/v" ++ apiVersion ++ "/" = "/v3.6/")

theorem default_host_segment (rest : String) :
    "https://api.livechatinc.com" ++ ("/v3.6/" ++ rest) =
      "https://api.livechatinc.com/v3.6/" ++ rest := by
  rw [← String.append_assoc]
  exact congrArg (fun s => s ++ rest)
    (by decide : "https://api.livechatinc.com" ++ "/v3.6/" = "https://api.livechatinc.com/v3.6/")

/-- Claim C16.  For every service name `n`, host `h`, action `a` and token `t`, the
endpoint `DefaultHTTPRequestGenerator n t h a` is the string
`h ++ "/v3.6/" ++ n ++ "/action/" ++ a`; it is the same for every other token; and a
client that `NewAPI` builds with this generator, whose host is the default one, addresses
`"https://api.livechatinc.com/v3.6/" ++ n ++ "/action/" ++ a`. -/
theorem DefaultHTTPRequestGenerator_endpoint (n h a : String) (t t1 : Token) :
    DefaultHTTPRequestGenerator n t h a = h ++ "/v3.6/" ++ n ++ "/action/" ++ a ∧
      DefaultHTTPRequestGenerator n t h a = DefaultHTTPRequestGenerator n t1 h a ∧
      ∀ defaultClient tokenGetter client clientID cl,
        NewAPI defaultClient (some tokenGetter) client clientID
            (DefaultHTTPRequestGenerator n) = .ok cl →
          cl.httpEndpointGenerator t cl.host a =
            "https://api.livechatinc.com/v3.6/" ++ n ++ "/action/" ++ a := by
  have hgen : ∀ host : String, DefaultHTTPRequestGenerator n t host a =
      host ++ "/v3.6/" ++ n ++ "/action/" ++ a := by
    intro host
    unfold DefaultHTTPRequestGenerator
    simp only [String.append_assoc]
    rw [version_segment]
  refine ⟨hgen h, rfl, ?_⟩
  intro defaultClient tokenGetter client clientID cl hcl
  simp only [NewAPI, Except.ok.injEq] at hcl
  subst hcl
  simp only
  rw [hgen]
  simp only [String.append_assoc]
  rw [default_host_segment]

/-- The URL that the mocked responder of the agent tests insists on. -/
theorem agent_endpoint_example :
    DefaultHTTPRequestGenerator "agent" (stubToken .BearerToken "access_token")
        "https://api.livechatinc.com" "upload_file" =
      "https://api.livechatinc.com/v3.6/agent/action/upload_file" := by
  decide

/-- Claim C17.  `NewAPI`, and the constructors of the agent and of the configuration
client that are built on it, return an error, and so no client, if and only if the token
getter is nil.  With a token getter they return a client, whatever the HTTP client
argument is: a nil HTTP client is replaced by the default client, any other is kept. -/
theorem NewAPI_fails_iff_no_token_getter
    (defaultClient : Nat → Request → Except GoError Response)
    (t : Option (Nat → Option Token))
    (client : Option (Nat → Request → Except GoError Response)) (clientID : String)
    (r : Token → String → String → String) :
    ((∃ err, NewAPI defaultClient t client clientID r = .error err) ↔ t = none) ∧
      ((∃ err, agent.NewAPI defaultClient t client clientID = .error err) ↔ t = none) ∧
      ((∃ err, configuration.NewAPI defaultClient t client clientID = .error err) ↔
        t = none) ∧
      (∀ tokenGetter, t = some tokenGetter →
        ∃ cl, NewAPI defaultClient t client clientID r = .ok cl ∧
          cl.tokenGetter = tokenGetter ∧
          (client = none → cl.httpClient = defaultClient) ∧
          (∀ given, client = some given → cl.httpClient = given) ∧
          (∃ up, agent.NewAPI defaultClient t client clientID = .ok up ∧
            up.api.tokenGetter = tokenGetter) ∧
          (∃ conf, configuration.NewAPI defaultClient t client clientID = .ok conf ∧
            conf.tokenGetter = tokenGetter)) := by
  cases t with
  | none =>
    refine ⟨⟨fun _ => rfl, fun _ => ⟨_, rfl⟩⟩, ⟨fun _ => rfl, fun _ => ⟨_, rfl⟩⟩,
      ⟨fun _ => rfl, fun _ => ⟨_, rfl⟩⟩, fun g hg => by cases hg⟩
  | some g =>
    refine ⟨⟨fun h => ?_, fun h => by cases h⟩, ⟨fun h => ?_, fun h => by cases h⟩,
      ⟨fun h => ?_, fun h => by cases h⟩, fun g1 hg => ?_⟩
    · obtain ⟨err, h⟩ := h
      simp [NewAPI] at h
    · obtain ⟨err, h⟩ := h
      simp [agent.NewAPI, NewAPIWithFileUpload, NewAPI] at h
    · obtain ⟨err, h⟩ := h
      simp [configuration.NewAPI, NewAPI] at h
    · cases hg
      refine ⟨_, rfl, rfl, ?_, ?_, ⟨_, rfl, rfl⟩, ⟨_, rfl, rfl⟩⟩
      · intro hc; subst hc; rfl
      · intro given hc; subst hc; rfl

/-- The tests `TestRejectAPICreationWithoutTokenGetter`: neither constructor builds a
client from a nil token getter and a nil HTTP client. -/
theorem constructors_reject_nil_token_getter :
    agent.NewAPI refusingTransport none none "client_id" =
        .error (.text "cannot initialize api without TokenGetter") ∧
      configuration.NewAPI refusingTransport none none "client_id" =
        .error (.text "cannot initialize api without TokenGetter") :=
  ⟨rfl, rfl⟩

/-! ## `UploadFile` -/

theorem UploadFile_built {π : Type} {a : fileUploadAPI} {c : Codec π uploadResponse}
    {m : MultipartWriter} (fuel : Nat) {filename file : String} {w : World} {tok : Token}
    {u : URL}
    (htok : a.api.tokenGetter w.tokenCalls = some tok)
    (hurl : c.urlParse (a.api.httpEndpointGenerator tok a.api.host "upload_file") = .ok u)
    (hcreate : m.CreateFormFile "file" filename = none) (hwrite : m.Write file = none)
    (hclose : m.Close = none) :
    UploadFile a c m fuel filename file w =
      finishUpload (send_do a.api c fuel 0 (uploadRequest a.api m tok u filename file)
        { URL := "" } { w with tokenCalls := w.tokenCalls + 1 }) := by
  unfold UploadFile
  simp only [htok, hurl, hcreate, hwrite, hclose]
  rfl

theorem finishUpload_returned (w : World) (t : uploadResponse) (err : Option GoError) :
    finishUpload ⟨w, t, .returned err⟩ =
      ⟨{ w with stats := w.stats ++ [{ Method := "upload_file", Success := err.isNone }] },
        t.URL, .returned err⟩ := rfl

theorem uploadRequest_bodyReplayable (a : api) (m : MultipartWriter) (tok : Token) (u : URL)
    (filename file : String) : bodyReplayable (uploadRequest a m tok u filename file) :=
  Or.inr ⟨m.Bytes filename file, rfl⟩

theorem UploadFile_retries {π : Type} (a : fileUploadAPI) (c : Codec π uploadResponse)
    (m : MultipartWriter) (filename file : String) (f : Nat → ErrAPI → Bool)
    (errs : Nat → ErrAPI) (K fuel : Nat) (hf : 0 < K → a.api.retryStrategy = some f)
    (hreach : uploadReachesSend a c m filename file World.init)
    (htok : ∀ k, k < K → supportedAt a.api (k + 1))
    (htr : ∀ k, k < K → answersAPIError a.api c k (errs k))
    (hyes : ∀ k, k < K → f (k % uintSize) (errs k) = true) :
    ∃ req1 w1, UploadFile a c m (fuel + K) filename file World.init =
        finishUpload (send_do a.api c fuel (K % uintSize) req1 { URL := "" } w1) ∧
      bodyReplayable req1 ∧ w1.tokenCalls = K + 1 ∧ w1.sent.length = K ∧
      w1.consulted = (List.range K).map (fun k => (k % uintSize, errs k)) ∧
      w1.stats = [] := by
  obtain ⟨tok, u, htok0, hurl, hcreate, hwrite, hclose⟩ := hreach
  rw [UploadFile_built (fuel + K) htok0 hurl hcreate hwrite hclose]
  rcases Nat.eq_zero_or_pos K with hK | hK
  · subst hK
    exact ⟨_, _, rfl, uploadRequest_bodyReplayable a.api m tok u filename file, rfl, rfl, rfl,
      rfl⟩
  · obtain ⟨req1, w1, hrun, hb, htc, hsent, hcons, hst, -⟩ :=
      send_do_retries a.api c { URL := "" } f (hf hK) errs 0
        (uploadRequest a.api m tok u filename file)
        { World.init with tokenCalls := World.init.tokenCalls + 1 }
        (by unfold uintSize; norm_num)
        (uploadRequest_bodyReplayable a.api m tok u filename file) K fuel
        (fun k hk => by simpa [World.init, Nat.add_comm] using htok k hk)
        (fun k hk => by simpa [World.init] using htr k hk)
        (fun k hk => by simpa using hyes k hk)
    refine ⟨req1, w1, by rw [hrun]; simp, hb, ?_, ?_, ?_, ?_⟩
    · simpa [World.init, Nat.add_comm] using htc
    · simpa [World.init] using hsent
    · simpa [World.init] using hcons
    · simpa [World.init] using hst

theorem upload_reachesSend (tokenGetter : Nat → Option Token)
    (httpClient : Nat → Request → Except GoError Response)
    (retryStrategy : Option (Nat → ErrAPI → Bool)) (filename file : String) (w : World)
    (tok : Token) (h : tokenGetter w.tokenCalls = some tok) :
    uploadReachesSend (uploadClient tokenGetter httpClient retryStrategy) uploadCodec
      stubMultipart filename file w :=
  ⟨tok, _, h, rfl, rfl, rfl, rfl⟩

theorem uploadResponder_fails (tokenGetter : Nat → Option Token)
    (retryStrategy : Option (Nat → ErrAPI → Bool)) (fails k : Nat) (h : k < fails) :
    answersAPIError (stubClient tokenGetter (uploadResponder fails) retryStrategy)
      uploadCodec k authError := by
  intro x
  refine ⟨{ StatusCode := 401, Header := [], bodyBytes := authErrorBody, readErr := none },
    ?_, by decide, ?_, by decide⟩
  · simp [stubClient, uploadResponder, h]
  · simp [uploadCodec, stubCodec]

/-- Claim C18, as the code has it.  For every file name and every file, the empty file
included, when the token getter yields a token (of whatever type), the endpoint parses
and the multipart writer takes the file: if the transport answers the request with an
HTTP 200 whose body decodes to the URL `u`, `UploadFile` returns exactly `u` and no
error, after one request; if the transport answers with a non-200 response that decodes
to an API error and no retry strategy approves a retry (none is set, or the strategy
returns false for the attempt 0), `UploadFile` returns that API error, with the empty
string, after one request. -/
theorem UploadFile_returns_url_or_API_error {π : Type} (a : fileUploadAPI)
    (c : Codec π uploadResponse) (m : MultipartWriter) (filename file : String)
    (fuel : Nat) (hfuel : 0 < fuel)
    (hreach : uploadReachesSend a c m filename file World.init) :
    (∀ u, (∀ x, ∃ resp, a.api.httpClient 0 x = .ok resp ∧ resp.StatusCode = 200 ∧
          resp.readErr = none ∧
          c.jsonUnmarshal resp.bodyBytes { URL := "" } = ({ URL := u }, none)) →
        (UploadFile a c m fuel filename file World.init).target = u ∧
          (UploadFile a c m fuel filename file World.init).outcome = .returned none ∧
          (UploadFile a c m fuel filename file World.init).world.sent.length = 1) ∧
      (∀ e, answersAPIError a.api c 0 e →
        (a.api.retryStrategy = none ∨ ∃ f, a.api.retryStrategy = some f ∧ f 0 e = false) →
        (UploadFile a c m fuel filename file World.init).target = "" ∧
          (UploadFile a c m fuel filename file World.init).outcome =
            .returned (some (.api e)) ∧
          (UploadFile a c m fuel filename file World.init).world.sent.length = 1) := by
  obtain ⟨fuel1, rfl⟩ : ∃ fuel1, fuel = fuel1 + 1 := ⟨fuel - 1, by omega⟩
  obtain ⟨tok, u0, htok0, hurl, hcreate, hwrite, hclose⟩ := hreach
  rw [UploadFile_built (fuel1 + 1) htok0 hurl hcreate hwrite hclose, send_do_succ]
  refine ⟨fun u hok => ?_, fun e herr hstrat => ?_⟩
  · obtain ⟨resp, hresp, hcode, hread, hdec⟩ :=
      hok (uploadRequest a.api m tok u0 filename file)
    obtain ⟨w2, hstep, hs2, -⟩ :=
      @send_attempt_ok π uploadResponse a.api c 0
        (uploadRequest a.api m tok u0 filename file) { URL := "" }
        { World.init with tokenCalls := World.init.tokenCalls + 1 } resp
        (by simpa [World.init] using hresp) hcode hread
    rw [hstep, finishUpload_returned, hdec]
    exact ⟨rfl, rfl, by simp [hs2, World.init]⟩
  · obtain ⟨resp, hresp, hcode, hdec, hne⟩ :=
      herr (uploadRequest a.api m tok u0 filename file)
    rcases hstrat with hnone | ⟨f, hf, hno⟩
    · rw [@send_attempt_no_strategy π uploadResponse a.api c 0
        (uploadRequest a.api m tok u0 filename file) { URL := "" }
        { World.init with tokenCalls := World.init.tokenCalls + 1 } resp e
        (by simpa [World.init] using hresp) hcode hdec hne hnone, finishUpload_returned]
      exact ⟨rfl, rfl, by simp [World.init]⟩
    · rw [@send_attempt_reject π uploadResponse a.api c 0
        (uploadRequest a.api m tok u0 filename file) { URL := "" }
        { World.init with tokenCalls := World.init.tokenCalls + 1 } resp e f
        (by simpa [World.init] using hresp) hcode hdec hne hf hno, finishUpload_returned]
      exact ⟨rfl, rfl, by simp [World.init]⟩

/-- The scenario of the spec: the empty file with the name `f`, answered with the URL
`https://x/y`. -/
theorem UploadFile_returns_url_or_API_error_witness :
    (UploadFile (uploadClient stubBearerTokenGetter (uploadResponder 0) none)
        uploadCodec stubMultipart 1 "f" "" World.init).target = "https://x/y" ∧
      (UploadFile (uploadClient stubBearerTokenGetter (uploadResponder 0) none)
        uploadCodec stubMultipart 1 "f" "" World.init).outcome = .returned none ∧
      (UploadFile (uploadClient stubBearerTokenGetter (uploadResponder 0) none)
        uploadCodec stubMultipart 1 "f" "" World.init).world.sent.length = 1 :=
  (UploadFile_returns_url_or_API_error
      (uploadClient stubBearerTokenGetter (uploadResponder 0) none)
      uploadCodec stubMultipart "f" "" 1 (by decide)
      (upload_reachesSend _ _ _ _ _ _ _ rfl)).1 "https://x/y"
    (fun _ => ⟨_, rfl, rfl, rfl, by simp [uploadCodec]⟩)

/-- Claim C18 fails as stated: with a retry strategy that approves one retry, the
transport answers the upload with an API error, about which the strategy is asked, and
then with the URL; `UploadFile` returns the URL and no error, not the API error. -/
theorem UploadFile_returns_url_or_API_error_counterexample :
    (UploadFile (uploadClient stubBearerTokenGetter (uploadResponder 1) (some (retryBelow 1)))
        uploadCodec stubMultipart 5 "f" "" World.init).world.consulted = [(0, authError)] ∧
      (UploadFile (uploadClient stubBearerTokenGetter (uploadResponder 1) (some (retryBelow 1)))
        uploadCodec stubMultipart 5 "f" "" World.init).outcome = .returned none ∧
      (UploadFile (uploadClient stubBearerTokenGetter (uploadResponder 1) (some (retryBelow 1)))
        uploadCodec stubMultipart 5 "f" "" World.init).target = "https://x/y" ∧
      (UploadFile (uploadClient stubBearerTokenGetter (uploadResponder 1) (some (retryBelow 1)))
        uploadCodec stubMultipart 5 "f" "" World.init).world.sent.length = 2 := by
  decide

/-- Claim C19, as the code has it.  `UploadFile` does not bypass the retry loop: it
hands its request to the same `send` as `Call`.  With no retry strategy set, an upload
that is answered with an API error sends one request and consults nothing.  With a
strategy set that returns true for the attempts `0, …, N-1` and false for the attempt
`N`, when the transport answers each attempt with an API error, `UploadFile` sends
`N + 1` requests, consults the strategy about the attempts `0, 1, …, N` in that order,
fetches a token before each retry, and returns the API error of the last response. -/
theorem UploadFile_goes_through_the_retry_loop {π : Type} (a : fileUploadAPI)
    (c : Codec π uploadResponse) (m : MultipartWriter) (filename file : String)
    (hreach : uploadReachesSend a c m filename file World.init) :
    (∀ (e : ErrAPI) (fuel : Nat),
        0 < fuel → a.api.retryStrategy = none → answersAPIError a.api c 0 e →
        (UploadFile a c m fuel filename file World.init).world.sent.length = 1 ∧
          (UploadFile a c m fuel filename file World.init).world.consulted = [] ∧
          (UploadFile a c m fuel filename file World.init).outcome =
            .returned (some (.api e))) ∧
      (∀ (f : Nat → ErrAPI → Bool) (errs : Nat → ErrAPI) (N fuel : Nat),
        N < uintSize → N < fuel → a.api.retryStrategy = some f →
        (∀ k, k < N → f k (errs k) = true) → f N (errs N) = false →
        (∀ k, 1 ≤ k → k ≤ N → supportedAt a.api k) →
        (∀ k, k ≤ N → answersAPIError a.api c k (errs k)) →
        (UploadFile a c m fuel filename file World.init).world.sent.length = N + 1 ∧
          (UploadFile a c m fuel filename file World.init).world.consulted =
            (List.range (N + 1)).map (fun k => (k, errs k)) ∧
          (UploadFile a c m fuel filename file World.init).world.tokenCalls = N + 1 ∧
          (UploadFile a c m fuel filename file World.init).outcome =
            .returned (some (.api (errs N)))) := by
  refine ⟨fun e fuel hfuel hnone herr => ?_,
    fun f errs N fuel hN hfuel hf hyes hno htok htr => ?_⟩
  · obtain ⟨fuel1, rfl⟩ : ∃ fuel1, fuel = fuel1 + 1 := ⟨fuel - 1, by omega⟩
    obtain ⟨tok, u0, htok0, hurl, hcreate, hwrite, hclose⟩ := hreach
    obtain ⟨resp, hresp, hcode, hdec, hne⟩ :=
      herr (uploadRequest a.api m tok u0 filename file)
    rw [UploadFile_built (fuel1 + 1) htok0 hurl hcreate hwrite hclose, send_do_succ,
      @send_attempt_no_strategy π uploadResponse a.api c 0
        (uploadRequest a.api m tok u0 filename file) { URL := "" }
        { World.init with tokenCalls := World.init.tokenCalls + 1 } resp e
        (by simpa [World.init] using hresp) hcode hdec hne hnone, finishUpload_returned]
    exact ⟨by simp [World.init], rfl, rfl⟩
  · obtain ⟨fuel1, rfl⟩ : ∃ fuel1, fuel = fuel1 + 1 + N := ⟨fuel - N - 1, by omega⟩
    have hmod : ∀ k, k ≤ N → k % uintSize = k := fun k hk => Nat.mod_eq_of_lt (by omega)
    obtain ⟨req1, w1, hrun, hb, htc, hsent, hcons, hst⟩ :=
      UploadFile_retries a c m filename file f errs N (fuel1 + 1) (fun _ => hf) hreach
        (fun k hk => htok (k + 1) (by omega) (by omega)) (fun k hk => htr k (by omega))
        (fun k hk => by rw [hmod k (by omega)]; exact hyes k hk)
    obtain ⟨resp, hresp, hcode, hdec, herr⟩ := htr N (le_refl N) req1
    have hstep := @send_attempt_reject π uploadResponse a.api c N req1 { URL := "" } w1 resp
      (errs N) f (by rw [hsent]; exact hresp) hcode hdec herr hf hno
    rw [hrun, hmod N (le_refl N), send_do_succ, hstep, finishUpload_returned]
    refine ⟨by simp [hsent], ?_, htc, rfl⟩
    simp only
    rw [hcons, List.range_succ, List.map_append]
    congr 1
    apply List.map_congr_left
    intro k hk
    rw [hmod k (by have := List.mem_range.mp hk; omega)]

/-- An upload under the strategy of `TestRetryStrategyAllFails`, against a transport
that always answers 401: four requests, four consultations. -/
theorem UploadFile_goes_through_the_retry_loop_witness :
    (UploadFile (uploadClient stubBearerTokenGetter (uploadResponder 10)
        (some (retryBelow 3))) uploadCodec stubMultipart 4 "f" "" World.init).world.sent.length =
        3 + 1 ∧
      (UploadFile (uploadClient stubBearerTokenGetter (uploadResponder 10)
        (some (retryBelow 3))) uploadCodec stubMultipart 4 "f" "" World.init).world.consulted =
        (List.range (3 + 1)).map (fun k => (k, authError)) ∧
      (UploadFile (uploadClient stubBearerTokenGetter (uploadResponder 10)
        (some (retryBelow 3))) uploadCodec stubMultipart 4 "f" "" World.init).world.tokenCalls =
        3 + 1 ∧
      (UploadFile (uploadClient stubBearerTokenGetter (uploadResponder 10)
        (some (retryBelow 3))) uploadCodec stubMultipart 4 "f" "" World.init).outcome =
        .returned (some (.api authError)) :=
  (UploadFile_goes_through_the_retry_loop
      (uploadClient stubBearerTokenGetter (uploadResponder 10) (some (retryBelow 3)))
      uploadCodec stubMultipart "f" "" (upload_reachesSend _ _ _ _ _ _ _ rfl)).2
    (retryBelow 3) (fun _ => authError) 3 4 (by unfold uintSize; norm_num) (by decide) rfl
    (fun k hk => by simp [retryBelow, hk]) (by simp [retryBelow])
    (fun k _ _ => stubBearer_supportedAt _ _ k)
    (fun k hk => uploadResponder_fails _ _ 10 k (by omega))

/-- Claim C19 fails as stated: under the strategy that retries while `attempts < 3`, an
upload that the transport always answers with an API error sends four requests, not
one, and the strategy is consulted four times. -/
theorem UploadFile_goes_through_the_retry_loop_counterexample :
    (UploadFile (uploadClient stubBearerTokenGetter (uploadResponder 10)
        (some (retryBelow 3))) uploadCodec stubMultipart 10 "f" "" World.init).world.sent.length =
        4 ∧
      (UploadFile (uploadClient stubBearerTokenGetter (uploadResponder 10)
        (some (retryBelow 3))) uploadCodec stubMultipart 10 "f" ""
        World.init).world.consulted.length = 4 ∧
      (UploadFile (uploadClient stubBearerTokenGetter (uploadResponder 10)
        (some (retryBelow 3))) uploadCodec stubMultipart 10 "f" "" World.init).outcome =
        .returned (some (.api authError)) := by
  decide

/-- Claim C20 at its failing input: the token getter yields a token of the type 2020.
`UploadFile` sends its request all the same and returns the URL without an error,
whereas `Call`, on the same client, returns `unsupported token type` and sends
nothing. -/
theorem UploadFile_sends_with_unsupported_token :
    (UploadFile (uploadClient (fun _ => some (stubToken (.other 2020) "access_token"))
        (uploadResponder 0) none) uploadCodec stubMultipart 1 "filename" ""
        World.init).world.sent.length = 1 ∧
      (UploadFile (uploadClient (fun _ => some (stubToken (.other 2020) "access_token"))
        (uploadResponder 0) none) uploadCodec stubMultipart 1 "filename" ""
        World.init).outcome = .returned none ∧
      (UploadFile (uploadClient (fun _ => some (stubToken (.other 2020) "access_token"))
        (uploadResponder 0) none) uploadCodec stubMultipart 1 "filename" ""
        World.init).target = "https://x/y" ∧
      (Call (stubClient (fun _ => some (stubToken (.other 2020) "access_token"))
        (uploadResponder 0) none) stubCodec 1 "upload_file" () () [] World.init).outcome =
        .returned (some (.text "unsupported token type")) ∧
      (Call (stubClient (fun _ => some (stubToken (.other 2020) "access_token"))
        (uploadResponder 0) none) stubCodec 1 "upload_file" () () []
        World.init).world.sent.length = 0 := by
  decide

/-! ## Custom headers over time -/

theorem customHeaders_after_sets (key val : String) :
    ∀ (later : List (String × String)) (a : api), headerMap a.customHeaders →
      a.customHeaders.lookup (CanonicalMIMEHeaderKey key) = some [val] →
      (∀ o ∈ later, CanonicalMIMEHeaderKey o.1 ≠ CanonicalMIMEHeaderKey key) →
      headerMap (later.foldl (fun acc o => SetCustomHeader acc o.1 o.2) a).customHeaders ∧
        (later.foldl (fun acc o => SetCustomHeader acc o.1 o.2) a).customHeaders.lookup
          (CanonicalMIMEHeaderKey key) = some [val] := by
  intro later
  induction later with
  | nil => intro a hm hl _; exact ⟨hm, hl⟩
  | cons o os ih =>
    intro a hm hl hne
    rw [List.foldl_cons]
    apply ih
    · exact headerMap_Set hm o.1 o.2
    · have hk := hne o (List.mem_cons_self _ _)
      have hb : (CanonicalMIMEHeaderKey key == CanonicalMIMEHeaderKey o.1) = false := by
        simpa using fun h => hk h.symm
      show List.lookup (CanonicalMIMEHeaderKey key) (a.customHeaders.Set o.1 o.2) = some [val]
      unfold Header.Set
      rw [List.lookup_cons, hb, lookup_filter_ne _ _ _ (fun h => hk h.symm)]
      exact hl
    · exact fun o1 ho1 => hne o1 (List.mem_cons_of_mem _ ho1)

theorem customHeaders_after_SetCustomHeader (a : api) (key val : String)
    (hm : headerMap a.customHeaders) :
    headerMap (SetCustomHeader a key val).customHeaders ∧
      (SetCustomHeader a key val).customHeaders.lookup (CanonicalMIMEHeaderKey key) =
        some [val] := by
  refine ⟨headerMap_Set hm key val, ?_⟩
  show List.lookup (CanonicalMIMEHeaderKey key) (a.customHeaders.Set key val) = some [val]
  unfold Header.Set
  rw [List.lookup_cons]
  simp

/-- Custom headers on the requests of `Call`.  After `SetCustomHeader k v`, and whatever
other keys are set after it, every request that a subsequent `Call` sends carries the
header `k` with the value `v`: on the first attempt always, and on the retries as well
unless `k` is `Authorization`, which every retry rebuilds from the newly fetched token.
(`SetAuthorID` is the case `k = X-Author-Id`.) -/
theorem SetCustomHeader_reaches_every_Call_request {π ρ : Type} (a : api)
    (key val : String) (later : List (String × String)) (c : Codec π ρ) (fuel : Nat)
    (action : String) (p : π) (t : ρ) (opts : List CallOptions) (w : World)
    (hmap : headerMap a.customHeaders)
    (hlater : ∀ o ∈ later, CanonicalMIMEHeaderKey o.1 ≠ CanonicalMIMEHeaderKey key) :
    ∃ extra,
      (Call (later.foldl (fun acc o => SetCustomHeader acc o.1 o.2)
          (SetCustomHeader a key val)) c fuel action p t opts w).world.sent =
        w.sent ++ extra ∧
      ∀ i x, extra[i]? = some x →
        (i = 0 ∨ CanonicalMIMEHeaderKey key ≠ "Authorization") →
        x.Header.Get key = val := by
  obtain ⟨hm1, hl1⟩ := customHeaders_after_SetCustomHeader a key val hmap
  obtain ⟨hm2, hl2⟩ := customHeaders_after_sets key val later _ hm1 hl1 hlater
  generalize later.foldl (fun acc o => SetCustomHeader acc o.1 o.2)
    (SetCustomHeader a key val) = a2 at hm2 hl2
  obtain ⟨extra, hs, hall⟩ := Call_sent a2 c fuel action p t opts w
    (fun k x => w.tokenCalls + 1 ≤ k ∧
      ((k = w.tokenCalls + 1 ∨ CanonicalMIMEHeaderKey key ≠ "Authorization") →
        x.Header.Get key = val))
    (by
      intro k x tok hP _ _
      obtain ⟨hk, hget⟩ := hP
      refine ⟨by omega, fun hor => ?_⟩
      have hne : CanonicalMIMEHeaderKey key ≠ "Authorization" := by
        rcases hor with hor | hor
        · omega
        · exact hor
      rw [retryRequest_Get x tok key hne]
      exact hget (Or.inr hne))
    (by
      intro tok u enc _ _ _ _
      refine ⟨le_refl _, fun _ => ?_⟩
      rw [firstRequest_Header]
      exact Header_Get_setCustomHeaders_value a2.customHeaders key val [] hm2 hl2 _)
  refine ⟨extra, hs, fun i x hx hor => (hall i x hx).2 ?_⟩
  rcases hor with hor | hor
  · exact Or.inl (by omega)
  · exact Or.inr hor

/-- The test `TestAuthorIDHeader`: after `SetAuthorID "my_bot"` the request of a call
carries `X-Author-Id: my_bot`. -/
theorem author_id_reaches_the_call_request :
    ∃ x, (Call (agent.SetAuthorID
        (stubClient stubBearerTokenGetter (authErrorsResponder 0) none) "my_bot")
        stubCodec 1 "" () () [] World.init).world.sent[0]? = some x ∧
      x.Header.Get "X-Author-Id" = "my_bot" := by
  obtain ⟨extra, hs, hall⟩ := SetCustomHeader_reaches_every_Call_request
    (stubClient stubBearerTokenGetter (authErrorsResponder 0) none) "X-Author-Id" "my_bot" []
    stubCodec 1 "" () () [] World.init headerMap_nil (fun o ho => by cases ho)
  have hlen : (Call (agent.SetAuthorID
      (stubClient stubBearerTokenGetter (authErrorsResponder 0) none) "my_bot")
      stubCodec 1 "" () () [] World.init).world.sent.length = 1 := by decide
  have hs1 : (Call (agent.SetAuthorID
      (stubClient stubBearerTokenGetter (authErrorsResponder 0) none) "my_bot")
      stubCodec 1 "" () () [] World.init).world.sent = World.init.sent ++ extra := hs
  rw [hs1] at hlen ⊢
  simp only [World.init, List.nil_append] at hlen ⊢
  match extra, hlen, hall with
  | [x], _, hall => exact ⟨x, rfl, hall 0 x rfl (Or.inl rfl)⟩

/-- With a custom header `Authorization` set, the first request of a call carries the
custom value, but the retry carries the value rebuilt from the token. -/
theorem custom_Authorization_is_rebuilt_on_retry :
    (Call (SetCustomHeader
        (stubClient stubBearerTokenGetter (authErrorsResponder 1) (some (retryBelow 3)))
        "Authorization" "custom") stubCodec 5 "" () () [] World.init).world.sent.map
        (fun x => x.Header.Get "Authorization") = ["custom", "Bearer access_token"] ∧
      "Bearer access_token" ≠ "custom" := by
  decide

/-- Claim C15 fails on the code.  After `SetAuthorID "my_bot"`, a `SetCustomHeader` of
`X-Author-Id`, the request of `UploadFile` carries its standard headers and no
`X-Author-Id`, although the upload succeeds; the request of a `Call` on the same client
carries the custom header. -/
theorem UploadFile_omits_custom_headers :
    (UploadFile (fileUploadAPI.mk (agent.SetAuthorID
          (stubClient stubBearerTokenGetter (uploadResponder 0) none) "my_bot"))
        uploadCodec stubMultipart 1 "filename" "" World.init).world.sent.map
        (fun x => (x.Header.Get "X-Author-Id", x.Header.Get "Authorization",
          x.Header.Get "X-Region")) = [("", "Bearer access_token", "region")] ∧
      (UploadFile (fileUploadAPI.mk (agent.SetAuthorID
          (stubClient stubBearerTokenGetter (uploadResponder 0) none) "my_bot"))
        uploadCodec stubMultipart 1 "filename" "" World.init).outcome = .returned none ∧
      (agent.SetAuthorID (stubClient stubBearerTokenGetter (uploadResponder 0) none)
        "my_bot").customHeaders.Get "X-Author-Id" = "my_bot" ∧
      (Call (agent.SetAuthorID
          (stubClient stubBearerTokenGetter (uploadResponder 0) none) "my_bot")
        stubCodec 1 "upload_file" () () [] World.init).world.sent.map
        (fun x => x.Header.Get "X-Author-Id") = ["my_bot"] := by
  decide

theorem Call_reaches_transport {π ρ : Type} (a : api) (c : Codec π ρ) (fuel : Nat)
    (action : String) (p : π) (t : ρ) (opts : List CallOptions) (w : World)
    (hreach : reachesSend a c action p opts w) (hfuel : 0 < fuel) :
    w.sent.length < (Call a c fuel action p t opts w).world.sent.length := by
  obtain ⟨n, hn, hmode⟩ := Call_modes a c fuel action p t opts w _ rfl
  rcases hmode with ⟨h0, -, -, -, h1, -⟩ | ⟨-, h1, -, -, -, h2⟩ | ⟨-, h1, -⟩ |
    ⟨-, -, -, -, h1, -⟩
  · omega
  · by_cases hn0 : n = 0
    · subst hn0
      exfalso
      have hbad : ¬ supportedAt a (w.tokenCalls + 0) := by
        apply not_supportedAt_of_failure
        rcases h2 with ⟨h2, -⟩ | ⟨tok, h2, h3, -⟩
        · exact Or.inl h2
        · exact Or.inr ⟨tok, h2, h3⟩
      exact hbad (by simpa using reachesSend_supportedAt hreach)
    · omega
  · exact absurd hreach h1
  · omega

/-! ## What a retry changes in the request -/

theorem retryRequest_URL (x : Request) (tok : Token) : (retryRequest x tok).URL = x.URL :=
  rfl

theorem retryRequest_Method (x : Request) (tok : Token) :
    (retryRequest x tok).Method = x.Method :=
  rfl

theorem retryRequest_Authorization (x : Request) (tok : Token) :
    (retryRequest x tok).Header.Get "Authorization" = authorizationValue tok :=
  Header_Get_Set_same x.Header "Authorization" "Authorization" _ rfl

/-- Claim C28.  On a retry only the `Authorization` header is rebuilt.  Every request of
a `Call`, first attempt or retry, has the method and the URL of the request built
before the first attempt (the URL parsed from the endpoint that the generator derived
from the first token, with the query of a GET call appended) and, under every name
other than `Authorization`, `X-Region` included, the header value of that first
request; the request of retry number `i` carries as `Authorization` the value built
from the token fetched for that retry. -/
theorem Call_retry_rebuilds_only_Authorization {π ρ : Type} (a : api) (c : Codec π ρ)
    (fuel : Nat) (action : String) (p : π) (t : ρ) (opts : List CallOptions) (w : World) :
    ∃ extra, (Call a c fuel action p t opts w).world.sent = w.sent ++ extra ∧
      ∀ i x, extra[i]? = some x →
        ∃ tok u enc, a.tokenGetter w.tokenCalls = some tok ∧
          c.urlParse (a.httpEndpointGenerator tok a.host action) = .ok u ∧
          encodePayload c p opts = .ok enc ∧
          x.URL = (firstRequest a tok u (isGet opts) enc).URL ∧
          x.Method = (firstRequest a tok u (isGet opts) enc).Method ∧
          (∀ key, CanonicalMIMEHeaderKey key ≠ "Authorization" →
            x.Header.Get key = (firstRequest a tok u (isGet opts) enc).Header.Get key) ∧
          x.Header.Get "X-Region" =
            (firstRequest a tok u (isGet opts) enc).Header.Get "X-Region" ∧
          (0 < i → ∃ fresh, a.tokenGetter (w.tokenCalls + i) = some fresh ∧
            x.Header.Get "Authorization" = authorizationValue fresh) := by
  obtain ⟨extra, hs, hall⟩ := Call_sent a c fuel action p t opts w
    (fun k x => ∃ tok u enc, a.tokenGetter w.tokenCalls = some tok ∧
      c.urlParse (a.httpEndpointGenerator tok a.host action) = .ok u ∧
      encodePayload c p opts = .ok enc ∧
      x.URL = (firstRequest a tok u (isGet opts) enc).URL ∧
      x.Method = (firstRequest a tok u (isGet opts) enc).Method ∧
      (∀ key, CanonicalMIMEHeaderKey key ≠ "Authorization" →
        x.Header.Get key = (firstRequest a tok u (isGet opts) enc).Header.Get key) ∧
      (w.tokenCalls + 1 < k → ∃ fresh, a.tokenGetter (k - 1) = some fresh ∧
        x.Header.Get "Authorization" = authorizationValue fresh))
    (by
      intro k x fresh hP hfresh _
      obtain ⟨tok, u, enc, h1, h2, h3, hurl, hmeth, hkeys, -⟩ := hP
      refine ⟨tok, u, enc, h1, h2, h3, ?_, ?_, ?_, ?_⟩
      · rw [retryRequest_URL, hurl]
      · rw [retryRequest_Method, hmeth]
      · intro key hkey
        rw [retryRequest_Get x fresh key hkey, hkeys key hkey]
      · intro _
        exact ⟨fresh, by simpa using hfresh, retryRequest_Authorization x fresh⟩)
    (by
      intro tok u enc h1 _ h2 h3
      exact ⟨tok, u, enc, h1, h2, h3, rfl, rfl, fun _ _ => rfl, fun h => absurd h (by omega)⟩)
  refine ⟨extra, hs, ?_⟩
  intro i x hx
  obtain ⟨tok, u, enc, h1, h2, h3, hurl, hmeth, hkeys, hauth⟩ := hall i x hx
  refine ⟨tok, u, enc, h1, h2, h3, hurl, hmeth, hkeys, hkeys "X-Region" (by decide), ?_⟩
  intro hi
  obtain ⟨fresh, hf, ha⟩ := hauth (by omega)
  refine ⟨fresh, ?_, ha⟩
  have hidx : w.tokenCalls + 1 + i - 1 = w.tokenCalls + i := by omega
  rw [hidx] at hf
  exact hf

/-- A call whose first token is refused and whose second token has another region and
another organization: the retry goes to the URL of the first attempt, with the region of
the first token, and authorizes itself with the second token. -/
theorem retry_after_token_rotation :
    (Call rotatingClient fieldsCodec 3 "get_configuration" "group_id=0" ()
        [{ Method := "GET" }] World.init).world.sent.map
        (fun x => (x.URL.RawQuery, x.Header.Get "X-Region", x.Header.Get "Authorization")) =
      [("organization_id=xD&group_id=0", "region", "Bearer access_token"),
       ("organization_id=xD&group_id=0", "region", "Bearer fresh_token")] := by
  decide

/-! ## The query string of a GET call -/

theorem getQuery_cases (q e : String) :
    (e = "" → getQuery q e = q) ∧ (q = "" → getQuery q e = e) ∧
      (q ≠ "" → e ≠ "" → getQuery q e = q ++ "&" ++ e) ∧
      q.data <+: (getQuery q e).data := by
  refine ⟨?_, ?_, ?_, ?_⟩
  · intro he
    subst he
    simp [getQuery]
  · intro hq
    subst hq
    simp [getQuery]
  · intro hq he
    simp [getQuery, hq, he, String.append_assoc]
  · unfold getQuery
    rw [String.data_append]
    exact List.prefix_append _ _

/-- Claim C29.  For a GET `Call`, with `q` the query string of the parsed endpoint and
`e` the URL-encoded payload, a call that gets as far as `send` with fuel left sends a
request, and every request sent has the path of the endpoint and the query string `q`
when `e` is empty, `e` when `q` is empty and `q & e` when neither is; in each case the
query string begins with `q`, so that what the endpoint carries is neither dropped nor
replaced. -/
theorem Call_GET_query_string {π ρ : Type} (a : api) (c : Codec π ρ)
    (fuel : Nat) (action : String) (p : π) (t : ρ) (opts : List CallOptions) (w : World)
    (hget : isGet opts = true) :
    ∃ extra, (Call a c fuel action p t opts w).world.sent = w.sent ++ extra ∧
      (reachesSend a c action p opts w → 0 < fuel → extra ≠ []) ∧
      ∀ x ∈ extra, ∃ tok u e, a.tokenGetter w.tokenCalls = some tok ∧
        c.urlParse (a.httpEndpointGenerator tok a.host action) = .ok u ∧
        c.queryValuesEncode p = .ok e ∧
        x.URL.Base = u.Base ∧
        (e = "" → x.URL.RawQuery = u.RawQuery) ∧
        (u.RawQuery = "" → x.URL.RawQuery = e) ∧
        (u.RawQuery ≠ "" → e ≠ "" → x.URL.RawQuery = u.RawQuery ++ "&" ++ e) ∧
        u.RawQuery.data <+: x.URL.RawQuery.data := by
  obtain ⟨extra, hs, hall⟩ := Call_sent a c fuel action p t opts w
    (fun _ x => ∃ tok u e, a.tokenGetter w.tokenCalls = some tok ∧
      c.urlParse (a.httpEndpointGenerator tok a.host action) = .ok u ∧
      c.queryValuesEncode p = .ok e ∧
      x.URL = { u with RawQuery := getQuery u.RawQuery e })
    (by
      intro k x fresh hP _ _
      obtain ⟨tok, u, e, h1, h2, h3, hurl⟩ := hP
      exact ⟨tok, u, e, h1, h2, h3, by rw [retryRequest_URL, hurl]⟩)
    (by
      intro tok u enc h1 _ h2 h3
      unfold encodePayload at h3
      rw [hget] at h3
      simp only [if_true] at h3
      exact ⟨tok, u, enc, h1, h2, h3, by simp [firstRequest, getQuery, hget]⟩)
  refine ⟨extra, hs, ?_, ?_⟩
  · intro hreach hfuel hnil
    subst hnil
    have hlt := Call_reaches_transport a c fuel action p t opts w hreach hfuel
    rw [hs] at hlt
    simp at hlt
  · intro x hx
    obtain ⟨i, hi⟩ := List.mem_iff_getElem?.mp hx
    obtain ⟨tok, u, e, h1, h2, h3, hurl⟩ := hall i x hi
    obtain ⟨c1, c2, c3, c4⟩ := getQuery_cases u.RawQuery e
    refine ⟨tok, u, e, h1, h2, h3, ?_, ?_, ?_, ?_, ?_⟩
    · rw [hurl]
    · rw [hurl]; exact c1
    · rw [hurl]; exact c2
    · rw [hurl]; exact c3
    · rw [hurl]; exact c4

/-- The GET call of the customer client does send a request, and the query string of
that request is the query string of the endpoint, then an ampersand, then the encoded
payload. -/
theorem Call_GET_query_string_witness :
    isGet [{ Method := "GET" }] = true ∧
    ∃ x, x ∈ (Call customerClient fieldsCodec 1 "get_configuration" "group_id=0" ()
        [{ Method := "GET" }] World.init).world.sent ∧
      x.URL.RawQuery = "organization_id=xD&group_id=0" := by
  refine ⟨by decide, ?_⟩
  obtain ⟨extra, hs, hne, hall⟩ := Call_GET_query_string customerClient fieldsCodec 1
    "get_configuration" "group_id=0" () [{ Method := "GET" }] World.init (by decide)
  have hreach : reachesSend customerClient fieldsCodec "get_configuration" "group_id=0"
      [{ Method := "GET" }] World.init :=
    ⟨_, _, _, rfl, Or.inl rfl, rfl, rfl⟩
  obtain ⟨x, hx⟩ := List.exists_mem_of_ne_nil extra (hne hreach (by decide))
  obtain ⟨tok, u, e, h1, h2, h3, -, -, -, hqe, -⟩ := hall x hx
  refine ⟨x, by rw [hs]; exact List.mem_append_right _ hx, ?_⟩
  have htok := Option.some.inj h1
  subst htok
  have hu := Except.ok.inj h2
  subst hu
  have he := Except.ok.inj h3
  subst he
  rw [hqe (by decide) (by decide)]
  decide

/-- The three shapes of the query string of a GET call of the customer client: payload
and endpoint query, endpoint query alone, and, over an endpoint without a query, the
payload alone. -/
theorem GET_query_string_examples :
    (Call customerClient fieldsCodec 1 "get_configuration" "group_id=0" ()
        [{ Method := "GET" }] World.init).world.sent.map (fun x => x.URL.RawQuery) =
      ["organization_id=xD&group_id=0"] ∧
    (Call customerClient fieldsCodec 1 "get_configuration" "" ()
        [{ Method := "GET" }] World.init).world.sent.map (fun x => x.URL.RawQuery) =
      ["organization_id=xD"] ∧
    (Call (stubClient stubBearerTokenGetter (authErrorsResponder 0) none) fieldsCodec 1
        "get_configuration" "group_id=0" ()
        [{ Method := "GET" }] World.init).world.sent.map (fun x => x.URL.RawQuery) =
      ["group_id=0"] ∧
    (Call customerClient fieldsCodec 1 "get_configuration" "organization_id=other" ()
        [{ Method := "GET" }] World.init).world.sent.map (fun x => x.URL.RawQuery) =
      ["organization_id=xD&organization_id=other"] := by
  decide

/-! ## Package `configuration`: bots and properties -/

/-- Claim C30, as the code has it.  For every combination of the two flags the access
types that `PublishProperty` hands to `Call` begin with two empty strings, the elements
of `make([]string, 2)`; `read` and `write` follow them, each when its flag is set. -/
theorem PublishProperty_access_type_starts_with_two_empty_strings (a : api)
    (c : Codec configuration.publishPropertyRequest Unit) (fuel : Nat)
    (name ownerClientID : String) (read write : Bool) (w : World) :
    configuration.PublishProperty a c fuel name ownerClientID read write w =
      Call a c fuel "publish_property"
        ({ Name := name, OwnerClientID := ownerClientID,
           AccessType := "" :: "" ::
            ((if read then ["read"] else []) ++ (if write then ["write"] else [])) } :
          configuration.publishPropertyRequest)
        () [] w := by
  cases read <;> cases write <;> rfl

/-- The call of `TestPublishPropertyShouldReturnDataReceivedFromConfigurationAPI`: the
body that reaches the server lists three access types. -/
theorem publish_property_body :
    (configuration.PublishProperty (configurationClient "\x7b\x7d")
        (emptyResponseCodec (configuration.publishPropertyRequest.MarshalJSON plainQuote)) 1
        "dummy_property" "dummy_client_id" true false World.init).world.sent.map
        (fun x => x.Body) =
      [some ("\x7b\"name\":\"dummy_property\",\"owner_client_id\":\"dummy_client_id\"," ++
        "\"access_type\":[\"\",\"\",\"read\"]\x7d")] := by
  decide

theorem Call_fetches_token {π ρ : Type} (a : api) (c : Codec π ρ) (fuel : Nat)
    (action : String) (p : π) (t : ρ) (opts : List CallOptions) (w : World) :
    w.tokenCalls < (Call a c fuel action p t opts w).world.tokenCalls := by
  obtain ⟨n, -, hmode⟩ := Call_modes a c fuel action p t opts w _ rfl
  rcases hmode with ⟨h0, -, -, h1, -⟩ | ⟨h1, -⟩ | ⟨-, -, -, h1, -⟩ | ⟨-, h0, -, h1, -⟩ <;>
    omega

theorem validateBotGroupsAssignment_none (D : configuration.GroupPriority) :
    ∀ groups : List configuration.GroupConfig,
      configuration.validateBotGroupsAssignment D groups = none ↔
        ∀ g ∈ groups, g.Priority ≠ D := by
  intro groups
  induction groups with
  | nil => simp [configuration.validateBotGroupsAssignment]
  | cons g gs ih =>
    unfold configuration.validateBotGroupsAssignment
    by_cases hg : g.Priority = D
    · simp [hg]
    · simp [hg, ih]

theorem validateBotGroupsAssignment_some (D : configuration.GroupPriority) :
    ∀ groups : List configuration.GroupConfig, (∃ g ∈ groups, g.Priority = D) →
      configuration.validateBotGroupsAssignment D groups = some doNotAssignError := by
  intro groups
  induction groups with
  | nil => simp
  | cons g gs ih =>
    intro h
    unfold configuration.validateBotGroupsAssignment
    by_cases hg : g.Priority = D
    · simp [hg, doNotAssignError]
    · simp only [hg, if_false]
      apply ih
      obtain ⟨x, hx, hp⟩ := h
      rcases List.mem_cons.mp hx with rfl | hx
      · exact absurd hp hg
      · exact ⟨x, hx, hp⟩

theorem CreateBot_rejected (D : configuration.GroupPriority) (a : api)
    (c : Codec configuration.createBotRequest configuration.createBotResponse)
    (fuel : Nat) (name : String) (opts : Option configuration.CreateBotRequestOptions)
    (w : World) (h : ∃ g ∈ (opts.getD {}).Groups, g.Priority = D) :
    configuration.CreateBot D a c fuel name opts w =
      ⟨w, "", .returned (some doNotAssignError)⟩ := by
  cases opts with
  | none => simp at h
  | some o =>
    have hv := validateBotGroupsAssignment_some D o.Groups (by simpa using h)
    simp only [configuration.CreateBot, hv]

theorem CreateBot_passed (D : configuration.GroupPriority) (a : api)
    (c : Codec configuration.createBotRequest configuration.createBotResponse)
    (fuel : Nat) (name : String) (opts : Option configuration.CreateBotRequestOptions)
    (w : World) (h : ¬ ∃ g ∈ (opts.getD {}).Groups, g.Priority = D) :
    configuration.CreateBot D a c fuel name opts w =
      createBotCall a c fuel name (opts.getD {}) w := by
  have hv : configuration.validateBotGroupsAssignment D (opts.getD {}).Groups = none := by
    rw [validateBotGroupsAssignment_none]
    intro g hg hp
    exact h ⟨g, hg, hp⟩
  cases opts with
  | none =>
    simp only [Option.getD_none] at hv
    simp only [configuration.CreateBot, hv, createBotCall, Option.getD_none]
  | some o =>
    simp only [Option.getD_some] at hv
    simp only [configuration.CreateBot, hv, createBotCall, Option.getD_some]

theorem UpdateBot_rejected (D : configuration.GroupPriority) (a : api)
    (c : Codec configuration.updateBotRequest Unit)
    (fuel : Nat) (id : String) (opts : Option configuration.UpdateBotRequestOptions)
    (w : World) (h : ∃ g ∈ (opts.getD {}).Groups, g.Priority = D) :
    configuration.UpdateBot D a c fuel id opts w =
      ⟨w, (), .returned (some doNotAssignError)⟩ := by
  cases opts with
  | none => simp at h
  | some o =>
    have hv := validateBotGroupsAssignment_some D o.Groups (by simpa using h)
    simp only [configuration.UpdateBot, hv]

theorem UpdateBot_passed (D : configuration.GroupPriority) (a : api)
    (c : Codec configuration.updateBotRequest Unit)
    (fuel : Nat) (id : String) (opts : Option configuration.UpdateBotRequestOptions)
    (w : World) (h : ¬ ∃ g ∈ (opts.getD {}).Groups, g.Priority = D) :
    configuration.UpdateBot D a c fuel id opts w =
      updateBotCall a c fuel id (opts.getD {}) w := by
  have hv : configuration.validateBotGroupsAssignment D (opts.getD {}).Groups = none := by
    rw [validateBotGroupsAssignment_none]
    intro g hg hp
    exact h ⟨g, hg, hp⟩
  cases opts with
  | none =>
    simp only [Option.getD_none] at hv
    simp only [configuration.UpdateBot, hv, updateBotCall, Option.getD_none]
  | some o =>
    simp only [Option.getD_some] at hv
    simp only [configuration.UpdateBot, hv, updateBotCall, Option.getD_some]

/-- Claim C21.  `CreateBot` and `UpdateBot` return the error `DoNotAssign priority is
allowed only as default group priority` with nothing done, no token fetched and no
request sent, if and only if some entry of the `Groups` of the options has the priority
`DoNotAssign`.  In every other case, among them nil options, an empty `Groups` and a
`DoNotAssign` in `DefaultGroupPriority`, they return what the call of `create_bot` or
`update_bot` returns, and that call fetches a token. -/
theorem CreateBot_UpdateBot_reject_DoNotAssign_groups (D : configuration.GroupPriority)
    (a : api) (cb : Codec configuration.createBotRequest configuration.createBotResponse)
    (cu : Codec configuration.updateBotRequest Unit) (fuel : Nat) (name id : String)
    (co : Option configuration.CreateBotRequestOptions)
    (uo : Option configuration.UpdateBotRequestOptions) (w : World) :
    (((configuration.CreateBot D a cb fuel name co w).outcome =
            .returned (some doNotAssignError) ∧
          (configuration.CreateBot D a cb fuel name co w).target = "" ∧
          (configuration.CreateBot D a cb fuel name co w).world = w) ↔
        ∃ g ∈ (co.getD {}).Groups, g.Priority = D) ∧
      ((¬ ∃ g ∈ (co.getD {}).Groups, g.Priority = D) →
        configuration.CreateBot D a cb fuel name co w =
          createBotCall a cb fuel name (co.getD {}) w) ∧
      (((configuration.UpdateBot D a cu fuel id uo w).outcome =
            .returned (some doNotAssignError) ∧
          (configuration.UpdateBot D a cu fuel id uo w).world = w) ↔
        ∃ g ∈ (uo.getD {}).Groups, g.Priority = D) ∧
      ((¬ ∃ g ∈ (uo.getD {}).Groups, g.Priority = D) →
        configuration.UpdateBot D a cu fuel id uo w =
          updateBotCall a cu fuel id (uo.getD {}) w) := by
  refine ⟨⟨?_, ?_⟩, CreateBot_passed D a cb fuel name co w, ⟨?_, ?_⟩,
    UpdateBot_passed D a cu fuel id uo w⟩
  · rintro ⟨-, -, hw⟩
    by_contra hno
    rw [CreateBot_passed D a cb fuel name co w hno] at hw
    have := Call_fetches_token a cb fuel "create_bot"
      ({ Name := name, CreateBotRequestOptions := co.getD {} } :
        configuration.createBotRequest) {} [] w
    have hw1 := congrArg World.tokenCalls hw
    simp only [createBotCall] at hw1
    omega
  · intro h
    rw [CreateBot_rejected D a cb fuel name co w h]
    exact ⟨rfl, rfl, rfl⟩
  · rintro ⟨-, hw⟩
    by_contra hno
    rw [UpdateBot_passed D a cu fuel id uo w hno] at hw
    have := Call_fetches_token a cu fuel "update_bot"
      ({ BotID := id, UpdateBotRequestOptions := uo.getD {} } :
        configuration.updateBotRequest) () [] w
    have hw1 := congrArg World.tokenCalls hw
    simp only [updateBotCall] at hw1
    omega
  · intro h
    rw [UpdateBot_rejected D a cu fuel id uo w h]
    exact ⟨rfl, rfl⟩

/-- The calls of `TestCreateBotShouldReturnErrorForInvalidInput` and of
`TestUpdateBotShouldReturnErrorForInvalidInput` are rejected before anything is sent;
nil options, options without groups and options whose default priority is the rejected
one go through to the server. -/
theorem bot_groups_examples :
    (configuration.CreateBot testDoNotAssign (configurationClient createBotBody)
        createBotCodec 1 "John Doe"
        (some { Groups := [{ ID := 6, Priority := "supervisor" }],
                OwnerClientID := "dummy_client_id" }) World.init).outcome =
      .returned (some doNotAssignError) ∧
    (configuration.CreateBot testDoNotAssign (configurationClient createBotBody)
        createBotCodec 1 "John Doe"
        (some { Groups := [{ ID := 6, Priority := "supervisor" }],
                OwnerClientID := "dummy_client_id" }) World.init).world.sent.length = 0 ∧
    (configuration.UpdateBot testDoNotAssign (configurationClient "\x7b\x7d")
        (emptyResponseCodec (fun _ => "\x7b\x7d")) 1 "pqi8oasdjahuakndw9nsad9na"
        (some { Groups := [{ Priority := "supervisor" }] }) World.init).outcome =
      .returned (some doNotAssignError) ∧
    (configuration.CreateBot testDoNotAssign (configurationClient createBotBody)
        createBotCodec 1 "John Doe" none World.init).outcome = .returned none ∧
    ((configuration.CreateBot testDoNotAssign (configurationClient createBotBody)
        createBotCodec 1 "John Doe" (some { DefaultGroupPriority := "supervisor" })
        World.init).world.sent.map (fun x => x.Body)) =
      [some "\x7b\"name\":\"John Doe\",\"default_group_priority\":\"supervisor\"\x7d"] ∧
    (configuration.CreateBot testDoNotAssign (configurationClient createBotBody)
        createBotCodec 1 "John Doe" (some { Groups := [] })
        World.init).target = "5c9871d5372c824cbf22d860a707a578" := by
  decide

theorem createBotKeys_absent (q : String → String) (req : configuration.createBotRequest) :
    (req.CreateBotRequestOptions.Avatar = "" → "avatar" ∉ createBotKeys q req) ∧
    (req.CreateBotRequestOptions.DefaultGroupPriority = "" →
      "default_group_priority" ∉ createBotKeys q req) ∧
    (req.CreateBotRequestOptions.JobTitle = "" → "job_title" ∉ createBotKeys q req) ∧
    (req.CreateBotRequestOptions.MaxChatsCount = none →
      "max_chats_count" ∉ createBotKeys q req) ∧
    (req.CreateBotRequestOptions.Groups = [] → "groups" ∉ createBotKeys q req) ∧
    (req.CreateBotRequestOptions.OwnerClientID = "" →
      "owner_client_id" ∉ createBotKeys q req) ∧
    (req.CreateBotRequestOptions.WorkScheduler = none →
      "work_scheduler" ∉ createBotKeys q req) := by
  obtain ⟨name, ⟨avatar, priority, title, count, groups, owner, scheduler⟩⟩ := req
  rcases count with _ | n <;> rcases scheduler with _ | ws <;>
    refine ⟨?_, ?_, ?_, ?_, ?_, ?_, ?_⟩ <;> intro h <;>
    simp_all [createBotKeys, configuration.createBotRequest.members,
      apply_ite (List.map Prod.fst)]

theorem jsonObject_name (v : String) :
    jsonObject [("name", v)] = "\x7b\"name\":" ++ v ++ "\x7d" := by
  have h : jsonObject [("name", v)] = "\x7b" ++ ("\"name\":" ++ v) ++ "\x7d" := rfl
  rw [h, ← String.append_assoc]
  rfl

/-- Claim C26.  Absent optional fields are omitted from the serialized request.  With
`json.Marshal` writing a `createBotRequest` after the tags of its fields, for every name
`CreateBot(name, nil)` does exactly what `CreateBot` with zero-valued options does;
every request it sends has the body `\x7b"name":<name>\x7d`, with `<name>` the encoding of
the name, and it sends one when the call gets as far as `send`; and an option left at
its zero value contributes no key to the object written for a request. -/
theorem CreateBot_omits_absent_options (q : String → String)
    (D : configuration.GroupPriority) (a : api)
    (c : Codec configuration.createBotRequest configuration.createBotResponse)
    (fuel : Nat) (name : String) (w : World) :
    configuration.CreateBot D a
        (c.withMarshal (configuration.createBotRequest.MarshalJSON q)) fuel name none w =
      configuration.CreateBot D a
        (c.withMarshal (configuration.createBotRequest.MarshalJSON q)) fuel name
        (some {}) w ∧
    (∃ extra,
      (configuration.CreateBot D a
        (c.withMarshal (configuration.createBotRequest.MarshalJSON q)) fuel name none
        w).world.sent = w.sent ++ extra ∧
      (reachesSend a (c.withMarshal (configuration.createBotRequest.MarshalJSON q))
          "create_bot" ({ Name := name } : configuration.createBotRequest) [] w →
        0 < fuel → extra ≠ []) ∧
      ∀ x ∈ extra, x.Body = some ("\x7b\"name\":" ++ q name ++ "\x7d")) ∧
    (∀ req : configuration.createBotRequest,
      (req.CreateBotRequestOptions.Avatar = "" → "avatar" ∉ createBotKeys q req) ∧
      (req.CreateBotRequestOptions.DefaultGroupPriority = "" →
        "default_group_priority" ∉ createBotKeys q req) ∧
      (req.CreateBotRequestOptions.JobTitle = "" → "job_title" ∉ createBotKeys q req) ∧
      (req.CreateBotRequestOptions.MaxChatsCount = none →
        "max_chats_count" ∉ createBotKeys q req) ∧
      (req.CreateBotRequestOptions.Groups = [] → "groups" ∉ createBotKeys q req) ∧
      (req.CreateBotRequestOptions.OwnerClientID = "" →
        "owner_client_id" ∉ createBotKeys q req) ∧
      (req.CreateBotRequestOptions.WorkScheduler = none →
        "work_scheduler" ∉ createBotKeys q req)) := by
  refine ⟨rfl, ?_, createBotKeys_absent q⟩
  have hpass := CreateBot_passed D a
    (c.withMarshal (configuration.createBotRequest.MarshalJSON q)) fuel name none w
    (by simp)
  rw [hpass]
  simp only [createBotCall, Option.getD_none]
  obtain ⟨extra, hs, hall⟩ := Call_sent a
    (c.withMarshal (configuration.createBotRequest.MarshalJSON q)) fuel "create_bot"
    ({ Name := name } : configuration.createBotRequest)
    ({} : configuration.createBotResponse) [] w
    (fun _ x => x.Body = some ("\x7b\"name\":" ++ q name ++ "\x7d") ∧
      x.GetBody = some (.ok ("\x7b\"name\":" ++ q name ++ "\x7d")))
    (by
      intro k x tok hP _ _
      obtain ⟨hb, hgb⟩ := hP
      exact ⟨by simp [retryRequest, hb, hgb], by simp [retryRequest, hgb]⟩)
    (by
      intro tok u enc _ _ _ henc
      have henc1 : enc = "\x7b\"name\":" ++ q name ++ "\x7d" := by
        simp only [encodePayload, isGet, Codec.withMarshal, Bool.false_eq_true, if_false,
          Except.ok.injEq] at henc
        rw [← henc]
        exact jsonObject_name (q name)
      subst henc1
      exact ⟨by simp [firstRequest, isGet], by simp [firstRequest, isGet]⟩)
  refine ⟨extra, hs, ?_, ?_⟩
  · intro hreach hfuel hnil
    subst hnil
    have := Call_reaches_transport a
      (c.withMarshal (configuration.createBotRequest.MarshalJSON q)) fuel "create_bot"
      ({ Name := name } : configuration.createBotRequest)
      ({} : configuration.createBotResponse) [] w hreach hfuel
    rw [hs] at this
    simp at this
  · intro x hx
    obtain ⟨i, hi⟩ := List.mem_iff_getElem?.mp hx
    exact (hall i x hi).1

/-- The first and the third call of `TestCreateBotOK` send the bodies that the test
expects. -/
theorem create_bot_bodies :
    (configuration.CreateBot testDoNotAssign (configurationClient createBotBody)
        createBotCodec 1 "John Doe" none World.init).world.sent.map (fun x => x.Body) =
      [some "\x7b\"name\":\"John Doe\"\x7d"] ∧
    (configuration.CreateBot testDoNotAssign (configurationClient createBotBody)
        createBotCodec 1 "John Doe"
        (some { Avatar := "https://example.com/avatar.png" })
        World.init).world.sent.map (fun x => x.Body) =
      [some ("\x7b\"name\":\"John Doe\"," ++
        "\"avatar\":\"https://example.com/avatar.png\"\x7d")] := by
  decide

set_option maxRecDepth 8000 in
/-- The second call of `TestCreateBotOK`, with every option that the test sets, sends
the body that the test expects. -/
theorem create_bot_body_with_options :
    (configuration.CreateBot testDoNotAssign (configurationClient createBotBody)
        createBotCodec 1 "John Doe"
        (some { Avatar := "https://example.com/avatar.png"
                Groups := [{ ID := 6, Priority := "first" }]
                OwnerClientID := "dummy_client_id"
                WorkScheduler := some { Timezone := "dummy/timezone"
                                        Schedule := some [{ Enabled := true, Day := "monday"
                                                            Start := "09:00"
                                                            End := "17:00" }] } })
        World.init).world.sent.map (fun x => x.Body) =
      [some ("\x7b\"name\":\"John Doe\",\"avatar\":\"https://example.com/avatar.png\"," ++
        "\"groups\":[\x7b\"id\":6,\"priority\":\"first\"\x7d]," ++
        "\"owner_client_id\":\"dummy_client_id\"," ++
        "\"work_scheduler\":\x7b\"timezone\":\"dummy/timezone\"," ++
        "\"schedule\":[\x7b\"enabled\":true,\"day\":\"monday\",\"start\":\"09:00\"," ++
        "\"end\":\"17:00\"\x7d]\x7d\x7d")] := by
  decide

/-! ## Package `agent`: the events a client sends -/

theorem SendEvent_rejected (a : api)
    (c : Codec agent.sendEventRequest agent.sendEventResponse) (fuel : Nat)
    (chatID : String) (event : agent.Any) (attachToLastThread : Bool) (w : World)
    (err : GoError) (h : agent.ValidateEvent event = some err) :
    agent.SendEvent a c fuel chatID event attachToLastThread w =
      ⟨w, "", .returned (some err)⟩ := by
  simp only [agent.SendEvent, h]

theorem SendEvent_passed (a : api)
    (c : Codec agent.sendEventRequest agent.sendEventResponse) (fuel : Nat)
    (chatID : String) (event : agent.Any) (attachToLastThread : Bool) (w : World)
    (h : agent.ValidateEvent event = none) :
    agent.SendEvent a c fuel chatID event attachToLastThread w =
      sendEventCall a c fuel chatID event attachToLastThread w := by
  simp only [agent.SendEvent, h, sendEventCall]

/-- Claim C22, as the code has it.  The doc comment of `SendEvent` names four supported
event types; `ValidateEvent` lets a fifth pass.  It returns nil for an `Event`, a `File`,
a `Message`, a `RichMessage` or a `SystemMessage`, by value or by pointer, and for no
other value; for a value of any other dynamic type it returns the error
`event type T not supported`, with `T` the name of that type.  `SendEvent` returns the
error of `ValidateEvent` with nothing done, no token fetched and no request sent, and
goes on to the call of `send_event` when there is none. -/
theorem SendEvent_supported_event_types (a : api)
    (c : Codec agent.sendEventRequest agent.sendEventResponse) (fuel : Nat)
    (chatID : String) (event : agent.Any) (attachToLastThread : Bool) (w : World) :
    (agent.ValidateEvent event = none ↔
      (∃ v, event = .Event v) ∨ (∃ v, event = .File v) ∨ (∃ v, event = .Message v) ∨
      (∃ v, event = .RichMessage v) ∨ (∃ v, event = .SystemMessage v) ∨
      (∃ v, event = .EventPtr v) ∨ (∃ v, event = .FilePtr v) ∨
      (∃ v, event = .MessagePtr v) ∨ (∃ v, event = .RichMessagePtr v) ∨
      (∃ v, event = .SystemMessagePtr v)) ∧
    (∀ typeName, event = .other typeName →
      agent.ValidateEvent event =
        some (.text ("event type " ++ typeName ++ " not supported"))) ∧
    (∀ err, agent.ValidateEvent event = some err →
      agent.SendEvent a c fuel chatID event attachToLastThread w =
        ⟨w, "", .returned (some err)⟩) ∧
    (agent.ValidateEvent event = none →
      agent.SendEvent a c fuel chatID event attachToLastThread w =
        sendEventCall a c fuel chatID event attachToLastThread w) := by
  refine ⟨?_, ?_, fun err h => SendEvent_rejected a c fuel chatID event _ w err h,
    SendEvent_passed a c fuel chatID event _ w⟩
  · cases event <;> simp [agent.ValidateEvent]
  · rintro typeName rfl
    rfl

/-- Claim C22 fails on the code: a rich message, by value or by pointer, passes
`ValidateEvent`, and `SendEvent` sends it and returns the event ID; a string does not
pass and is not sent. -/
theorem SendEvent_supported_event_types_counterexample :
    agent.ValidateEvent (.RichMessage {}) = none ∧
    agent.ValidateEvent (.RichMessagePtr (some {})) = none ∧
    (agent.SendEvent (stubClient stubBearerTokenGetter (fixedResponder 200 sendEventBody) none)
        (agentCodec sendEventBody { EventID := "K600PKZON8" }) 1 "stubChatID"
        (.RichMessage {}) false World.init).world.sent.length = 1 ∧
    (agent.SendEvent (stubClient stubBearerTokenGetter (fixedResponder 200 sendEventBody) none)
        (agentCodec sendEventBody { EventID := "K600PKZON8" }) 1 "stubChatID"
        (.RichMessage {}) false World.init).target = "K600PKZON8" ∧
    (agent.SendEvent (stubClient stubBearerTokenGetter (fixedResponder 200 sendEventBody) none)
        (agentCodec sendEventBody { EventID := "K600PKZON8" }) 1 "stubChatID"
        (.other "string") false World.init).world.sent.length = 0 ∧
    (agent.SendEvent (stubClient stubBearerTokenGetter (fixedResponder 200 sendEventBody) none)
        (agentCodec sendEventBody { EventID := "K600PKZON8" }) 1 "stubChatID"
        (.other "string") false World.init).outcome =
      .returned (some (.text "event type string not supported")) := by
  decide

/-! ## Package `agent`: the initial chat -/

theorem validateEvents_none : ∀ events : List agent.Any,
    agent.InitialChat.validateEvents events = none ↔
      ∀ e ∈ events, agent.ValidateEvent e = none := by
  intro events
  induction events with
  | nil => simp [agent.InitialChat.validateEvents]
  | cons e es ih =>
    unfold agent.InitialChat.validateEvents
    cases he : agent.ValidateEvent e with
    | none => simp [he, ih]
    | some err => simp [he]

theorem validateEvents_first (pre : List agent.Any) (e : agent.Any) (post : List agent.Any)
    (err : GoError) (hpre : ∀ x ∈ pre, agent.ValidateEvent x = none)
    (he : agent.ValidateEvent e = some err) :
    agent.InitialChat.validateEvents (pre ++ e :: post) = some err := by
  induction pre with
  | nil => simp [agent.InitialChat.validateEvents, he]
  | cons x xs ih =>
    have hx : agent.ValidateEvent x = none := hpre x (List.mem_cons_self _ _)
    have hxs : ∀ y ∈ xs, agent.ValidateEvent y = none :=
      fun y hy => hpre y (List.mem_cons_of_mem _ hy)
    simp only [List.cons_append, agent.InitialChat.validateEvents, hx]
    exact ih hxs

theorem validateEvents_some : ∀ (events : List agent.Any) (err : GoError),
    agent.InitialChat.validateEvents events = some err →
      ∃ pre e post, events = pre ++ e :: post ∧
        (∀ x ∈ pre, agent.ValidateEvent x = none) ∧ agent.ValidateEvent e = some err := by
  intro events
  induction events with
  | nil => intro err h; simp [agent.InitialChat.validateEvents] at h
  | cons e es ih =>
    intro err h
    unfold agent.InitialChat.validateEvents at h
    cases he : agent.ValidateEvent e with
    | some err1 =>
      rw [he] at h
      simp only [Option.some.injEq] at h
      subst h
      exact ⟨[], e, es, rfl, by simp, he⟩
    | none =>
      rw [he] at h
      obtain ⟨pre, x, post, hes, hpre, hx⟩ := ih err h
      refine ⟨e :: pre, x, post, by rw [hes]; rfl, ?_, hx⟩
      intro y hy
      rcases List.mem_cons.mp hy with rfl | hy
      · exact he
      · exact hpre y hy

/-- Claim C23.  For every non-nil `InitialChat`, `Validate` returns, and it returns nil
if and only if the chat has no thread or every element of the `Events` of its thread
passes `ValidateEvent`.  Otherwise the events split into a passing prefix and a first
failing event, and `Validate` returns the error of that event; `StartChat` and
`ResumeChat` then return that error with nothing done, no token fetched and no request
sent. -/
theorem InitialChat_Validate_first_failing_event (a : api)
    (cs : Codec agent.startChatRequest agent.startChatResponse)
    (cr : Codec agent.resumeChatRequest agent.resumeChatResponse) (fuel : Nat)
    (chat : agent.InitialChat) (continuous active : Bool) (w : World) :
    (∃ err, agent.InitialChat.Validate (some chat) = .returned err) ∧
    (agent.InitialChat.Validate (some chat) = .returned none ↔
      chat.Thread = none ∨
        ∃ thread, chat.Thread = some thread ∧
          ∀ e ∈ thread.Events, agent.ValidateEvent e = none) ∧
    (agent.InitialChat.Validate (some chat) ≠ .returned none →
      ∃ thread pre e post err, chat.Thread = some thread ∧
        thread.Events = pre ++ e :: post ∧
        (∀ x ∈ pre, agent.ValidateEvent x = none) ∧
        agent.ValidateEvent e = some err ∧
        agent.InitialChat.Validate (some chat) = .returned (some err) ∧
        agent.StartChat a cs fuel (some chat) continuous active w =
          ⟨w, ("", "", []), .returned (some err)⟩ ∧
        agent.ResumeChat a cr fuel (some chat) continuous active w =
          ⟨w, ("", []), .returned (some err)⟩) := by
  obtain ⟨id, thread⟩ := chat
  cases thread with
  | none =>
    refine ⟨⟨none, rfl⟩, ⟨fun _ => Or.inl rfl, fun _ => rfl⟩, fun h => absurd rfl h⟩
  | some thread =>
    have hV : agent.InitialChat.Validate (some { ID := id, Thread := some thread }) =
        .returned (agent.InitialChat.validateEvents thread.Events) := rfl
    refine ⟨⟨_, hV⟩, ?_, ?_⟩
    · rw [hV]
      constructor
      · intro h
        simp only [Outcome.returned.injEq] at h
        exact Or.inr ⟨thread, rfl, (validateEvents_none _).mp h⟩
      · rintro (h | ⟨t, ht, hall⟩)
        · cases h
        · simp only [Option.some.injEq] at ht
          subst ht
          rw [(validateEvents_none _).mpr hall]
    · intro hne
      rw [hV] at hne
      cases hv : agent.InitialChat.validateEvents thread.Events with
      | none => rw [hv] at hne; exact absurd rfl hne
      | some err =>
        obtain ⟨pre, e, post, hes, hpre, he⟩ := validateEvents_some _ _ hv
        refine ⟨thread, pre, e, post, err, rfl, hes, hpre, he, by rw [hV, hv], ?_, ?_⟩
        · simp only [agent.StartChat, hV, hv]
        · simp only [agent.ResumeChat, hV, hv]

/-- The chat of `TestStartChatShouldReturnDataReceivedFromCustomerAPI`, whose thread has
one message, given by pointer, is started; a chat whose second event is a string is
rejected with the error of that event, before the third event is looked at and before
anything is sent. -/
theorem start_chat_examples :
    (agent.StartChat (stubClient stubBearerTokenGetter (fixedResponder 200 startChatBody) none)
        (agentCodec startChatBody { ChatID := "PJ0MRSHTDG", ThreadID := "PGDGHT5G" }) 1
        (some { Thread := some { Events := [.MessagePtr (some {})] } }) true true
        World.init).target = ("PJ0MRSHTDG", "PGDGHT5G", []) ∧
    (agent.StartChat (stubClient stubBearerTokenGetter (fixedResponder 200 startChatBody) none)
        (agentCodec startChatBody { ChatID := "PJ0MRSHTDG", ThreadID := "PGDGHT5G" }) 1
        (some { Thread := some { Events := [.Message {}, .other "string", .other "int"] } })
        true true World.init).outcome =
      .returned (some (.text "event type string not supported")) ∧
    (agent.StartChat (stubClient stubBearerTokenGetter (fixedResponder 200 startChatBody) none)
        (agentCodec startChatBody { ChatID := "PJ0MRSHTDG", ThreadID := "PGDGHT5G" }) 1
        (some { Thread := some { Events := [.Message {}, .other "string", .other "int"] } })
        true true World.init).world.sent.length = 0 ∧
    (agent.StartChat (stubClient stubBearerTokenGetter (fixedResponder 200 startChatBody) none)
        (agentCodec startChatBody { ChatID := "PJ0MRSHTDG", ThreadID := "PGDGHT5G" }) 1
        none true true World.init).outcome = .panicked := by
  decide

/-! ## Package `agent`: the variants of an event -/

theorem hasValue_false_of_none {α : Type} :
    Returns.hasValue (Returns.value (none : Option α)) = false :=
  rfl

/-- Claim C27.  For every `Event`, each variant accessor returns nil when the `Type` of
the event is not the tag of the variant: `Message` unless it is `message`, `File` unless
it is `file`, `SystemMessage` unless it is `system_message`, `RichMessage` unless it is
`rich_message`, `FilledForm` unless it is `filled_form`.  Hence at most one of the five
returns a value, and none of them panics, whatever the raw fields of the event hold. -/
theorem Event_accessors_nil_unless_tag_matches (d : JSONDecoder) (e : agent.Event) :
    (e.Type' ≠ "message" → agent.Event.Message d (some e) = .value none) ∧
    (e.Type' ≠ "file" → agent.Event.File d (some e) = .value none) ∧
    (e.Type' ≠ "system_message" → agent.Event.SystemMessage d (some e) = .value none) ∧
    (e.Type' ≠ "rich_message" → agent.Event.RichMessage d (some e) = .value none) ∧
    (e.Type' ≠ "filled_form" → agent.Event.FilledForm d (some e) = .value none) ∧
    ([(agent.Event.Message d (some e)).hasValue, (agent.Event.File d (some e)).hasValue,
      (agent.Event.SystemMessage d (some e)).hasValue,
      (agent.Event.RichMessage d (some e)).hasValue,
      (agent.Event.FilledForm d (some e)).hasValue].count true ≤ 1) ∧
    (agent.Event.Message d (some e) ≠ .panicked ∧
      agent.Event.File d (some e) ≠ .panicked ∧
      agent.Event.SystemMessage d (some e) ≠ .panicked ∧
      agent.Event.RichMessage d (some e) ≠ .panicked ∧
      agent.Event.FilledForm d (some e) ≠ .panicked) := by
  have hm : e.Type' ≠ "message" → agent.Event.Message d (some e) = .value none := by
    intro h; simp [agent.Event.Message, h]
  have hf : e.Type' ≠ "file" → agent.Event.File d (some e) = .value none := by
    intro h; simp [agent.Event.File, h]
  have hs : e.Type' ≠ "system_message" →
      agent.Event.SystemMessage d (some e) = .value none := by
    intro h; simp [agent.Event.SystemMessage, h]
  have hr : e.Type' ≠ "rich_message" → agent.Event.RichMessage d (some e) = .value none := by
    intro h; simp [agent.Event.RichMessage, h]
  have hff : e.Type' ≠ "filled_form" → agent.Event.FilledForm d (some e) = .value none := by
    intro h; simp [agent.Event.FilledForm, h]
  refine ⟨hm, hf, hs, hr, hff, ?_, ?_⟩
  · by_cases h1 : e.Type' = "message"
    · rw [hf (by rw [h1]; decide), hs (by rw [h1]; decide), hr (by rw [h1]; decide),
        hff (by rw [h1]; decide)]
      cases (agent.Event.Message d (some e)).hasValue <;> decide
    · rw [hm h1]
      by_cases h2 : e.Type' = "file"
      · rw [hs (by rw [h2]; decide), hr (by rw [h2]; decide), hff (by rw [h2]; decide)]
        cases (agent.Event.File d (some e)).hasValue <;> decide
      · rw [hf h2]
        by_cases h3 : e.Type' = "system_message"
        · rw [hr (by rw [h3]; decide), hff (by rw [h3]; decide)]
          cases (agent.Event.SystemMessage d (some e)).hasValue <;> decide
        · rw [hs h3]
          by_cases h4 : e.Type' = "rich_message"
          · rw [hff (by rw [h4]; decide)]
            cases (agent.Event.RichMessage d (some e)).hasValue <;> decide
          · rw [hr h4]
            cases (agent.Event.FilledForm d (some e)).hasValue <;> decide
  · refine ⟨?_, ?_, ?_, ?_, ?_⟩
    · simp only [agent.Event.Message]
      split_ifs
      · simp
      · repeat' split
        all_goals simp
    · simp only [agent.Event.File]
      split_ifs
      · simp
      · repeat' split
        all_goals simp
    · simp only [agent.Event.SystemMessage]
      split_ifs
      · simp
      · repeat' split
        all_goals simp
    · simp only [agent.Event.RichMessage]
      split_ifs
      · simp
      · repeat' split
        all_goals simp
    · simp only [agent.Event.FilledForm]
      split_ifs
      · simp
      · repeat' split
        all_goals simp

/-- A message event yields a `Message` and nothing else; an event whose type is no tag
yields nothing; a message event without text is malformed and yields nothing; only a nil
receiver panics. -/
theorem event_accessor_examples :
    agent.Event.Message stubDecoder
        (some { Type' := "message", eventSpecific := { Text := some "hi" } }) =
      .value (some { Event := { Type' := "message", eventSpecific := { Text := some "hi" } }
                     Text := "hi" }) ∧
    agent.Event.File stubDecoder
        (some { Type' := "message", eventSpecific := { Text := some "hi" } }) =
      .value none ∧
    agent.Event.Message stubDecoder (some { Type' := "custom" }) = .value none ∧
    agent.Event.Message stubDecoder (some { Type' := "message" }) = .value none ∧
    agent.Event.Message stubDecoder none = .panicked := by
  decide

/-! ## Package `agent`: filters -/

/-- Claim C24.  `NewPropertyFilterType(includes, vals, requireEveryValue)` sets exactly
one of `Exists`, `Values` and `ExcludeValues`.  With nil `vals` it sets `Exists` to
`includes` and nothing else, whatever the last parameter is; with non-nil `vals` it
leaves `Exists` unset, sets `RequireEveryValue` to `requireEveryValue`, and sets `Values`
to `vals` when `includes` is true, `ExcludeValues` to `vals` when it is false. -/
theorem NewPropertyFilterType_sets_one_field {ι : Type} (includes : Bool)
    (vals : List ι) (requireEveryValue : Bool) :
    (agent.NewPropertyFilterType includes (none : Option (List ι)) requireEveryValue =
      { Exists := some includes, Values := none, ExcludeValues := none,
        RequireEveryValue := none }) ∧
    (agent.NewPropertyFilterType true (some vals) requireEveryValue =
      { Exists := none, Values := some vals, ExcludeValues := none,
        RequireEveryValue := some requireEveryValue }) ∧
    (agent.NewPropertyFilterType false (some vals) requireEveryValue =
      { Exists := none, Values := none, ExcludeValues := some vals,
        RequireEveryValue := some requireEveryValue }) ∧
    (∀ v : Option (List ι),
      [(agent.NewPropertyFilterType includes v requireEveryValue).Exists.isSome,
        (agent.NewPropertyFilterType includes v requireEveryValue).Values.isSome,
        (agent.NewPropertyFilterType includes v requireEveryValue).ExcludeValues.isSome].count
          true = 1) := by
  refine ⟨rfl, rfl, rfl, ?_⟩
  intro v
  cases v <;> cases includes <;> rfl

/-- The three tests of `NewPropertyFilterType`. -/
theorem property_filter_examples :
    agent.NewPropertyFilterType true (none : Option (List Nat)) false =
      { Exists := some true } ∧
    agent.NewPropertyFilterType true (some [0, 1, 2]) false =
      { Values := some [0, 1, 2], RequireEveryValue := some false } ∧
    agent.NewPropertyFilterType false (some [0, 1, 2]) true =
      { ExcludeValues := some [0, 1, 2], RequireEveryValue := some true } ∧
    agent.NewPropertyFilterType false (some ([] : List Nat)) true =
      { ExcludeValues := some [], RequireEveryValue := some true } := by
  decide

/-- Claim C25.  Whatever the state of an archives filter, and so in every state that the
builder methods lead to, `ByThreads(ids)` leaves `ThreadIDs = ids` and every other
field, agents, group IDs, from, to, properties, tags, sales, goals, surveys, query, event
types and greetings, at its zero value. -/
theorem ByThreads_clears_other_filters {ι : Type} (af : agent.archivesFilters ι)
    (ids : Option (List String)) :
    af.ByThreads ids =
      { Agents := none, GroupIDs := none, From := "", To := "", Properties := none,
        Tags := none, Sales := none, Goals := none, Surveys := none, ThreadIDs := ids,
        Query := "", EventTypes := none, Greetings := none } ∧
    (af.ByThreads ids).ThreadIDs = ids ∧
    (af.ByThreads ids).Agents = none ∧ (af.ByThreads ids).GroupIDs = none ∧
    (af.ByThreads ids).From = "" ∧ (af.ByThreads ids).To = "" ∧
    (af.ByThreads ids).Properties = none ∧ (af.ByThreads ids).Tags = none ∧
    (af.ByThreads ids).Sales = none ∧ (af.ByThreads ids).Goals = none ∧
    (af.ByThreads ids).Surveys = none ∧ (af.ByThreads ids).Query = "" ∧
    (af.ByThreads ids).EventTypes = none ∧ (af.ByThreads ids).Greetings = none :=
  ⟨rfl, rfl, rfl, rfl, rfl, rfl, rfl, rfl, rfl, rfl, rfl, rfl, rfl, rfl⟩

/-- The filter of `TestArchiveFiltersByThreadsClearsOtherFilters`, and one on which every
builder method has been called before `ByThreads`. -/
theorem by_threads_examples :
    (((agent.NewArchivesFilters : agent.archivesFilters Nat).ByQuery "query").ByThreads
        (some ["thread"])).Query = "" ∧
    (((agent.NewArchivesFilters : agent.archivesFilters Nat).ByQuery "query").ByThreads
        (some ["thread"])).ThreadIDs = some ["thread"] ∧
    (((((((((((((agent.NewArchivesFilters : agent.archivesFilters Nat).ByAgents true
        (some [1]) false).ByGroups (some [1])).ByQuery "query").FromDate "2020").ToDate
        "2021").ByProperties (some [])).BySurveys (some [])).ByTags false none true).BySales
        true none true).ByGoals true none true).ByEventTypes true (some ["message"])
        false).ByGreetings (some {})).ByThreads (some ["thread"]) =
      { ThreadIDs := some ["thread"] } := by
  refine ⟨rfl, rfl, rfl⟩

end LcSdk
